import Mathlib

/-!
# The binary protocol: frame codec and UDP tunnel

A shallow embedding of the frame codec (BinaryMessage.h / BinaryMessage.cpp:
start bytes, the in-memory frame, the 16-bit checksum, `write`, `read` and
`validate`) and of the tunnel engine (UdpTunnel.h / UdpTunnel.cpp: peer table,
pending tables, handshake, dispatch and the periodic work of `loop`), followed
by the properties proved about them.

Conventions of the embedding.

* `uint8_t` and `uint16_t` values are natural numbers; where the C++ code
  truncates on assignment the truncation is written out (`% 65536`).
* A `uint8_t*` is `Option (List Nat)`: `none` is `nullptr`, `some mem` is a
  pointer to the bytes `mem`.  Reading `n` bytes through a pointer is defined
  only when the pointer designates at least `n` bytes (see `region`).
* The stream is the list of bytes written to it (`write`) or the datagram
  offered by it (`read`).
* A tunnel operation is a function on the tunnel state. The state carries two
  logs, the frames handed to the transport and the trigger calls made; the
  clock reading, the inbound datagram and the random draws are arguments.
-/

namespace bpa

/-! ## common.h -/

def BPA_VERSION : Nat := 1

def BPA_MAX_PAYLOAD_SIZE : Nat := 256

def BPA_MAX_SIZE : Nat := BPA_MAX_PAYLOAD_SIZE + 6

/-! ## enum StartByte -/

def UNDEFINED : Nat := 0x00
def START_V1 : Nat := 0x30
def CONFIRM : Nat := 0x41
def INCORRECT_FORMAT : Nat := 0x46
def INCORRECT_CHECKSUM : Nat := 0x48
def PING : Nat := 0x50
def REJECTED : Nat := 0x52
def HANDSHAKE_INIT : Nat := 0x2A
def HANDSHAKE_RESP : Nat := 0x2B
def HANDSHAKE_COMPLETE : Nat := 0x2E
def DISCONNECT : Nat := 0x7E

/-- The enum ValidationStatus of BinaryMessage.h. -/
inductive ValidationStatus where
  | STATUS_OK
  | STATUS_MISSED_START_BYTE
  | STATUS_MISSED_DEVICE_ID
  | STATUS_MISSED_MESSAGE_ID
  | STATUS_INCORRECT_CHECKSUM
  | STATUS_INCORRECT_FORMAT
  | STATUS_STREAM_ERROR
  | STATUS_UNEXPECTED_END_OF_STREAM
deriving DecidableEq, Repr

open ValidationStatus

/-- The struct BinaryMessage: `start` holds the byte value of the StartByte
enumerator, `data` is the payload pointer. -/
structure BinaryMessage where
  start : Nat
  device_id : Nat
  message_id : Nat
  size : Nat
  data : Option (List Nat)
deriving DecidableEq, Repr

/-- The bytes obtained by reading `n` bytes through the pointer `data`.
Reading nothing is always defined; reading through `nullptr` or past the end
of the designated bytes is undefined (`none`). -/
def region (data : Option (List Nat)) (n : Nat) : Option (List Nat) :=
  match data with
  | none => if n = 0 then some [] else none
  | some mem => if n ≤ mem.length then some (mem.take n) else none

/-! ## Start-byte predicates -/

def isVersionStartByte (start : Nat) : Bool :=
  decide (start ≥ START_V1) && decide (start ≤ 0x39)

def isControlStartByte (start : Nat) : Bool :=
  decide (start ≥ 0x41) && decide (start ≤ 0x5A)

def isHandshakeStartByte (start : Nat) : Bool :=
  start == HANDSHAKE_INIT || start == HANDSHAKE_RESP || start == HANDSHAKE_COMPLETE

def SUPPORTED_START_BYTES : List Nat :=
  [START_V1, CONFIRM, INCORRECT_FORMAT, INCORRECT_CHECKSUM, PING, REJECTED,
   HANDSHAKE_INIT, HANDSHAKE_RESP, HANDSHAKE_COMPLETE, DISCONNECT]

def isSupportedStartByte (start : Nat) : Bool :=
  SUPPORTED_START_BYTES.contains start

def emptyMessage : BinaryMessage :=
  { start := UNDEFINED, device_id := 0, message_id := 0, size := 0, data := none }

def isMessageEmpty (message : BinaryMessage) : Bool :=
  message.start == UNDEFINED && message.device_id == 0 && message.message_id == 0 &&
    message.size == 0 && message.data.isNone

/-! ## Checksum -/

/-- The loop of fnv1a_hash16: `remaining` iterations are left, `i` is the loop
index and `hash` the 16-bit accumulator.  Both compound assignments truncate
to 16 bits. -/
def fnv1a_loop (bytes : List Nat) : Nat → Nat → Nat → Nat
  | 0, _, hash => hash
  | remaining + 1, i, hash =>
    let hash1 := (hash ^^^ bytes.getD i 0) % 65536
    let hash2 := (hash1 * 0xA1) % 65536
    fnv1a_loop bytes remaining (i + 1) hash2

/-- The function fnv1a_hash16(bytes, length). -/
def fnv1a_hash16 (bytes : List Nat) (length : Nat) : Nat :=
  fnv1a_loop bytes length 0 0x97

/-- The function calculate_hash(message): the hash of the four header bytes
followed by the `size` payload bytes.  With a null `data` the payload part of
the local array is left uninitialised, which is harmless only for size 0. -/
def calculate_hash (message : BinaryMessage) : Option Nat :=
  match region message.data message.size with
  | none => none
  | some payload =>
    let bytes := [message.start, message.device_id, message.message_id, message.size] ++ payload
    some (fnv1a_hash16 bytes (4 + message.size))

/-! ## BinaryMessageIO -/

def identify_start_byte (val : Nat) : Nat :=
  if isSupportedStartByte val then val else UNDEFINED

/-- The static method BinaryMessageIO::validate. -/
def validate (message : BinaryMessage) : ValidationStatus :=
  if !isSupportedStartByte message.start then STATUS_MISSED_START_BYTE
  else if message.device_id = 0 then STATUS_MISSED_DEVICE_ID
  else if message.message_id = 0 then STATUS_MISSED_MESSAGE_ID
  else if message.start = START_V1 ∧ message.size = 0 then STATUS_INCORRECT_FORMAT
  else if message.size > 0 ∧ message.data = none then STATUS_INCORRECT_FORMAT
  else if message.size = 0 ∧ message.data ≠ none then STATUS_INCORRECT_FORMAT
  else if message.start = HANDSHAKE_INIT ∧ message.size ≠ 3 then STATUS_INCORRECT_FORMAT
  else if message.start = HANDSHAKE_RESP ∧ message.size ≠ 3 then STATUS_INCORRECT_FORMAT
  else if message.start = HANDSHAKE_COMPLETE ∧ message.size ≠ 3 then STATUS_INCORRECT_FORMAT
  else if message.start = PING ∧ message.size ≠ 0 then STATUS_INCORRECT_FORMAT
  else if message.start = CONFIRM ∧ message.size ≠ 0 then STATUS_INCORRECT_FORMAT
  else if message.start = INCORRECT_FORMAT ∧ message.size ≠ 0 then STATUS_INCORRECT_FORMAT
  else if message.start = INCORRECT_CHECKSUM ∧ message.size ≠ 0 then STATUS_INCORRECT_FORMAT
  else if message.start = REJECTED ∧ message.size ≠ 0 then STATUS_INCORRECT_FORMAT
  else if message.start = DISCONNECT ∧ message.size ≠ 0 then STATUS_INCORRECT_FORMAT
  else STATUS_OK

/-- The method BinaryMessageIO::write with a non-null stream: the bytes handed
to the stream, in order.  The result is `none` when the payload pointer does
not designate `size` readable bytes. -/
def write (message : BinaryMessage) : Option (List Nat) :=
  match region message.data message.size with
  | none => none
  | some payload =>
    let checksum := fnv1a_hash16 payload message.size
    some ([message.start, message.device_id, message.message_id, message.size]
      ++ payload ++ [checksum >>> 8, checksum &&& 0xFF])

/-- The method BinaryMessageIO::read with a non-null stream offering the
datagram `packet`.  `readBytes` stores at most BPA_MAX_SIZE bytes at the front
of the buffer and returns their number; after the two length checks every index
used lies below `count`, so older buffer contents are never observed.  The
payload pointer `buffer + 4` is represented by the `size` bytes it designates. -/
def read (packet : List Nat) : Option (BinaryMessage × ValidationStatus) :=
  let buffer := packet.take BPA_MAX_SIZE
  let count := buffer.length
  if count ≤ 4 then some (emptyMessage, STATUS_UNEXPECTED_END_OF_STREAM)
  else
    let messageSize := buffer.getD 3 0
    if count ≠ messageSize + 6 then some (emptyMessage, STATUS_UNEXPECTED_END_OF_STREAM)
    else
      let message : BinaryMessage :=
        { start := identify_start_byte (buffer.getD 0 0)
          device_id := buffer.getD 1 0
          message_id := buffer.getD 2 0
          size := messageSize
          data := if messageSize = 0 then none else some ((buffer.drop 4).take messageSize) }
      let checksum := (buffer.getD (count - 2) 0 <<< 8) ||| buffer.getD (count - 1) 0
      let status := validate message
      match calculate_hash message with
      | none => none
      | some calculatedChecksum =>
        some (message,
          if status = STATUS_OK ∧ checksum ≠ calculatedChecksum then STATUS_INCORRECT_CHECKSUM
          else status)

/-! ## Predicates used to state the properties -/

/-- Every element of the list is a byte. -/
def allBytes (bs : List Nat) : Prop := ∀ b ∈ bs, b < 256

instance (bs : List Nat) : Decidable (allBytes bs) := by
  unfold allBytes; infer_instance

/-- The payload of the frame has exactly `size` bytes: a null pointer with
size 0, or a pointer to exactly `size` bytes. -/
def exactPayload (F : BinaryMessage) : Prop :=
  match F.data with
  | none => F.size = 0
  | some mem => mem.length = F.size

instance (F : BinaryMessage) : Decidable (exactPayload F) := by
  unfold exactPayload; cases F.data <;> infer_instance

/-- The payload bytes of a frame (empty for a null pointer). -/
def payloadBytes (F : BinaryMessage) : List Nat :=
  (F.data.getD []).take F.size

/-- The checksum of the specification: a left fold of
h -> ((h XOR b) * 0xA1) mod 2^16 from 0x0097. -/
def specHash (bs : List Nat) : Nat :=
  bs.foldl (fun h b => ((h ^^^ b) * 0xA1) % 2 ^ 16) 0x0097

/-- The frame a datagram encodes when its fields are read off by position:
bytes 0 to 3 are start, device_id, message_id and size, the payload is the
`size` bytes from index 4, absent when the size is 0. -/
def rawFrame (d : List Nat) : BinaryMessage :=
  { start := d.getD 0 0
    device_id := d.getD 1 0
    message_id := d.getD 2 0
    size := d.getD 3 0
    data := if d.getD 3 0 = 0 then none else some ((d.drop 4).take (d.getD 3 0)) }

/-- The frame a datagram encodes, with the start byte classified: a value
outside the supported set becomes UNDEFINED. -/
def classifiedFrame (d : List Nat) : BinaryMessage :=
  { rawFrame d with start := if isSupportedStartByte (d.getD 0 0) then d.getD 0 0 else UNDEFINED }

/-- The 16-bit value carried by the last two bytes of a datagram, high byte
first. -/
def trailer (d : List Nat) : Nat :=
  d.getD (d.length - 2) 0 * 256 + d.getD (d.length - 1) 0

/-- The status of a datagram when the checksum is taken over the payload bytes
alone: the structural status when it is not OK, otherwise the outcome of
comparing the trailer with the hash of the payload. -/
def statusPayloadScope (d : List Nat) : ValidationStatus :=
  if validate (classifiedFrame d) ≠ STATUS_OK then validate (classifiedFrame d)
  else if trailer d = specHash (payloadBytes (classifiedFrame d)) then STATUS_OK
  else STATUS_INCORRECT_CHECKSUM

/-- The status of a datagram when the checksum is taken over the four header
bytes followed by the payload bytes, that is over all but the last two bytes
of the datagram. -/
def statusHeaderScope (d : List Nat) : ValidationStatus :=
  if validate (classifiedFrame d) ≠ STATUS_OK then validate (classifiedFrame d)
  else if trailer d = specHash (d.take (d.length - 2)) then STATUS_OK
  else STATUS_INCORRECT_CHECKSUM

/-- The two byte lists have the same length and differ at exactly one index. -/
def differAtOne (xs ys : List Nat) : Prop :=
  xs.length = ys.length ∧
    ((List.range xs.length).filter (fun i => xs.getD i 0 != ys.getD i 0)).length = 1

instance (xs ys : List Nat) : Decidable (differAtOne xs ys) := by
  unfold differAtOne; infer_instance

/-! ## Errors.h -/

/-- The enum ErrorCode. -/
inductive ErrorCode where
  | NO_ERROR
  | DEVICE_NOT_CONNECTED
  | DEVICE_LOST
  | INCORRECT_FORMAT_ERROR
deriving DecidableEq, Repr

/-! ## Timing constants of common.h (default values) -/

def BPA_LOST_PACKET_TIMEOUT : Nat := 1000
def BPA_PING_FREQUENCY : Nat := 1000
def BPA_STALE_TIMEOUT : Nat := 10000
def BPA_DISCONNECTED_TIMEOUT : Nat := 10000
def BPA_DISCONNECT_ON_LOST_N_PACKETS : Nat := 0

/-- TimeStamp is `unsigned long`, 32 bits wide on the Arduino targets. -/
def TIMESTAMP_MODULUS : Nat := 2 ^ 32

/-- The unsigned difference `now - timestamp` of two TimeStamp values. -/
def elapsed (now timestamp : Nat) : Nat :=
  (now + TIMESTAMP_MODULUS - timestamp % TIMESTAMP_MODULUS) % TIMESTAMP_MODULUS

/-! ## std::map with one-byte keys

A map is the list of its (key, value) pairs in ascending key order, which is
the order in which the C++ code iterates over it. -/

/-- The member `find`: the value stored under `k`, if any. -/
def mapFind {V : Type} (m : List (Nat × V)) (k : Nat) : Option V :=
  match m with
  | [] => none
  | (k1, v1) :: rest => if k1 = k then some v1 else mapFind rest k

/-- The assignment `m[k] = v`: replaces the value under `k` or inserts the
pair at its place in key order. -/
def mapAssign {V : Type} (m : List (Nat × V)) (k : Nat) (v : V) : List (Nat × V) :=
  match m with
  | [] => [(k, v)]
  | (k1, v1) :: rest =>
    if k < k1 then (k, v) :: (k1, v1) :: rest
    else if k = k1 then (k, v) :: rest
    else (k1, v1) :: mapAssign rest k v

/-- The member `erase`: removes the pair stored under `k`. -/
def mapErase {V : Type} (m : List (Nat × V)) (k : Nat) : List (Nat × V) :=
  m.filter (fun e => e.1 != k)

/-! ## UdpTunnel.h -/

namespace internal

/-- The enum HandshakeByte of UdpTunnel.h, with the values declared there. -/
def HANDSHAKE_INIT : Nat := 0x3C
def HANDSHAKE_RESP : Nat := 0x3E
def HANDSHAKE_COMPLETE : Nat := 0x2E

/-- The enum ConnectedDevice::State. -/
inductive State where
  | CONNECTED
  | LOST
  | DISCONNECTED
deriving DecidableEq, Repr

/-- The class ConnectedDevice; `ip` and `port` are the inherited address. -/
structure ConnectedDevice where
  ip : Nat
  port : Nat
  lastSeen : Nat
  lastUpdated : Nat
  lastPing : Nat
  state : State
  countOfErrors : Nat
  countOfLost : Nat
deriving DecidableEq, Repr

/-- The constructor ConnectedDevice(ip, port). -/
def ConnectedDevice.create (ip port : Nat) : ConnectedDevice :=
  { ip := ip, port := port, lastSeen := 0, lastUpdated := 0, lastPing := 0,
    state := State.DISCONNECTED, countOfErrors := 0, countOfLost := 0 }

structure PacketInfo where
  timestamp : Nat
  device_id : Nat
deriving DecidableEq, Repr

structure HandshakeInfo where
  ip : Nat
  port : Nat
  timestamp : Nat
deriving DecidableEq, Repr

end internal

/-- A frame handed to the transport: the address given to beginPacket and the
message given to `write` between beginPacket and endPacket. -/
structure Packet where
  ip : Nat
  port : Nat
  message : BinaryMessage
deriving DecidableEq, Repr

/-- A call of one of the four trigger methods of the class Tunnel. The
device-connected event records the address of the device information. -/
inductive Event where
  | deviceConnected (id ip port : Nat)
  | deviceDisconnected (id : Nat)
  | messageReceived (id : Nat) (payload : Option (List Nat)) (size : Nat)
  | error (id : Nat) (code : ErrorCode)
deriving DecidableEq, Repr

/-- An inbound datagram as the transport reports it: remoteIP, remotePort and
the bytes of the packet. -/
structure Datagram where
  remoteIP : Nat
  remotePort : Nat
  bytes : List Nat
deriving DecidableEq, Repr

/-- The class UDPTunnel. `sent` and `events` record, oldest first, the frames
handed to the transport by doSend and the trigger calls made so far. -/
structure UDPTunnel where
  id : Nat
  messageCounter : Nat
  connectedDevices : List (Nat × internal.ConnectedDevice)
  pendingConnections : List (Nat × internal.HandshakeInfo)
  pendingPackets : List (Nat × internal.PacketInfo)
  sent : List Packet
  events : List Event
deriving DecidableEq, Repr

/-- The constructor UDPTunnel(udp, id). -/
def UDPTunnel.create (id : Nat) : UDPTunnel :=
  { id := id, messageCounter := 0, connectedDevices := [], pendingConnections := [],
    pendingPackets := [], sent := [], events := [] }

/-! ## UdpTunnel.cpp -/

/-- The function encode(id, seed), returned as uint16_t. -/
def encode (id seed : Nat) : Nat :=
  (((id ^^^ seed) <<< 8) ||| ((id + seed) % 256)) % 65536

/-- The function decodeSeed(id, encoded): the difference is computed in int
and returned as uint8_t. -/
def decodeSeed (id encoded : Nat) : Nat :=
  let seed := (encoded &&& 0xFF) % 256
  (seed + 256 - id % 256) % 256

/-- Modelled from the spec: the Arduino macro lowByte, which is not part of the
sources; the low byte of a 16-bit value. -/
def lowByte (w : Nat) : Nat := (w &&& 0xFF) % 256

/-- Modelled from the spec: the Arduino macro highByte, which is not part of
the sources; the high byte of a 16-bit value. -/
def highByte (w : Nat) : Nat := (w >>> 8) % 256

def isKnownDevice (t : UDPTunnel) (id : Nat) : Bool :=
  (mapFind t.connectedDevices id).isSome

def isConnected (t : UDPTunnel) (deviceId : Nat) : Bool :=
  match mapFind t.connectedDevices deviceId with
  | some device => decide (device.state = internal.State.CONNECTED)
  | none => false

def isLostDevice (t : UDPTunnel) (id : Nat) : Bool :=
  match mapFind t.connectedDevices id with
  | some device => decide (device.state = internal.State.LOST)
  | none => false

def triggerDeviceConnected (t : UDPTunnel) (id ip port : Nat) : UDPTunnel :=
  { t with events := t.events ++ [Event.deviceConnected id ip port] }

def triggerError (t : UDPTunnel) (id : Nat) (code : ErrorCode) : UDPTunnel :=
  { t with events := t.events ++ [Event.error id code] }

def triggerMessageReceived (t : UDPTunnel) (id : Nat) (payload : Option (List Nat))
    (size : Nat) : UDPTunnel :=
  { t with events := t.events ++ [Event.messageReceived id payload size] }

/-- The method generateMessageID: the new state and the returned id. -/
def generateMessageID (t : UDPTunnel) : UDPTunnel × Nat :=
  let counter := if t.messageCounter = 255 then 1 else (t.messageCounter + 1) % 256
  ({ t with messageCounter := counter }, counter)

/-- The method doSend: the new state and the returned message id. -/
def doSend (t : UDPTunnel) (ip port start : Nat) (data : Option (List Nat)) (size : Nat) :
    UDPTunnel × Nat :=
  let g := generateMessageID t
  let message : BinaryMessage :=
    { start := start, device_id := t.id, message_id := g.2, size := size, data := data }
  ({ g.1 with sent := g.1.sent ++ [{ ip := ip, port := port, message := message }] }, g.2)

def addPendingPackets (t : UDPTunnel) (now deviceId message_id : Nat) : UDPTunnel :=
  { t with pendingPackets :=
      mapAssign t.pendingPackets message_id { timestamp := now, device_id := deviceId } }

def pendingPackets_receivedResponse (t : UDPTunnel) (message_id : Nat) : UDPTunnel :=
  match mapFind t.pendingPackets message_id with
  | some _ => { t with pendingPackets := mapErase t.pendingPackets message_id }
  | none => t

def connectedDevice_lostPacket (t : UDPTunnel) (now id : Nat) : UDPTunnel :=
  match mapFind t.connectedDevices id with
  | none => t
  | some device =>
    let device1 : internal.ConnectedDevice :=
      { device with countOfLost := (device.countOfLost + 1) % 256, lastUpdated := now }
    { t with connectedDevices := mapAssign t.connectedDevices id device1 }

def connectedDevice_error (t : UDPTunnel) (now id : Nat) : UDPTunnel :=
  match mapFind t.connectedDevices id with
  | none => t
  | some device =>
    let device1 : internal.ConnectedDevice :=
      { device with lastUpdated := now, lastSeen := now,
                    countOfErrors := (device.countOfErrors + 1) % 256 }
    { t with connectedDevices := mapAssign t.connectedDevices id device1 }

/-- The method connectedDevice_receivedPacket. The guard tests the own id of
the tunnel, as the source does. Every caller passes an `id` that is in the
table; for an absent `id` the source dereferences a null pointer and the model
leaves the state unchanged. -/
def connectedDevice_receivedPacket (t : UDPTunnel) (now id : Nat) : UDPTunnel :=
  if !isKnownDevice t t.id then t
  else
    match mapFind t.connectedDevices id with
    | none => t
    | some device =>
      let device1 : internal.ConnectedDevice :=
        { device with
            countOfLost := 0, countOfErrors := 0, lastUpdated := now, lastSeen := now,
            lastPing := now,
            state := if device.state = internal.State.LOST then internal.State.CONNECTED
                     else device.state }
      { t with connectedDevices := mapAssign t.connectedDevices id device1 }

/-- The method generateSeedForHandshake. `draws` are the successive results of
random(0, 255), each stored in a uint8_t; the result is `none` when the draws
supplied all collide with pending seeds, that is when the loop has not ended
yet. -/
def generateSeedForHandshake (t : UDPTunnel) : List Nat → Option Nat
  | [] => none
  | r :: rest =>
    if (mapFind t.pendingConnections (r % 256)).isSome then generateSeedForHandshake t rest
    else some (r % 256)

/-- The method handshake(byte, seed). `pendingConnections[seed]` creates a
zero entry when the seed is absent. -/
def handshake (t : UDPTunnel) (byte seed : Nat) : UDPTunnel :=
  let t1 : UDPTunnel :=
    match mapFind t.pendingConnections seed with
    | some _ => t
    | none =>
      { t with pendingConnections :=
          mapAssign t.pendingConnections seed { ip := 0, port := 0, timestamp := 0 } }
  let info : internal.HandshakeInfo :=
    (mapFind t1.pendingConnections seed).getD { ip := 0, port := 0, timestamp := 0 }
  let enc := encode t1.id seed
  (doSend t1 info.ip info.port byte (some [BPA_VERSION, lowByte enc, highByte enc]) 3).1

/-- The method connect(ip, port). -/
def connect (t : UDPTunnel) (now ip port : Nat) (draws : List Nat) : Option UDPTunnel :=
  match generateSeedForHandshake t draws with
  | none => none
  | some seed =>
    let t1 : UDPTunnel :=
      { t with pendingConnections :=
          mapAssign t.pendingConnections seed { ip := ip, port := port, timestamp := now } }
    some (handshake t1 internal.HANDSHAKE_INIT seed)

/-- The method disconnect(deviceId). -/
def disconnect (t : UDPTunnel) (deviceId : Nat) : UDPTunnel :=
  match mapFind t.connectedDevices deviceId with
  | none => t
  | some device =>
    let t1 := (doSend t device.ip device.port DISCONNECT none 0).1
    { t1 with connectedDevices := mapErase t1.connectedDevices deviceId }

/-- The method sendMessage(to, buffer, size); the recipient `to` is called
`dest` here. -/
def sendMessage (t : UDPTunnel) (now dest : Nat) (buffer : Option (List Nat)) (size : Nat) :
    UDPTunnel :=
  if isConnected t dest = false then triggerError t dest ErrorCode.DEVICE_NOT_CONNECTED
  else
    match mapFind t.connectedDevices dest with
    | none => t
    | some info =>
      let s := doSend t info.ip info.port START_V1 buffer size
      addPendingPackets s.1 now dest s.2

/-- The byte `message.data[i]`. The messages handed to processReceivedMessage
come from `read`, whose handshake frames carry three payload bytes; outside the
payload the value is 0 here. -/
def dataAt (message : BinaryMessage) (i : Nat) : Nat :=
  (message.data.getD []).getD i 0

/-- The seed a handshake frame carries, as the source recovers it:
decodeSeed(getID(), data[1] << 8 | data[2]). -/
def recoveredSeed (t : UDPTunnel) (message : BinaryMessage) : Nat :=
  decodeSeed t.id (((dataAt message 1 <<< 8) ||| dataAt message 2) % 65536)

/-- The last two statements shared by the HANDSHAKE_RESP and
HANDSHAKE_COMPLETE cases once the pending entry `info` was found: the device
record is created and stored, the pending entry erased, activity recorded and
the device-connected trigger called. -/
def establish (t : UDPTunnel) (now deviceId seed : Nat) (info : internal.HandshakeInfo) :
    UDPTunnel :=
  let device := internal.ConnectedDevice.create info.ip info.port
  let t1 : UDPTunnel :=
    { t with connectedDevices := mapAssign t.connectedDevices deviceId device }
  let t2 : UDPTunnel :=
    { t1 with pendingConnections := mapErase t1.pendingConnections seed }
  let t3 := connectedDevice_receivedPacket t2 now deviceId
  triggerDeviceConnected t3 deviceId device.ip device.port

/-- The method processReceivedMessage; `remoteIP` and `remotePort` are what the
transport reports for the datagram being processed. -/
def processReceivedMessage (t : UDPTunnel) (now remoteIP remotePort : Nat)
    (message : BinaryMessage) : UDPTunnel × Bool :=
  let deviceId := message.device_id
  let isKnown := isKnownDevice t deviceId
  if (isVersionStartByte message.start || isControlStartByte message.start) && !isKnown then
    ((doSend t remoteIP remotePort DISCONNECT none 0).1, false)
  else if message.start = START_V1 then
    let s := doSend t remoteIP remotePort CONFIRM none 0
    (connectedDevice_receivedPacket (addPendingPackets s.1 now deviceId s.2) now deviceId, true)
  else if message.start = CONFIRM then
    (connectedDevice_receivedPacket
      (pendingPackets_receivedResponse t message.message_id) now deviceId, false)
  else if message.start = INCORRECT_FORMAT ∨ message.start = INCORRECT_CHECKSUM
      ∨ message.start = REJECTED then
    (triggerError
      (connectedDevice_error (pendingPackets_receivedResponse t message.message_id) now deviceId)
      deviceId ErrorCode.INCORRECT_FORMAT_ERROR, false)
  else if message.start = PING then
    let s := doSend t remoteIP remotePort CONFIRM none 0
    (connectedDevice_receivedPacket (addPendingPackets s.1 now deviceId s.2) now deviceId, false)
  else if message.start = HANDSHAKE_INIT then
    if dataAt message 0 ≠ BPA_VERSION then
      ((doSend t remoteIP remotePort REJECTED none 0).1, false)
    else
      let seed := recoveredSeed t message
      let t1 : UDPTunnel :=
        { t with pendingConnections := mapAssign t.pendingConnections seed
                   { ip := remoteIP, port := remotePort, timestamp := now } }
      (handshake t1 internal.HANDSHAKE_RESP seed, false)
  else if message.start = HANDSHAKE_RESP then
    if dataAt message 0 ≠ BPA_VERSION then
      ((doSend t remoteIP remotePort REJECTED none 0).1, false)
    else
      let seed := recoveredSeed t message
      match mapFind t.pendingConnections seed with
      | none => ((doSend t remoteIP remotePort REJECTED none 0).1, false)
      | some info =>
        let t1 := establish t now deviceId seed info
        ((doSend t1 info.ip info.port HANDSHAKE_COMPLETE none 0).1, false)
  else if message.start = HANDSHAKE_COMPLETE then
    let seed := recoveredSeed t message
    match mapFind t.pendingConnections seed with
    | none => ((doSend t remoteIP remotePort REJECTED none 0).1, false)
    | some info => (establish t now deviceId seed info, false)
  else if message.start = DISCONNECT then
    if isKnown then
      ({ t with connectedDevices := mapErase t.connectedDevices deviceId }, false)
    else (t, false)
  else (t, false)

/-- The method processInvalidMessage. -/
def processInvalidMessage (t : UDPTunnel) (remoteIP remotePort : Nat)
    (status : ValidationStatus) (message : BinaryMessage) : UDPTunnel :=
  let t1 := if message.message_id ≠ 0 then pendingPackets_receivedResponse t message.message_id
            else t
  match status with
  | STATUS_MISSED_START_BYTE => (doSend t1 remoteIP remotePort INCORRECT_FORMAT none 0).1
  | STATUS_MISSED_DEVICE_ID => (doSend t1 remoteIP remotePort INCORRECT_FORMAT none 0).1
  | STATUS_INCORRECT_FORMAT => (doSend t1 remoteIP remotePort INCORRECT_FORMAT none 0).1
  | STATUS_INCORRECT_CHECKSUM => (doSend t1 remoteIP remotePort INCORRECT_CHECKSUM none 0).1
  | _ => t1

/-- The method _readMessage. `incoming` is the datagram parsePacket finds, if
any; parsePacket returns its length, so an empty datagram counts as none. `read`
always returns a result (theorem read_isSome), the `none` branch is never
taken. -/
def _readMessage (t : UDPTunnel) (now : Nat) (incoming : Option Datagram) :
    UDPTunnel × BinaryMessage :=
  match incoming with
  | none => (t, emptyMessage)
  | some d =>
    if d.bytes.length = 0 then (t, emptyMessage)
    else
      match read d.bytes with
      | none => (t, emptyMessage)
      | some (binaryMessage, validationStatus) =>
        if validationStatus = STATUS_OK then
          let r := processReceivedMessage t now d.remoteIP d.remotePort binaryMessage
          if r.2 then (r.1, binaryMessage) else (r.1, emptyMessage)
        else
          (processInvalidMessage t d.remoteIP d.remotePort validationStatus binaryMessage,
            emptyMessage)

/-- The loop of checkForLostPackets over the entries of pendingPackets, in key
order. -/
def checkForLostPackets_walk (now : Nat) : List (Nat × internal.PacketInfo) → UDPTunnel → UDPTunnel
  | [], t => t
  | (message_id, info) :: rest, t =>
    if elapsed now info.timestamp > BPA_LOST_PACKET_TIMEOUT then
      let t1 := connectedDevice_lostPacket t now info.device_id
      checkForLostPackets_walk now rest
        { t1 with pendingPackets := mapErase t1.pendingPackets message_id }
    else checkForLostPackets_walk now rest t

/-- The method checkForLostPackets. -/
def checkForLostPackets (t : UDPTunnel) (now : Nat) : UDPTunnel :=
  checkForLostPackets_walk now t.pendingPackets t

/-- The first statement of the loop body of updateConnectedDevicesState: a
PING is sent to the device when its last ping is older than
BPA_PING_FREQUENCY. The result is the new state and the record as it is
afterwards. -/
def pingIfDue (t : UDPTunnel) (now deviceId : Nat) (device : internal.ConnectedDevice) :
    UDPTunnel × internal.ConnectedDevice :=
  if elapsed now device.lastPing > BPA_PING_FREQUENCY then
    let s := doSend t device.ip device.port PING none 0
    let t1 := addPendingPackets s.1 now deviceId s.2
    let device1 : internal.ConnectedDevice := { device with lastPing := now }
    ({ t1 with connectedDevices := mapAssign t1.connectedDevices deviceId device1 }, device1)
  else (t, device)

/-- One pass of the loop body of updateConnectedDevicesState with the iterator
at the record `device` of `deviceId`. `lostLimit` is
BPA_DISCONNECT_ON_LOST_N_PACKETS. The flag tells whether the iterator moved to
the next record (the last two branches) or stayed (the first two). -/
def updateDeviceStep (lostLimit : Nat) (t : UDPTunnel) (now deviceId : Nat)
    (device : internal.ConnectedDevice) : UDPTunnel × Bool :=
  let pinged := pingIfDue t now deviceId device
  let t1 := pinged.1
  let device1 := pinged.2
  if lostLimit ≠ 0 ∧ device1.countOfLost > lostLimit then
    let device2 : internal.ConnectedDevice := { device1 with state := internal.State.LOST }
    (triggerError { t1 with connectedDevices := mapAssign t1.connectedDevices deviceId device2 }
      deviceId ErrorCode.DEVICE_LOST, false)
  else if device1.state = internal.State.CONNECTED
      ∧ elapsed now device1.lastSeen > BPA_STALE_TIMEOUT then
    let device2 : internal.ConnectedDevice :=
      { device1 with state := internal.State.LOST, lastUpdated := now }
    (triggerError { t1 with connectedDevices := mapAssign t1.connectedDevices deviceId device2 }
      deviceId ErrorCode.DEVICE_LOST, false)
  else if device1.state = internal.State.LOST
      ∧ elapsed now device1.lastSeen > BPA_DISCONNECTED_TIMEOUT then
    let t2 := (doSend t1 device1.ip device1.port DISCONNECT none 0).1
    ({ t2 with connectedDevices := mapErase t2.connectedDevices deviceId }, true)
  else (t1, true)

/-- The passes of the loop body made while the iterator stays at `deviceId`;
the first argument bounds their number and the result is `none` when the
iterator has not moved within the bound. -/
def updateDeviceVisit (lostLimit now deviceId : Nat) : Nat → UDPTunnel → Option UDPTunnel
  | 0, _ => none
  | fuel + 1, t =>
    match mapFind t.connectedDevices deviceId with
    | none => some t
    | some device =>
      let r := updateDeviceStep lostLimit t now deviceId device
      if r.2 then some r.1 else updateDeviceVisit lostLimit now deviceId fuel r.1

/-- The iteration of updateConnectedDevicesState over the device ids, in key
order. The body only ever erases the record it is at, so the ids met are those
present at the start. -/
def updateConnectedDevicesState_walk (lostLimit now fuel : Nat) :
    List Nat → UDPTunnel → Option UDPTunnel
  | [], t => some t
  | deviceId :: rest, t =>
    match updateDeviceVisit lostLimit now deviceId fuel t with
    | none => none
    | some t1 => updateConnectedDevicesState_walk lostLimit now fuel rest t1

/-- The method updateConnectedDevicesState; `fuel` bounds the passes made at
one record. -/
def updateConnectedDevicesState (lostLimit fuel : Nat) (t : UDPTunnel) (now : Nat) :
    Option UDPTunnel :=
  updateConnectedDevicesState_walk lostLimit now fuel (t.connectedDevices.map Prod.fst) t

/-- The method clearStaleHandshakes: the entries older than BPA_STALE_TIMEOUT
are erased, the others kept in order. -/
def clearStaleHandshakes (t : UDPTunnel) (now : Nat) : UDPTunnel :=
  let kept := t.pendingConnections.filter
    (fun e => !decide (elapsed now e.2.timestamp > BPA_STALE_TIMEOUT))
  { t with pendingConnections := kept }

/-- The method loop. All clock readings made during one call return `now`. -/
def loop (t : UDPTunnel) (now : Nat) (incoming : Option Datagram) (fuel : Nat) :
    Option UDPTunnel :=
  let result := _readMessage t now incoming
  let t1 := checkForLostPackets result.1 now
  match updateConnectedDevicesState BPA_DISCONNECT_ON_LOST_N_PACKETS fuel t1 now with
  | none => none
  | some t2 =>
    let t3 := clearStaleHandshakes t2 now
    if isMessageEmpty result.2 = false then
      some (triggerMessageReceived t3 result.2.device_id result.2.data result.2.size)
    else some t3

/-! ## A transport that delivers unchanged -/

/-- The datagram the receiver is offered for the first of the frames `frames`,
reported as coming from (ip, port): the bytes `write` emitted for it. No
datagram when there is no frame. -/
def deliver (frames : List Packet) (ip port : Nat) : Option Datagram :=
  match frames with
  | [] => none
  | p :: _ =>
    match write p.message with
    | none => none
    | some bytes => some { remoteIP := ip, remotePort := port, bytes := bytes }

/-- The frames `after` has sent beyond those of the earlier state `before`. -/
def newlySent (before after : UDPTunnel) : List Packet :=
  after.sent.drop before.sent.length

/-- The handshake scenario: an initiator with id 7 at address (ipA, portA) and a
responder with id 9 at (ipB, portB), both freshly constructed. The initiator
calls connect with the random draw `draw`; then the responder polls with the
frame the initiator sent, the initiator polls with the reply, and the responder
polls with the reply to that. The result is the pair of final states. -/
def handshakeScenario (now draw ipA portA ipB portB fuel : Nat) :
    Option (UDPTunnel × UDPTunnel) :=
  let a0 := UDPTunnel.create 7
  let b0 := UDPTunnel.create 9
  match connect a0 now ipB portB [draw] with
  | none => none
  | some a1 =>
    match loop b0 now (deliver (newlySent a0 a1) ipA portA) fuel with
    | none => none
    | some b1 =>
      match loop a1 now (deliver (newlySent b0 b1) ipB portB) fuel with
      | none => none
      | some a2 =>
        match loop b1 now (deliver (newlySent a1 a2) ipA portA) fuel with
        | none => none
        | some b2 => some (a2, b2)

/-- The number of device-connected events in a log. -/
def countDeviceConnected (events : List Event) : Nat :=
  (events.filter (fun e => match e with
    | Event.deviceConnected _ _ _ => true
    | _ => false)).length

/-! ## Successive message ids -/

/-- The state after `n` successive calls of generateMessageID. -/
def generateMessageID_iterate : Nat → UDPTunnel → UDPTunnel
  | 0, t => t
  | n + 1, t => (generateMessageID (generateMessageID_iterate n t)).1

/-- The value returned by the `n`-th call of generateMessageID (n from 1). -/
def nthMessageID (t : UDPTunnel) (n : Nat) : Nat :=
  (generateMessageID (generateMessageID_iterate (n - 1) t)).2

/-! ## Sample states used to instantiate the properties -/

/-- A record for a device at address (2, 1002) in state CONNECTED, last heard
of at time 50. -/
def sampleDevice : internal.ConnectedDevice :=
  { ip := 2, port := 1002, lastSeen := 50, lastUpdated := 50, lastPing := 50,
    state := internal.State.CONNECTED, countOfErrors := 0, countOfLost := 0 }

/-- A tunnel with id 7 whose peer table holds `sampleDevice` under the id 9. -/
def sampleTunnel : UDPTunnel :=
  { id := 7, messageCounter := 0, connectedDevices := [(9, sampleDevice)],
    pendingConnections := [], pendingPackets := [], sent := [], events := [] }

/-! ## Output of the periodic work -/

/-- What the periodic part of loop may add to the logs between the states `t`
and `t1`: frames that are PING or DISCONNECT, and DEVICE_LOST error events. -/
def periodicOutput (t t1 : UDPTunnel) : Prop :=
  ∃ frames errors,
    t1.sent = t.sent ++ frames
    ∧ (∀ p ∈ frames, p.message.start = PING ∨ p.message.start = DISCONNECT)
    ∧ t1.events = t.events ++ errors
    ∧ (∀ e ∈ errors, ∃ id, e = Event.error id ErrorCode.DEVICE_LOST)

/-! ## The acknowledgement scenario -/

/-- A tunnel with id 9 whose peer table holds, under the id 7, a record at
address (1, 1001) in state CONNECTED, last heard of at time 50. -/
def sampleResponder : UDPTunnel :=
  { id := 9, messageCounter := 0,
    connectedDevices := [(7, { ip := 1, port := 1001, lastSeen := 50, lastUpdated := 50,
                               lastPing := 50, state := internal.State.CONNECTED,
                               countOfErrors := 0, countOfLost := 0 })],
    pendingConnections := [], pendingPackets := [], sent := [], events := [] }

/-- The sender of the acknowledgement scenario: the sample tunnel (id 7, peer 9
CONNECTED) after four message ids were used. -/
def sampleSender : UDPTunnel :=
  { sampleTunnel with messageCounter := 4 }

/-- The acknowledgement scenario over a transport that delivers unchanged. At
time 100 the sender (id 7, at (1, 1001)) calls sendMessage(9, 1 2 3); the
responder (id 9, at (2, 1002)) polls at time 100 with that frame; the sender
polls at time 110 with the reply, and polls again at time 1200 with no
datagram. The result is the sender after sendMessage, the responder after its
poll, and the sender after each of its two polls. -/
def ackScenario : Option (UDPTunnel × UDPTunnel × UDPTunnel × UDPTunnel) :=
  let a1 := sendMessage sampleSender 100 9 (some [1, 2, 3]) 3
  match loop sampleResponder 100 (deliver (newlySent sampleSender a1) 1 1001) 2 with
  | none => none
  | some b1 =>
    match loop a1 110 (deliver (newlySent sampleResponder b1) 2 1002) 2 with
    | none => none
    | some a2 =>
      match loop a2 1200 none 2 with
      | none => none
      | some a3 => some (a1, b1, a2, a3)

/-! ## Frames of every payload length -/

/-- The START_V1 frame of device 1, message 1, whose payload is `n` zero bytes
(no payload pointer when `n` is 0). -/
def zeroFrame (n : Nat) : BinaryMessage :=
  { start := START_V1, device_id := 1, message_id := 1, size := n,
    data := if n = 0 then none else some (List.replicate n 0) }

/-! ## Effect of the periodic work on the peer table -/

/-- The part of a peer record the peer walk decides on and sends to: address,
last-seen time and state. -/
def standing (device : internal.ConnectedDevice) : Nat × Nat × Nat × internal.State :=
  (device.ip, device.port, device.lastSeen, device.state)

/-- The record `b` has the address and the last-seen time of the record `a`. -/
def sameAddress (a b : internal.ConnectedDevice) : Prop :=
  b.ip = a.ip ∧ b.port = a.port ∧ b.lastSeen = a.lastSeen

/-- The tunnel `t1` has the id of `t`, and every record of its peer table is
stored in the peer table of `t` under the same device id with the same address
and last-seen time. -/
def recordsFrom (t t1 : UDPTunnel) : Prop :=
  t1.id = t.id
  ∧ ∀ i dev1, mapFind t1.connectedDevices i = some dev1 →
      ∃ dev, mapFind t.connectedDevices i = some dev ∧ sameAddress dev dev1

/-- The frames `frames` are PING or DISCONNECT frames, each one addressed to
the stored address of a record of `t` under a device id other than `k`. -/
def framesToOthers (k : Nat) (t : UDPTunnel) (frames : List Packet) : Prop :=
  ∀ p ∈ frames, (p.message.start = PING ∨ p.message.start = DISCONNECT)
    ∧ ∃ i dev, i ≠ k ∧ mapFind t.connectedDevices i = some dev
        ∧ p.ip = dev.ip ∧ p.port = dev.port

/-- The number of DISCONNECT frames among `frames` addressed to (ip, port). -/
def disconnectsTo (ip port : Nat) (frames : List Packet) : Nat :=
  frames.countP (fun p => decide (p.message.start = DISCONNECT ∧ p.ip = ip ∧ p.port = port))

/-- The PING frame with message id `mid` that `t` sends to the address of
`device`. -/
def pingFrame (t : UDPTunnel) (device : internal.ConnectedDevice) (mid : Nat) : Packet :=
  { ip := device.ip, port := device.port,
    message := { start := PING, device_id := t.id, message_id := mid, size := 0, data := none } }

/-- The DISCONNECT frame with message id `mid` that `t` sends to the address of
`device`. -/
def disconnectFrame (t : UDPTunnel) (device : internal.ConnectedDevice) (mid : Nat) : Packet :=
  { ip := device.ip, port := device.port,
    message :=
      { start := DISCONNECT, device_id := t.id, message_id := mid, size := 0, data := none } }

/-- The record `sampleDevice` in state LOST. -/
def sampleLostDevice : internal.ConnectedDevice :=
  { sampleDevice with state := internal.State.LOST }

/-- A tunnel with id 7 whose peer table holds `sampleLostDevice` under the id 9
and a CONNECTED record for a device at (3, 1003) under the id 11. -/
def sampleLostTunnel : UDPTunnel :=
  { id := 7, messageCounter := 0,
    connectedDevices := [(9, sampleLostDevice),
      (11, { sampleDevice with ip := 3, port := 1003, lastSeen := 19000 })],
    pendingConnections := [], pendingPackets := [], sent := [], events := [] }

/-! ## Further sample states -/

/-- The sample tunnel with the count of lost packets of its peer 9 at 2. -/
def sampleLossyTunnel : UDPTunnel :=
  { sampleTunnel with connectedDevices := [(9, { sampleDevice with countOfLost := 2 })] }

/-! ## Properties of the states and events of the four public operations -/

/-- No event of the list is a device-disconnected event. -/
def noDeviceDisconnected (events : List Event) : Prop :=
  ∀ e ∈ events, ∀ id, e ≠ Event.deviceDisconnected id

/-- The events of `t1` are those of `t` followed by events none of which is a
device-disconnected event. -/
def eventsExtend (t t1 : UDPTunnel) : Prop :=
  ∃ new, t1.events = t.events ++ new ∧ noDeviceDisconnected new

/-- Every record of the peer table is in state DISCONNECTED. -/
def allDisconnected (t : UDPTunnel) : Prop :=
  ∀ e ∈ t.connectedDevices, e.2.state = internal.State.DISCONNECTED

/-- The states reachable from a freshly constructed tunnel by calls of
sendMessage, connect, disconnect and loop that return, with any arguments,
clock values, random draws and inbound datagrams. -/
inductive Reachable : UDPTunnel → Prop where
  | byCreate (id : Nat) : Reachable (UDPTunnel.create id)
  | bySendMessage (t : UDPTunnel) (now dest : Nat) (buffer : Option (List Nat)) (size : Nat) :
      Reachable t → Reachable (sendMessage t now dest buffer size)
  | byConnect (t t1 : UDPTunnel) (now ip port : Nat) (draws : List Nat) :
      Reachable t → connect t now ip port draws = some t1 → Reachable t1
  | byDisconnect (t : UDPTunnel) (deviceId : Nat) :
      Reachable t → Reachable (disconnect t deviceId)
  | byLoop (t t1 : UDPTunnel) (now : Nat) (incoming : Option Datagram) (fuel : Nat) :
      Reachable t → loop t now incoming fuel = some t1 → Reachable t1

/-- The state of a fresh tunnel with id 7 after connect to (2, 1002) at time
100 with the random draw 5. -/
def sampleConnecting : UDPTunnel :=
  { id := 7, messageCounter := 1, connectedDevices := [],
    pendingConnections := [(5, { ip := 2, port := 1002, timestamp := 100 })],
    pendingPackets := [],
    sent := [{ ip := 2, port := 1002,
               message := { start := 0x3C, device_id := 7, message_id := 1, size := 3,
                            data := some [1, 0x0C, 0x02] } }],
    events := [] }

/-- The state of `sampleConnecting` after the poll at time 120 in which the
HANDSHAKE_RESP of device 9 for the seed 5 arrives from (2, 1002). -/
def sampleHandshaken : UDPTunnel :=
  { id := 7, messageCounter := 2,
    connectedDevices := [(9, internal.ConnectedDevice.create 2 1002)],
    pendingConnections := [], pendingPackets := [],
    sent := [{ ip := 2, port := 1002,
               message := { start := 0x3C, device_id := 7, message_id := 1, size := 3,
                            data := some [1, 0x0C, 0x02] } },
             { ip := 2, port := 1002,
               message := { start := HANDSHAKE_COMPLETE, device_id := 7, message_id := 2,
                            size := 0, data := none } }],
    events := [Event.deviceConnected 9 2 1002] }

/-- The condition under which the peer walk at time `now` erases a record: its
last-seen time is older than BPA_DISCONNECTED_TIMEOUT and it is in state LOST,
either already when the walk reaches it or because the walk itself has just set
it from CONNECTED to LOST for being older than BPA_STALE_TIMEOUT. -/
def walkRemoves (now : Nat) (device : internal.ConnectedDevice) : Prop :=
  elapsed now device.lastSeen > BPA_DISCONNECTED_TIMEOUT
  ∧ (device.state = internal.State.LOST
      ∨ (device.state = internal.State.CONNECTED
          ∧ elapsed now device.lastSeen > BPA_STALE_TIMEOUT))

instance (now : Nat) (device : internal.ConnectedDevice) : Decidable (walkRemoves now device) := by
  unfold walkRemoves; infer_instance

/-! ## The lost-packet sweep in the words of the specification -/

/-- The pending-ack entry was sent more than BPA_LOST_PACKET_TIMEOUT before
`now`. -/
def isLostPacket (now : Nat) (e : Nat × internal.PacketInfo) : Bool :=
  decide (elapsed now e.2.timestamp > BPA_LOST_PACKET_TIMEOUT)

/-- The number of entries registered against the device `id` that are lost at
time `now`. -/
def lostCount (now id : Nat) (entries : List (Nat × internal.PacketInfo)) : Nat :=
  entries.countP (fun e => isLostPacket now e && e.2.device_id == id)

/-- The peer record after `n` lost packets were counted for it at time `now`:
unchanged for n = 0, otherwise the count is raised by n modulo 256 and
last_updated is `now`. -/
def recordLost (now n : Nat) (device : internal.ConnectedDevice) : internal.ConnectedDevice :=
  if n = 0 then device
  else { device with countOfLost := (device.countOfLost + n) % 256, lastUpdated := now }

/-- The sample tunnel with three pending-ack entries: message 1 sent to 9 at
time 60, message 2 sent to 9 at time 19500, message 3 sent to 11 at time 70. -/
def samplePendingTunnel : UDPTunnel :=
  { sampleTunnel with
      pendingPackets := [(1, { timestamp := 60, device_id := 9 }),
                         (2, { timestamp := 19500, device_id := 9 }),
                         (3, { timestamp := 70, device_id := 11 })] }

/-! ## PING frames of a poll -/

/-- The number of PING frames among `frames` addressed to (ip, port). -/
def pingsTo (ip port : Nat) (frames : List Packet) : Nat :=
  frames.countP (fun p => decide (p.message.start = PING ∧ p.ip = ip ∧ p.port = port))

/-- None of the frames is a PING for the record under `k`: each is a
DISCONNECT frame or is addressed to the stored address of a record of `t`
under another device id. -/
def noPingFor (k : Nat) (t : UDPTunnel) (frames : List Packet) : Prop :=
  ∀ p ∈ frames, p.message.start = DISCONNECT
    ∨ ∃ i dev, i ≠ k ∧ mapFind t.connectedDevices i = some dev
        ∧ p.ip = dev.ip ∧ p.port = dev.port

end bpa

/-! # Properties -/

namespace bpa
open ValidationStatus

/-! ## The checksum -/

/-- The index loop of the checksum folds the step of the specification over
the bytes it visits. -/
theorem fnv1a_loop_eq_foldl (bytes : List Nat) :
    ∀ (n i h : Nat), i + n ≤ bytes.length →
      fnv1a_loop bytes n i h
        = ((bytes.drop i).take n).foldl (fun h b => ((h ^^^ b) * 0xA1) % 2 ^ 16) h := by
  intro n
  induction n with
  | zero => intro i h _; simp [fnv1a_loop]
  | succ n ih =>
    intro i h hle
    have hi : i < bytes.length := by omega
    have hdrop : bytes.drop i = bytes[i] :: bytes.drop (i + 1) := by
      simp
    rw [fnv1a_loop, ih (i + 1) _ (by omega), hdrop]
    simp only [List.take_succ_cons, List.foldl_cons]
    rw [List.getD_eq_getElem _ _ hi]
    congr 1
    rw [Nat.mod_mul_mod]
    norm_num

theorem fnv1a_hash16_eq_specHash (bs : List Nat) : fnv1a_hash16 bs bs.length = specHash bs := by
  unfold fnv1a_hash16 specHash
  rw [fnv1a_loop_eq_foldl bs bs.length 0 0x97 (by omega)]
  simp

theorem fnv1a_loop_lt (bytes : List Nat) :
    ∀ (n i h : Nat), h < 65536 → fnv1a_loop bytes n i h < 65536 := by
  intro n
  induction n with
  | zero => intro i h hh; simpa [fnv1a_loop] using hh
  | succ n ih =>
    intro i h _
    rw [fnv1a_loop]
    exact ih _ _ (Nat.mod_lt _ (by norm_num))

theorem fnv1a_hash16_lt (bytes : List Nat) (length : Nat) : fnv1a_hash16 bytes length < 65536 :=
  fnv1a_loop_lt bytes length 0 0x97 (by norm_num)

theorem shiftRight8_eq_div (x : Nat) : x >>> 8 = x / 256 := by
  rw [Nat.shiftRight_eq_div_pow]

theorem and255_eq_mod (x : Nat) : x &&& 0xFF = x % 256 :=
  Nat.and_pow_two_sub_one_eq_mod x 8

/-- With a payload of exactly `size` bytes the pointer read of `write` and
`calculate_hash` is defined and yields the payload bytes. -/
theorem region_of_exactPayload (F : BinaryMessage) (hF : exactPayload F) :
    region F.data F.size = some (payloadBytes F) ∧ (payloadBytes F).length = F.size := by
  unfold exactPayload at hF
  unfold region payloadBytes
  cases hd : F.data with
  | none => rw [hd] at hF; simp [hF]
  | some mem => rw [hd] at hF; simp [← hF]

/-! ## C2 and C3: the wire layout and the checksum -/

/-- C2. For every frame whose payload has exactly `size` bytes, `write` emits
`size + 6` bytes: start, device_id, message_id, size, the payload bytes, then
the fnv1a_hash16 of the payload bytes alone, high byte first (both checksum
bytes are bytes and recombine to the hash).  The PING frame (1, 1, no payload)
is written as 50 01 01 00 00 97 and the START_V1 frame (1, 1, payload 1 2 3)
as 30 01 01 03 01 02 03 19 37. -/
theorem write_wire_layout (F : BinaryMessage) (hF : exactPayload F) :
    write F = some ([F.start, F.device_id, F.message_id, F.size] ++ payloadBytes F ++
        [fnv1a_hash16 (payloadBytes F) (payloadBytes F).length / 256,
         fnv1a_hash16 (payloadBytes F) (payloadBytes F).length % 256])
    ∧ (payloadBytes F).length = F.size
    ∧ (∀ out, write F = some out → out.length = F.size + 6)
    ∧ fnv1a_hash16 (payloadBytes F) (payloadBytes F).length / 256 < 256
    ∧ write { start := PING, device_id := 1, message_id := 1, size := 0, data := none }
        = some [0x50, 0x01, 0x01, 0x00, 0x00, 0x97]
    ∧ write { start := START_V1, device_id := 1, message_id := 1, size := 3, data := some [1, 2, 3] }
        = some [0x30, 0x01, 0x01, 0x03, 0x01, 0x02, 0x03, 0x19, 0x37] := by
  obtain ⟨hreg, hlen⟩ := region_of_exactPayload F hF
  have hw : write F = some ([F.start, F.device_id, F.message_id, F.size] ++ payloadBytes F ++
        [fnv1a_hash16 (payloadBytes F) (payloadBytes F).length / 256,
         fnv1a_hash16 (payloadBytes F) (payloadBytes F).length % 256]) := by
    unfold write
    rw [hreg]
    simp only [shiftRight8_eq_div, and255_eq_mod, hlen]
  refine ⟨hw, hlen, ?_, ?_, by decide, by decide⟩
  · intro out hout
    rw [hw] at hout
    cases hout
    simp [hlen]
  · have := fnv1a_hash16_lt (payloadBytes F) (payloadBytes F).length
    omega

/-- Witness of C2 at the START_V1 frame with payload 1 2 3. -/
theorem write_wire_layout_witness :
    write { start := START_V1, device_id := 1, message_id := 1, size := 3, data := some [1, 2, 3] }
      = some ([0x30, 1, 1, 3] ++ [1, 2, 3] ++ [0x1937 / 256, 0x1937 % 256]) :=
  (write_wire_layout
    { start := START_V1, device_id := 1, message_id := 1, size := 3, data := some [1, 2, 3] }
    (by decide)).1

/-- C3. For every byte sequence, fnv1a_hash16 equals the left fold of
h -> ((h XOR b) * 0xA1) mod 2^16 over its bytes from 0x0097; the hash of the
empty sequence is 0x0097 and the hash of 1 2 3 is 0x1937. -/
theorem fnv1a_hash16_is_fold (bs : List Nat) :
    fnv1a_hash16 bs bs.length = bs.foldl (fun h b => ((h ^^^ b) * 0xA1) % 2 ^ 16) 0x0097
    ∧ fnv1a_hash16 [] 0 = 0x0097
    ∧ fnv1a_hash16 [1, 2, 3] 3 = 0x1937 :=
  ⟨fnv1a_hash16_eq_specHash bs, by decide, by decide⟩

/-! ## Reading a datagram of the declared length -/

theorem trailer_eq_or (hi lo : Nat) (hlo : lo < 256) : (hi <<< 8) ||| lo = hi * 256 + lo := by
  rw [Nat.shiftLeft_eq]
  have := @Nat.mul_add_lt_is_or 8 lo (by simpa using hlo) hi
  rw [Nat.mul_comm]
  simpa using this.symm

theorem read_of_length (d : List Nat) (hb : allBytes d) (hlen : d.length = d.getD 3 0 + 6) :
    read d = some (classifiedFrame d,
      if validate (classifiedFrame d) = STATUS_OK ∧
          trailer d ≠ fnv1a_hash16
            ([(classifiedFrame d).start, d.getD 1 0, d.getD 2 0, d.getD 3 0]
              ++ (d.drop 4).take (d.getD 3 0)) (4 + d.getD 3 0)
      then STATUS_INCORRECT_CHECKSUM else validate (classifiedFrame d)) := by
  match d, hb, hlen with
  | [], _, hlen => simp at hlen
  | [_], _, hlen => simp at hlen
  | [_, _], _, hlen => simp at hlen
  | [_, _, _], _, hlen => simp at hlen
  | a :: b :: c :: s :: rest, hb, hlen =>
    simp at hlen
    have hs : s < 256 := hb s (by simp)
    have htake : (a :: b :: c :: s :: rest).take BPA_MAX_SIZE = a :: b :: c :: s :: rest :=
      List.take_of_length_le (by simp [BPA_MAX_SIZE, BPA_MAX_PAYLOAD_SIZE]; omega)
    have hcount : (a :: b :: c :: s :: rest).length = s + 6 := by simp; omega
    have hreg : region (if s = 0 then none else some (((a :: b :: c :: s :: rest).drop 4).take s)) s
        = some (((a :: b :: c :: s :: rest).drop 4).take s) := by
      by_cases h0 : s = 0
      · simp [h0, region]
      · simp [h0, region]; omega
    have hlo : (a :: b :: c :: s :: rest).getD (s + 6 - 1) 0 < 256 := by
      rw [List.getD_eq_getElem _ _ (by rw [hcount]; omega)]
      exact hb _ (List.getElem_mem _)
    unfold read
    simp only [htake, hcount]
    rw [if_neg (by omega)]
    simp only [List.getD_cons_zero, List.getD_cons_succ]
    have hframe : classifiedFrame (a :: b :: c :: s :: rest)
        = { start := identify_start_byte a, device_id := b, message_id := c, size := s,
            data := if s = 0 then none
                    else some (((a :: b :: c :: s :: rest).drop 4).take s) } := by
      simp [classifiedFrame, rawFrame, identify_start_byte]
    have htr : trailer (a :: b :: c :: s :: rest)
        = ((a :: b :: c :: s :: rest).getD (s + 6 - 2) 0 <<< 8)
            ||| (a :: b :: c :: s :: rest).getD (s + 6 - 1) 0 := by
      unfold trailer
      rw [hcount, trailer_eq_or _ _ hlo]
    rw [hframe, htr]
    simp only [ne_eq, not_true_eq_false, if_false, calculate_hash, hreg]

theorem validate_ok_supported (F : BinaryMessage) (h : validate F = STATUS_OK) :
    isSupportedStartByte F.start = true := by
  by_contra hs
  simp only [Bool.not_eq_true] at hs
  simp [validate, hs] at h

/-- For a datagram of the declared length whose classified frame is
structurally valid, the bytes hashed by `calculate_hash` are the datagram
without its last two bytes. -/
theorem header_hash_eq (d : List Nat) (hlen : d.length = d.getD 3 0 + 6)
    (hv : validate (classifiedFrame d) = STATUS_OK) :
    fnv1a_hash16 ([(classifiedFrame d).start, d.getD 1 0, d.getD 2 0, d.getD 3 0]
        ++ (d.drop 4).take (d.getD 3 0)) (4 + d.getD 3 0)
      = specHash (d.take (d.length - 2)) := by
  have hsup := validate_ok_supported _ hv
  match d, hlen, hsup with
  | [], hlen, _ => simp at hlen
  | [_], hlen, _ => simp at hlen
  | [_, _], hlen, _ => simp at hlen
  | [_, _, _], hlen, _ => simp at hlen
  | a :: b :: c :: s :: rest, hlen, hsup =>
    simp at hlen
    have hstart : (classifiedFrame (a :: b :: c :: s :: rest)).start = a := by
      by_cases ha : isSupportedStartByte a = true
      · simp [classifiedFrame, rawFrame, ha]
      · exfalso
        simp only [Bool.not_eq_true] at ha
        have h0 : (classifiedFrame (a :: b :: c :: s :: rest)).start = UNDEFINED := by
          simp [classifiedFrame, rawFrame, ha]
        rw [h0] at hsup
        exact absurd hsup (by decide)
    have hbytes : [a, b, c, s] ++ ((a :: b :: c :: s :: rest).drop 4).take s
        = (a :: b :: c :: s :: rest).take ((a :: b :: c :: s :: rest).length - 2) := by
      have : (a :: b :: c :: s :: rest).length - 2 = (s + 1 + 1 + 1 + 1) := by simp; omega
      rw [this]
      simp
    have hl : 4 + s = ([a, b, c, s] ++ ((a :: b :: c :: s :: rest).drop 4).take s).length := by
      simp; omega
    rw [hstart]
    simp only [List.getD_cons_zero, List.getD_cons_succ]
    rw [hl, fnv1a_hash16_eq_specHash, hbytes]

/-- Under the same hypotheses the classified frame is the positional frame. -/
theorem classifiedFrame_eq_rawFrame (d : List Nat)
    (hs : isSupportedStartByte (d.getD 0 0) = true) : classifiedFrame d = rawFrame d := by
  unfold classifiedFrame
  rw [if_pos hs]
  rfl

/-! ## C4, C5, C6: what `read` returns -/

/-- C4. For every datagram of n bytes with n = d[3] + 6 whose positional
frame (d[0], d[1], d[2], d[3], payload d[4..n-2), absent when the size is 0) is
structurally valid and whose last two bytes are, high byte first, the
fnv1a_hash16 of its first n-2 bytes, `read` returns that frame with STATUS_OK.
The datagrams 41 01 01 00 F0 76 and 30 01 01 03 01 02 03 B9 A4 are read so. -/
theorem read_accepts_header_checksum (d : List Nat) (hb : allBytes d)
    (hlen : d.length = d.getD 3 0 + 6)
    (hvalid : validate (rawFrame d) = STATUS_OK)
    (hhi : d.getD (d.length - 2) 0
        = fnv1a_hash16 (d.take (d.length - 2)) (d.length - 2) / 256)
    (hlo : d.getD (d.length - 1) 0
        = fnv1a_hash16 (d.take (d.length - 2)) (d.length - 2) % 256) :
    read d = some (rawFrame d, STATUS_OK)
    ∧ read [0x41, 0x01, 0x01, 0x00, 0xF0, 0x76]
        = some ({ start := CONFIRM, device_id := 1, message_id := 1, size := 0, data := none },
            STATUS_OK)
    ∧ read [0x30, 0x01, 0x01, 0x03, 0x01, 0x02, 0x03, 0xB9, 0xA4]
        = some ({ start := START_V1, device_id := 1, message_id := 1, size := 3,
                  data := some [1, 2, 3] }, STATUS_OK) := by
  refine ⟨?_, by decide, by decide⟩
  have hsup : isSupportedStartByte (d.getD 0 0) = true := validate_ok_supported _ hvalid
  have hcf := classifiedFrame_eq_rawFrame d hsup
  have hv : validate (classifiedFrame d) = STATUS_OK := by rw [hcf]; exact hvalid
  have hlt : d.length - 2 = (d.take (d.length - 2)).length := by simp
  have htr : trailer d = specHash (d.take (d.length - 2)) := by
    unfold trailer
    rw [hhi, hlo, ← fnv1a_hash16_eq_specHash, ← hlt]
    omega
  rw [read_of_length d hb hlen, header_hash_eq d hlen hv, hcf]
  simp [htr, hvalid]

/-- Witness of C4 at the datagram 41 01 01 00 F0 76. -/
theorem read_accepts_header_checksum_witness :
    read [0x41, 0x01, 0x01, 0x00, 0xF0, 0x76]
      = some (rawFrame [0x41, 0x01, 0x01, 0x00, 0xF0, 0x76], STATUS_OK) :=
  (read_accepts_header_checksum [0x41, 0x01, 0x01, 0x00, 0xF0, 0x76]
    (by decide) (by decide) (by decide) (by decide) (by decide)).1

/-- C5 as amended. For every datagram whose length is its declared size plus
6, `read` returns the decoded frame (start byte classified, an unknown value
becoming UNDEFINED) and, as status, the structural status of that frame when
it is not OK; when it is OK the status is STATUS_OK if the last two bytes
(high byte first) equal the checksum recomputed over the four header bytes
followed by the payload bytes, and STATUS_INCORRECT_CHECKSUM otherwise.  The
datagram 41 01 01 00 01 01 yields the CONFIRM frame (1, 1, no payload) with
STATUS_INCORRECT_CHECKSUM. -/
theorem read_status_header_scope (d : List Nat) (hb : allBytes d)
    (hlen : d.length = d.getD 3 0 + 6) :
    read d = some (classifiedFrame d, statusHeaderScope d)
    ∧ read [0x41, 0x01, 0x01, 0x00, 0x01, 0x01]
        = some ({ start := CONFIRM, device_id := 1, message_id := 1, size := 0, data := none },
            STATUS_INCORRECT_CHECKSUM) := by
  refine ⟨?_, by decide⟩
  rw [read_of_length d hb hlen]
  unfold statusHeaderScope
  by_cases hv : validate (classifiedFrame d) = STATUS_OK
  · rw [header_hash_eq d hlen hv]
    by_cases ht : trailer d = specHash (d.take (d.length - 2)) <;> simp [hv, ht]
  · simp [hv]

/-- Witness of C5 as amended, at the datagram 41 01 01 00 00 97. -/
theorem read_status_header_scope_witness :
    read [0x41, 0x01, 0x01, 0x00, 0x00, 0x97]
      = some (classifiedFrame [0x41, 0x01, 0x01, 0x00, 0x00, 0x97],
          statusHeaderScope [0x41, 0x01, 0x01, 0x00, 0x00, 0x97]) :=
  (read_status_header_scope [0x41, 0x01, 0x01, 0x00, 0x00, 0x97] (by decide) (by decide)).1

/-- C5 as stated fails at the datagram 41 01 01 00 00 97: its length is the
declared size plus 6, the decoded CONFIRM frame is structurally valid and the
last two bytes equal the checksum of the (empty) payload, so the stated rule
gives STATUS_OK, yet `read` returns STATUS_INCORRECT_CHECKSUM. -/
theorem read_status_payload_scope_counterexample :
    allBytes [0x41, 0x01, 0x01, 0x00, 0x00, 0x97]
    ∧ [0x41, 0x01, 0x01, 0x00, 0x00, 0x97].length
        = [0x41, 0x01, 0x01, 0x00, 0x00, 0x97].getD 3 0 + 6
    ∧ validate (classifiedFrame [0x41, 0x01, 0x01, 0x00, 0x00, 0x97]) = STATUS_OK
    ∧ trailer [0x41, 0x01, 0x01, 0x00, 0x00, 0x97]
        = fnv1a_hash16 (payloadBytes (classifiedFrame [0x41, 0x01, 0x01, 0x00, 0x00, 0x97])) 0
    ∧ statusPayloadScope [0x41, 0x01, 0x01, 0x00, 0x00, 0x97] = STATUS_OK
    ∧ read [0x41, 0x01, 0x01, 0x00, 0x00, 0x97]
        = some ({ start := CONFIRM, device_id := 1, message_id := 1, size := 0, data := none },
            STATUS_INCORRECT_CHECKSUM) := by
  decide

/-- C6. For every datagram, with n the number of bytes obtained (at most
BPA_MAX_SIZE = 262), if n <= 4 or n differs from byte 3 plus 6 then `read`
returns the empty frame (start UNDEFINED, device_id 0, message_id 0, size 0,
no payload, of which isMessageEmpty holds) with
STATUS_UNEXPECTED_END_OF_STREAM.  The 8 bytes 30 01 01 03 01 02 00 B9 are
rejected so. -/
theorem read_length_rejection (d : List Nat)
    (h : min d.length BPA_MAX_SIZE ≤ 4 ∨ min d.length BPA_MAX_SIZE ≠ d.getD 3 0 + 6) :
    read d = some (emptyMessage, STATUS_UNEXPECTED_END_OF_STREAM)
    ∧ emptyMessage
        = { start := UNDEFINED, device_id := 0, message_id := 0, size := 0, data := none }
    ∧ isMessageEmpty emptyMessage = true
    ∧ min d.length BPA_MAX_SIZE ≤ 262
    ∧ read [0x30, 0x01, 0x01, 0x03, 0x01, 0x02, 0x00, 0xB9]
        = some (emptyMessage, STATUS_UNEXPECTED_END_OF_STREAM) := by
  refine ⟨?_, rfl, by decide, by simp [BPA_MAX_SIZE, BPA_MAX_PAYLOAD_SIZE], by decide⟩
  have hget : (d.take BPA_MAX_SIZE).getD 3 0 = d.getD 3 0 := by
    simp [List.getD_eq_getElem?_getD, List.getElem?_take, BPA_MAX_SIZE, BPA_MAX_PAYLOAD_SIZE]
  unfold read
  simp only [hget, List.length_take]
  rw [Nat.min_comm]
  rcases h with h | h
  · rw [if_pos h]
  · by_cases h4 : min d.length BPA_MAX_SIZE ≤ 4
    · rw [if_pos h4]
    · rw [if_neg h4, if_pos h]

/-- Witness of C6 at the truncated datagram 30 01 01 03 01 02 00 B9. -/
theorem read_length_rejection_witness :
    read [0x30, 0x01, 0x01, 0x03, 0x01, 0x02, 0x00, 0xB9]
      = some (emptyMessage, STATUS_UNEXPECTED_END_OF_STREAM) :=
  (read_length_rejection [0x30, 0x01, 0x01, 0x03, 0x01, 0x02, 0x00, 0xB9]
    (Or.inr (by decide))).1

/-! ## C1 and C7: writer and reader together -/

/-- C1 at the PING frame (device 1, message 1, no payload). The frame is
structurally valid and `write` emits 50 01 01 00 00 97, the checksum 0x0097
being the hash of the empty payload; `read` of these bytes recomputes the hash
over 50 01 01 00, obtains 0x11A7 and returns STATUS_INCORRECT_CHECKSUM, so the
round trip does not yield STATUS_OK. -/
theorem roundtrip_ping_incorrect_checksum :
    validate { start := PING, device_id := 1, message_id := 1, size := 0, data := none }
      = STATUS_OK
    ∧ exactPayload { start := PING, device_id := 1, message_id := 1, size := 0, data := none }
    ∧ write { start := PING, device_id := 1, message_id := 1, size := 0, data := none }
      = some [0x50, 0x01, 0x01, 0x00, 0x00, 0x97]
    ∧ calculate_hash { start := PING, device_id := 1, message_id := 1, size := 0, data := none }
      = some 0x11A7
    ∧ read [0x50, 0x01, 0x01, 0x00, 0x00, 0x97]
      = some ({ start := PING, device_id := 1, message_id := 1, size := 0, data := none },
          STATUS_INCORRECT_CHECKSUM) := by
  decide

/-- C7 at the CONFIRM frame (device 1, message 32, no payload). The frame is
structurally valid and `write` emits 41 01 20 00 00 97; changing the single
byte at index 4 from 00 to AD gives 41 01 20 00 AD 97, whose last two bytes
are the hash 0xAD97 of the header 41 01 20 00, and `read` of the changed
datagram returns the frame with STATUS_OK. -/
theorem changed_byte_read_ok :
    validate { start := CONFIRM, device_id := 1, message_id := 32, size := 0, data := none }
      = STATUS_OK
    ∧ write { start := CONFIRM, device_id := 1, message_id := 32, size := 0, data := none }
      = some [0x41, 0x01, 0x20, 0x00, 0x00, 0x97]
    ∧ differAtOne [0x41, 0x01, 0x20, 0x00, 0x00, 0x97] [0x41, 0x01, 0x20, 0x00, 0xAD, 0x97]
    ∧ read [0x41, 0x01, 0x20, 0x00, 0x00, 0x97]
      = some ({ start := CONFIRM, device_id := 1, message_id := 32, size := 0, data := none },
          STATUS_INCORRECT_CHECKSUM)
    ∧ read [0x41, 0x01, 0x20, 0x00, 0xAD, 0x97]
      = some ({ start := CONFIRM, device_id := 1, message_id := 32, size := 0, data := none },
          STATUS_OK) := by
  decide

/-! ## C8, C9, C10: structural validation -/

theorem isSupportedStartByte_iff (b : Nat) :
    isSupportedStartByte b = true ↔
      b = START_V1 ∨ b = CONFIRM ∨ b = INCORRECT_FORMAT ∨ b = INCORRECT_CHECKSUM ∨ b = PING ∨
      b = REJECTED ∨ b = HANDSHAKE_INIT ∨ b = HANDSHAKE_RESP ∨ b = HANDSHAKE_COMPLETE ∨
      b = DISCONNECT := by
  simp [isSupportedStartByte, SUPPORTED_START_BYTES]

/-- C8. For every frame, `validate` returns STATUS_MISSED_START_BYTE whenever
start is not a supported start byte; otherwise STATUS_MISSED_DEVICE_ID whenever
device_id is 0; otherwise STATUS_MISSED_MESSAGE_ID whenever message_id is 0,
each whatever the size and payload.  START_V1 with message_id 0 and size 0
gives STATUS_MISSED_MESSAGE_ID. -/
theorem validate_identity_order (F : BinaryMessage) :
    (isSupportedStartByte F.start = false → validate F = STATUS_MISSED_START_BYTE)
    ∧ (isSupportedStartByte F.start = true → F.device_id = 0 →
        validate F = STATUS_MISSED_DEVICE_ID)
    ∧ (isSupportedStartByte F.start = true → F.device_id ≠ 0 → F.message_id = 0 →
        validate F = STATUS_MISSED_MESSAGE_ID)
    ∧ validate { start := START_V1, device_id := 1, message_id := 0, size := 0, data := some [1] }
        = STATUS_MISSED_MESSAGE_ID := by
  refine ⟨?_, ?_, ?_, by decide⟩
  · intro h; simp [validate, h]
  · intro h hd; simp [validate, h, hd]
  · intro h hd hm; simp [validate, h, hd, hm]

/-- Witness of C8: the three identity checks at concrete frames. -/
theorem validate_identity_order_witness :
    validate { start := UNDEFINED, device_id := 1, message_id := 1, size := 1, data := some [1] }
      = STATUS_MISSED_START_BYTE
    ∧ validate { start := START_V1, device_id := 0, message_id := 1, size := 1, data := some [1] }
      = STATUS_MISSED_DEVICE_ID
    ∧ validate { start := START_V1, device_id := 1, message_id := 0, size := 0, data := some [1] }
      = STATUS_MISSED_MESSAGE_ID :=
  ⟨(validate_identity_order _).1 (by decide),
   (validate_identity_order _).2.1 (by decide) (by decide),
   (validate_identity_order _).2.2.1 (by decide) (by decide) (by decide)⟩

/-- C9. For every frame with a supported start byte and non-zero device_id
and message_id, `validate` returns STATUS_INCORRECT_FORMAT if any of these
holds: start is START_V1 and size is 0; size > 0 with no payload, or size is 0
with a payload present; start is a handshake byte and size is not 3; start is
PING, CONFIRM, INCORRECT_FORMAT, INCORRECT_CHECKSUM, REJECTED or DISCONNECT
and size is not 0. -/
theorem validate_payload_shape (F : BinaryMessage)
    (hs : isSupportedStartByte F.start = true) (hd : F.device_id ≠ 0) (hm : F.message_id ≠ 0)
    (h : (F.start = START_V1 ∧ F.size = 0)
      ∨ (F.size > 0 ∧ F.data = none)
      ∨ (F.size = 0 ∧ F.data ≠ none)
      ∨ ((F.start = HANDSHAKE_INIT ∨ F.start = HANDSHAKE_RESP ∨ F.start = HANDSHAKE_COMPLETE)
          ∧ F.size ≠ 3)
      ∨ ((F.start = PING ∨ F.start = CONFIRM ∨ F.start = INCORRECT_FORMAT
            ∨ F.start = INCORRECT_CHECKSUM ∨ F.start = REJECTED ∨ F.start = DISCONNECT)
          ∧ F.size ≠ 0)) :
    validate F = STATUS_INCORRECT_FORMAT := by
  obtain ⟨start, dev, msg, size, data⟩ := F
  simp only at hs hd hm h ⊢
  rcases (isSupportedStartByte_iff start).1 hs with
      h0 | h0 | h0 | h0 | h0 | h0 | h0 | h0 | h0 | h0 <;>
  · subst h0
    cases data <;> by_cases hz : size = 0 <;> by_cases h3 : size = 3 <;>
      simp [validate, hd, hm, hz, h3, isSupportedStartByte, SUPPORTED_START_BYTES, START_V1,
        CONFIRM, INCORRECT_FORMAT, INCORRECT_CHECKSUM, PING, REJECTED, HANDSHAKE_INIT,
        HANDSHAKE_RESP, HANDSHAKE_COMPLETE, DISCONNECT] at h ⊢

/-- Witness of C9 at a PING frame that declares one payload byte. -/
theorem validate_payload_shape_witness :
    validate { start := PING, device_id := 1, message_id := 1, size := 1, data := some [1] }
      = STATUS_INCORRECT_FORMAT :=
  validate_payload_shape
    { start := PING, device_id := 1, message_id := 1, size := 1, data := some [1] }
    (by decide) (by decide) (by decide)
    (Or.inr (Or.inr (Or.inr (Or.inr ⟨Or.inl rfl, by decide⟩))))

/-- C10. For every frame, `validate` returns STATUS_OK if and only if start is
a supported start byte, device_id and message_id are non-zero, and the payload
shape fits the kind: START_V1 has size >= 1 with a payload present; each
handshake kind has size exactly 3 with a payload present; PING, CONFIRM,
INCORRECT_FORMAT, INCORRECT_CHECKSUM, REJECTED and DISCONNECT have size 0 with
no payload. -/
theorem validate_ok_iff (F : BinaryMessage) :
    validate F = STATUS_OK ↔
      isSupportedStartByte F.start = true ∧ F.device_id ≠ 0 ∧ F.message_id ≠ 0 ∧
      ((F.start = START_V1 ∧ F.size ≥ 1 ∧ F.data ≠ none)
        ∨ ((F.start = HANDSHAKE_INIT ∨ F.start = HANDSHAKE_RESP ∨ F.start = HANDSHAKE_COMPLETE)
            ∧ F.size = 3 ∧ F.data ≠ none)
        ∨ ((F.start = PING ∨ F.start = CONFIRM ∨ F.start = INCORRECT_FORMAT
              ∨ F.start = INCORRECT_CHECKSUM ∨ F.start = REJECTED ∨ F.start = DISCONNECT)
            ∧ F.size = 0 ∧ F.data = none)) := by
  obtain ⟨start, dev, msg, size, data⟩ := F
  simp only
  constructor
  · intro h
    have hs : isSupportedStartByte start = true := validate_ok_supported _ h
    have hd : dev ≠ 0 := by intro hd; simp [validate, hs, hd] at h
    have hm : msg ≠ 0 := by intro hm; simp [validate, hs, hd, hm] at h
    refine ⟨hs, hd, hm, ?_⟩
    rcases (isSupportedStartByte_iff start).1 hs with
      h0 | h0 | h0 | h0 | h0 | h0 | h0 | h0 | h0 | h0 <;>
    · subst h0
      cases data <;> by_cases hz : size = 0 <;> by_cases h3 : size = 3 <;>
        simp [validate, hd, hm, hz, h3, isSupportedStartByte, SUPPORTED_START_BYTES, START_V1,
          CONFIRM, INCORRECT_FORMAT, INCORRECT_CHECKSUM, PING, REJECTED, HANDSHAKE_INIT,
          HANDSHAKE_RESP, HANDSHAKE_COMPLETE, DISCONNECT] at h ⊢ <;> omega
  · rintro ⟨hs, hd, hm, hshape⟩
    rcases hshape with ⟨h0, hsz, hdat⟩ | ⟨h0, hsz, hdat⟩ | ⟨h0, hsz, hdat⟩
    · subst h0
      cases data with
      | none => exact absurd rfl hdat
      | some mem =>
        have : size ≠ 0 := by omega
        simp [validate, hd, hm, this, isSupportedStartByte, SUPPORTED_START_BYTES, START_V1,
          CONFIRM, INCORRECT_FORMAT, INCORRECT_CHECKSUM, PING, REJECTED, HANDSHAKE_INIT,
          HANDSHAKE_RESP, HANDSHAKE_COMPLETE, DISCONNECT]
    · subst hsz
      cases data with
      | none => exact absurd rfl hdat
      | some mem =>
        rcases h0 with h0 | h0 | h0 <;> subst h0 <;>
          simp [validate, hd, hm, isSupportedStartByte, SUPPORTED_START_BYTES, START_V1,
            CONFIRM, INCORRECT_FORMAT, INCORRECT_CHECKSUM, PING, REJECTED, HANDSHAKE_INIT,
            HANDSHAKE_RESP, HANDSHAKE_COMPLETE, DISCONNECT]
    · subst hsz hdat
      rcases h0 with h0 | h0 | h0 | h0 | h0 | h0 <;> subst h0 <;>
        simp [validate, hd, hm, isSupportedStartByte, SUPPORTED_START_BYTES, START_V1,
          CONFIRM, INCORRECT_FORMAT, INCORRECT_CHECKSUM, PING, REJECTED, HANDSHAKE_INIT,
          HANDSHAKE_RESP, HANDSHAKE_COMPLETE, DISCONNECT]

/-- Witness of C10: the START_V1 frame (1, 1, payload 1) is accepted. -/
theorem validate_ok_iff_witness :
    validate { start := START_V1, device_id := 1, message_id := 1, size := 1, data := some [1] }
      = STATUS_OK :=
  (validate_ok_iff
    { start := START_V1, device_id := 1, message_id := 1, size := 1, data := some [1] }).2
    ⟨by decide, by decide, by decide, Or.inl ⟨rfl, by decide, by decide⟩⟩

end bpa

namespace bpa
open ValidationStatus

/-! ## `read` always returns -/

theorem read_isSome (packet : List Nat) : (read packet).isSome = true := by
  unfold read
  simp only
  generalize packet.take BPA_MAX_SIZE = buffer
  by_cases h1 : buffer.length ≤ 4
  · rw [if_pos h1]; rfl
  · by_cases h2 : buffer.length ≠ buffer.getD 3 0 + 6
    · rw [if_neg h1, if_pos h2]; rfl
    · rw [if_neg h1, if_neg h2]
      have hreg : region (if buffer.getD 3 0 = 0 then none
            else some ((buffer.drop 4).take (buffer.getD 3 0))) (buffer.getD 3 0)
          = some ((buffer.drop 4).take (buffer.getD 3 0)) := by
        simp only [ne_eq, Decidable.not_not] at h2
        by_cases h0 : buffer.getD 3 0 = 0
        · simp only [h0, if_true, region, List.take_zero]
        · simp only [h0, if_false, region, List.length_take, List.length_drop]
          rw [if_pos (by omega)]
          simp
      simp only [calculate_hash, hreg]
      rfl

/-! ## The byte-keyed maps -/

theorem mapFind_mapAssign_self {V : Type} (m : List (Nat × V)) (k : Nat) (v : V) :
    mapFind (mapAssign m k v) k = some v := by
  induction m with
  | nil => simp [mapAssign, mapFind]
  | cons e rest ih =>
    obtain ⟨k1, v1⟩ := e
    unfold mapAssign
    by_cases h1 : k < k1
    · simp [h1, mapFind]
    · by_cases h2 : k = k1
      · simp [h2, mapFind]
      · have h3 : ¬ k1 = k := fun h => h2 h.symm
        simp [h1, h2, mapFind, h3, ih]

theorem mapFind_mapAssign_ne {V : Type} (m : List (Nat × V)) (k j : Nat) (v : V) (h : j ≠ k) :
    mapFind (mapAssign m k v) j = mapFind m j := by
  have hkj : ¬ k = j := fun e => h e.symm
  induction m with
  | nil => simp [mapAssign, mapFind, hkj]
  | cons e rest ih =>
    obtain ⟨k1, v1⟩ := e
    unfold mapAssign
    by_cases h1 : k < k1
    · simp [h1, mapFind, hkj]
    · by_cases h2 : k = k1
      · subst h2
        simp [mapFind, hkj]
      · simp [h1, h2, mapFind, ih]

theorem mapFind_mapErase_self {V : Type} (m : List (Nat × V)) (k : Nat) :
    mapFind (mapErase m k) k = none := by
  induction m with
  | nil => simp [mapErase, mapFind]
  | cons e rest ih =>
    obtain ⟨k1, v1⟩ := e
    unfold mapErase at ih ⊢
    by_cases h1 : k1 = k
    · simp [List.filter_cons, h1, ih]
    · simp [List.filter_cons, h1, mapFind, ih]

theorem mapFind_mapErase_ne {V : Type} (m : List (Nat × V)) (k j : Nat) (h : j ≠ k) :
    mapFind (mapErase m k) j = mapFind m j := by
  induction m with
  | nil => simp [mapErase, mapFind]
  | cons e rest ih =>
    obtain ⟨k1, v1⟩ := e
    unfold mapErase at ih ⊢
    by_cases h1 : k1 = k
    · have h2 : ¬ k1 = j := fun e => h (e.symm.trans h1)
      subst h1
      simpa [List.filter_cons, mapFind, h2] using ih
    · simp [List.filter_cons, h1, mapFind, ih]

end bpa

namespace bpa
open ValidationStatus

/-! ## C11, C12, C13: start bytes, message ids, seeds -/

/-- C11. For every byte b (indeed every number): isVersionStartByte(b) iff
0x30 <= b <= 0x39; isControlStartByte(b) iff 0x41 <= b <= 0x5A;
isHandshakeStartByte(b) iff b is 0x2A, 0x2B or 0x2E; isSupportedStartByte(b)
iff b is one of 0x30, 0x41, 0x46, 0x48, 0x50, 0x52, 0x2A, 0x2B, 0x2E, 0x7E; in
particular UNDEFINED (0x00) is not supported. -/
theorem start_byte_predicates (b : Nat) :
    (isVersionStartByte b = true ↔ 0x30 ≤ b ∧ b ≤ 0x39)
    ∧ (isControlStartByte b = true ↔ 0x41 ≤ b ∧ b ≤ 0x5A)
    ∧ (isHandshakeStartByte b = true ↔ b = 0x2A ∨ b = 0x2B ∨ b = 0x2E)
    ∧ (isSupportedStartByte b = true ↔
        b = 0x30 ∨ b = 0x41 ∨ b = 0x46 ∨ b = 0x48 ∨ b = 0x50 ∨ b = 0x52 ∨ b = 0x2A ∨ b = 0x2B
          ∨ b = 0x2E ∨ b = 0x7E)
    ∧ isSupportedStartByte UNDEFINED = false := by
  refine ⟨?_, ?_, ?_, ?_, by decide⟩
  · simp [isVersionStartByte, START_V1]
  · simp [isControlStartByte]
  · simp [isHandshakeStartByte, HANDSHAKE_INIT, HANDSHAKE_RESP, HANDSHAKE_COMPLETE, or_assoc]
  · simp [isSupportedStartByte, SUPPORTED_START_BYTES, START_V1, CONFIRM, INCORRECT_FORMAT,
      INCORRECT_CHECKSUM, PING, REJECTED, HANDSHAKE_INIT, HANDSHAKE_RESP, HANDSHAKE_COMPLETE,
      DISCONNECT]

theorem generateMessageID_iterate_counter (id : Nat) :
    ∀ n, (generateMessageID_iterate n (UDPTunnel.create id)).messageCounter
      = if n = 0 then 0 else (n - 1) % 255 + 1 := by
  intro n
  induction n with
  | zero => rfl
  | succ n ih =>
    simp only [generateMessageID_iterate, generateMessageID, ih]
    by_cases h0 : n = 0
    · subst h0; rfl
    · simp only [h0, if_false, Nat.add_sub_cancel, Nat.succ_ne_zero]
      split_ifs <;> omega

/-- C12. Starting from a freshly constructed tunnel (counter 0), the n-th value
returned by generateMessageID, for every n >= 1, is ((n - 1) mod 255) + 1: the
ids run 1, 2, ..., 255, 1, 2, ... and 0 is never returned. -/
theorem generateMessageID_nth (id n : Nat) (hn : 1 ≤ n) :
    nthMessageID (UDPTunnel.create id) n = (n - 1) % 255 + 1
    ∧ nthMessageID (UDPTunnel.create id) n ≠ 0
    ∧ (UDPTunnel.create id).messageCounter = 0 := by
  have hval : nthMessageID (UDPTunnel.create id) n = (n - 1) % 255 + 1 := by
    obtain ⟨m, rfl⟩ : ∃ m, n = m + 1 := ⟨n - 1, by omega⟩
    have h := generateMessageID_iterate_counter id (m + 1)
    simp only [generateMessageID_iterate, generateMessageID] at h
    simp only [nthMessageID, generateMessageID, Nat.add_sub_cancel]
    simpa using h
  refine ⟨hval, ?_, rfl⟩
  rw [hval]
  omega

/-- Witness of C12: the 255th id is 255 and the 256th is 1 again. -/
theorem generateMessageID_nth_witness :
    nthMessageID (UDPTunnel.create 7) 255 = 255 ∧ nthMessageID (UDPTunnel.create 7) 256 = 1 :=
  ⟨(generateMessageID_nth 7 255 (by decide)).1, (generateMessageID_nth 7 256 (by decide)).1⟩

theorem encode_eq (id s : Nat) (hid : id < 256) (hs : s < 256) :
    encode id s = (id ^^^ s) * 256 + (id + s) % 256 := by
  have hx : id ^^^ s < 2 ^ 8 := Nat.xor_lt_two_pow (by simpa using hid) (by simpa using hs)
  have hlow : (id + s) % 256 < 2 ^ 8 := by
    have := Nat.mod_lt (id + s) (show 0 < 256 by decide)
    simpa using this
  have hor := @Nat.mul_add_lt_is_or 8 ((id + s) % 256) hlow (id ^^^ s)
  unfold encode
  rw [Nat.shiftLeft_eq, Nat.mul_comm, ← hor]
  have h8 : (2 : Nat) ^ 8 = 256 := by norm_num
  rw [h8] at hx ⊢
  rw [Nat.mod_eq_of_lt (by omega)]

/-- C13. For every id and every seed s in 0..255, decodeSeed(id, encode(id, s))
= s, where encode(id, s) has high byte id XOR s and low byte (id + s) mod
256. -/
theorem decodeSeed_encode (id s : Nat) (hid : id < 256) (hs : s < 256) :
    decodeSeed id (encode id s) = s
    ∧ encode id s / 256 = id ^^^ s
    ∧ encode id s % 256 = (id + s) % 256 := by
  have he := encode_eq id s hid hs
  have hlow : encode id s % 256 = (id + s) % 256 := by rw [he]; omega
  have hhigh : encode id s / 256 = id ^^^ s := by rw [he]; omega
  refine ⟨?_, hhigh, hlow⟩
  unfold decodeSeed
  simp only [and255_eq_mod, hlow, Nat.mod_mod]
  rw [Nat.mod_eq_of_lt hid]
  omega

/-- Witness of C13 at id 7 and seed 5. -/
theorem decodeSeed_encode_witness : decodeSeed 7 (encode 7 5) = 5 :=
  (decodeSeed_encode 7 5 (by decide) (by decide)).1

end bpa

namespace bpa
open ValidationStatus

/-! ## C17 and C18: sendMessage and disconnect -/

/-- C17. For every tunnel state, when `to` is not a peer in state CONNECTED
(isConnected is false, which is so exactly when there is no record in state
CONNECTED under `to`), sendMessage emits exactly one error event (to,
DEVICE_NOT_CONNECTED) and changes nothing else: nothing is sent and the message
counter, the peer table and both pending tables stay as they are. Otherwise it
emits nothing, sends exactly one START_V1 frame with device_id = own id,
message_id = the next counter value and the given payload to the stored address
of the peer, and puts the pending-ack entry (now, to) under that id. -/
theorem sendMessage_dispatch (t : UDPTunnel) (now dest : Nat) (buffer : Option (List Nat))
    (size : Nat) :
    (isConnected t dest = true ↔
      ∃ device, mapFind t.connectedDevices dest = some device
        ∧ device.state = internal.State.CONNECTED)
    ∧ (isConnected t dest = false →
        sendMessage t now dest buffer size
          = { t with events := t.events ++ [Event.error dest ErrorCode.DEVICE_NOT_CONNECTED] })
    ∧ (∀ device, mapFind t.connectedDevices dest = some device →
        device.state = internal.State.CONNECTED →
        sendMessage t now dest buffer size
          = { t with
              messageCounter := (generateMessageID t).2
              sent := t.sent ++ [{ ip := device.ip, port := device.port,
                                   message := { start := START_V1, device_id := t.id,
                                                message_id := (generateMessageID t).2,
                                                size := size, data := buffer } }]
              pendingPackets := mapAssign t.pendingPackets (generateMessageID t).2
                                  { timestamp := now, device_id := dest } })
    ∧ (generateMessageID t).2
        = (if t.messageCounter = 255 then 1 else (t.messageCounter + 1) % 256) := by
  refine ⟨?_, ?_, ?_, rfl⟩
  · unfold isConnected
    cases h : mapFind t.connectedDevices dest with
    | none => simp
    | some device => simp
  · intro h
    simp [sendMessage, h, triggerError]
  · intro device hfind hstate
    have hc : isConnected t dest = true := by
      simp [isConnected, hfind, hstate]
    simp [sendMessage, hc, hfind, doSend, addPendingPackets, generateMessageID]

/-- Witness of C17: the sample tunnel (id 7, device 9 CONNECTED) sends to 9,
and a fresh tunnel fails to send to the unknown device 4. -/
theorem sendMessage_dispatch_witness :
    sendMessage sampleTunnel 100 9 (some [1, 2, 3]) 3
      = { sampleTunnel with
          messageCounter := 1
          sent := [{ ip := 2, port := 1002,
                     message := { start := START_V1, device_id := 7, message_id := 1, size := 3,
                                  data := some [1, 2, 3] } }]
          pendingPackets := [(1, { timestamp := 100, device_id := 9 })] }
    ∧ sendMessage (UDPTunnel.create 7) 100 4 (some [1, 2, 3]) 3
      = { UDPTunnel.create 7 with
          events := [Event.error 4 ErrorCode.DEVICE_NOT_CONNECTED] } :=
  ⟨(sendMessage_dispatch sampleTunnel 100 9 (some [1, 2, 3]) 3).2.2.1 sampleDevice rfl rfl,
   (sendMessage_dispatch (UDPTunnel.create 7) 100 4 (some [1, 2, 3]) 3).2.1 rfl⟩

/-- C18. For every tunnel state and id: if id is in the peer table,
disconnect(id) sends exactly one DISCONNECT frame with an empty payload to the
stored address of that peer, changes nothing but the message counter, the send
log and the peer table, and afterwards isKnownDevice(id) is false while every
other peer record is as before; if id is not in the peer table, disconnect(id)
leaves the whole state unchanged and so sends nothing. -/
theorem disconnect_effect (t : UDPTunnel) (deviceId : Nat) :
    (isKnownDevice t deviceId = true ↔ ∃ device, mapFind t.connectedDevices deviceId = some device)
    ∧ (∀ device, mapFind t.connectedDevices deviceId = some device →
        disconnect t deviceId
          = { t with
              messageCounter := (generateMessageID t).2
              sent := t.sent ++ [{ ip := device.ip, port := device.port,
                                   message := { start := DISCONNECT, device_id := t.id,
                                                message_id := (generateMessageID t).2,
                                                size := 0, data := none } }]
              connectedDevices := mapErase t.connectedDevices deviceId }
        ∧ isKnownDevice (disconnect t deviceId) deviceId = false
        ∧ ∀ k, k ≠ deviceId →
            mapFind (disconnect t deviceId).connectedDevices k = mapFind t.connectedDevices k)
    ∧ (isKnownDevice t deviceId = false → disconnect t deviceId = t) := by
  refine ⟨?_, ?_, ?_⟩
  · unfold isKnownDevice
    cases h : mapFind t.connectedDevices deviceId <;> simp
  · intro device hfind
    have heq : disconnect t deviceId
          = { t with
              messageCounter := (generateMessageID t).2
              sent := t.sent ++ [{ ip := device.ip, port := device.port,
                                   message := { start := DISCONNECT, device_id := t.id,
                                                message_id := (generateMessageID t).2,
                                                size := 0, data := none } }]
              connectedDevices := mapErase t.connectedDevices deviceId } := by
      simp [disconnect, hfind, doSend, generateMessageID]
    refine ⟨heq, ?_, ?_⟩
    · rw [heq]
      simp [isKnownDevice, mapFind_mapErase_self]
    · intro k hk
      rw [heq]
      exact mapFind_mapErase_ne _ _ _ hk
  · intro h
    unfold isKnownDevice at h
    cases hfind : mapFind t.connectedDevices deviceId with
    | none => simp [disconnect, hfind]
    | some device => simp [hfind] at h

/-- Witness of C18: disconnecting the known device 9 of the sample tunnel, and
the unknown device 4 of a fresh tunnel. -/
theorem disconnect_effect_witness :
    disconnect sampleTunnel 9
      = { sampleTunnel with
          messageCounter := 1
          sent := [{ ip := 2, port := 1002,
                     message := { start := DISCONNECT, device_id := 7, message_id := 1, size := 0,
                                  data := none } }]
          connectedDevices := [] }
    ∧ disconnect (UDPTunnel.create 7) 4 = UDPTunnel.create 7 :=
  ⟨((disconnect_effect sampleTunnel 9).2.1 sampleDevice rfl).1,
   (disconnect_effect (UDPTunnel.create 7) 4).2.2 rfl⟩

end bpa

namespace bpa
open ValidationStatus

/-! ## C14, C15, C16: the handshake -/

/-- C15 at a freshly constructed tunnel with id 7, connect to (2, 1002) at time
100 with the random draw 5. The seed 5 is stored with the address and the time,
and one frame is sent to (2, 1002) with device_id 7 and the payload
1, 0C, 02 (version, low and high byte of encode(7, 5) = 0x020C); its start byte
is 0x3C, the value of internal::HandshakeByte::HANDSHAKE_INIT, not the start
byte HANDSHAKE_INIT (0x2A), and 0x3C is not a supported start byte: `read` of the
written frame reports STATUS_MISSED_START_BYTE. -/
theorem connect_sends_unsupported_start_byte :
    connect (UDPTunnel.create 7) 100 2 1002 [5]
      = some { UDPTunnel.create 7 with
          messageCounter := 1
          pendingConnections := [(5, { ip := 2, port := 1002, timestamp := 100 })]
          sent := [{ ip := 2, port := 1002,
                     message := { start := 0x3C, device_id := 7, message_id := 1, size := 3,
                                  data := some [1, 0x0C, 0x02] } }] }
    ∧ internal.HANDSHAKE_INIT = 0x3C
    ∧ HANDSHAKE_INIT = 0x2A
    ∧ isSupportedStartByte 0x3C = false
    ∧ encode 7 5 = 0x020C
    ∧ write { start := 0x3C, device_id := 7, message_id := 1, size := 3,
              data := some [1, 0x0C, 0x02] }
        = some [0x3C, 0x07, 0x01, 0x03, 0x01, 0x0C, 0x02, 0x75, 0x98]
    ∧ (read [0x3C, 0x07, 0x01, 0x03, 0x01, 0x0C, 0x02, 0x75, 0x98]).map Prod.snd
        = some STATUS_MISSED_START_BYTE := by
  decide

/-- C16 at a tunnel with id 7 that holds the pending entry (2, 1002, 100) under
seed 5 and processes, at time 120, the valid HANDSHAKE_RESP frame from device 9
with payload 1, 0E, 0C, whose recovered seed is 5. Afterwards the pending entry
is gone, one device-connected event for 9 was emitted and a HANDSHAKE_COMPLETE
frame was sent to (2, 1002), but the record stored for 9 is in state
DISCONNECTED and isConnected(9) is false. -/
theorem handshake_resp_leaves_peer_disconnected :
    validate { start := HANDSHAKE_RESP, device_id := 9, message_id := 1, size := 3,
               data := some [1, 0x0E, 0x0C] } = STATUS_OK
    ∧ recoveredSeed
        { UDPTunnel.create 7 with
            pendingConnections := [(5, { ip := 2, port := 1002, timestamp := 100 })] }
        { start := HANDSHAKE_RESP, device_id := 9, message_id := 1, size := 3,
          data := some [1, 0x0E, 0x0C] } = 5
    ∧ (processReceivedMessage
        { UDPTunnel.create 7 with
            pendingConnections := [(5, { ip := 2, port := 1002, timestamp := 100 })] }
        120 2 1002
        { start := HANDSHAKE_RESP, device_id := 9, message_id := 1, size := 3,
          data := some [1, 0x0E, 0x0C] }).1
      = { id := 7, messageCounter := 1,
          connectedDevices := [(9, { ip := 2, port := 1002, lastSeen := 0, lastUpdated := 0,
                                     lastPing := 0, state := internal.State.DISCONNECTED,
                                     countOfErrors := 0, countOfLost := 0 })],
          pendingConnections := [],
          pendingPackets := [],
          sent := [{ ip := 2, port := 1002,
                     message := { start := HANDSHAKE_COMPLETE, device_id := 7, message_id := 1,
                                  size := 0, data := none } }],
          events := [Event.deviceConnected 9 2 1002] }
    ∧ isConnected
        (processReceivedMessage
          { UDPTunnel.create 7 with
              pendingConnections := [(5, { ip := 2, port := 1002, timestamp := 100 })] }
          120 2 1002
          { start := HANDSHAKE_RESP, device_id := 9, message_id := 1, size := 3,
            data := some [1, 0x0E, 0x0C] }).1 9 = false := by
  decide

/-- C14 in the handshake scenario (initiator 7 at (1, 1001), responder 9 at
(2, 1002), time 100, random draw 5, every datagram delivered unchanged). After
connect and the three polls neither tunnel reports the other as connected and
neither has emitted a device-connected event: the initiator sent a frame with
start byte 0x3C, which the responder answered with INCORRECT_FORMAT, and the
replies that followed were INCORRECT_CHECKSUM frames. -/
theorem handshake_scenario_not_connected :
    (handshakeScenario 100 5 1 1001 2 1002 3).map
        (fun r => (isConnected r.1 9, isConnected r.2 7,
                   countDeviceConnected r.1.events, countDeviceConnected r.2.events))
      = some (false, false, 0, 0)
    ∧ (handshakeScenario 100 5 1 1001 2 1002 3).map
        (fun r => (r.1.sent.map (fun p => p.message.start),
                   r.2.sent.map (fun p => p.message.start)))
      = some ([0x3C, INCORRECT_CHECKSUM], [INCORRECT_FORMAT, INCORRECT_CHECKSUM])
    ∧ (handshakeScenario 100 5 1 1001 2 1002 3).map
        (fun r => (r.1.connectedDevices, r.2.connectedDevices))
      = some ([], []) := by
  decide

end bpa

namespace bpa
open ValidationStatus

/-! ## C19: the stranger rule -/

/-- C19. For every tunnel state and every inbound datagram that `read` accepts
with STATUS_OK (structurally valid and correctly checksummed), whose start byte
is a version or control byte and whose device_id is not in the peer table, the
dispatch of _readMessage sends exactly one frame, a DISCONNECT with an empty
payload to the remote address of the datagram, and changes nothing but the
message counter and the send log: no event is emitted, the peer table and both
pending tables are as before, and the message returned to loop is the empty
one, so that loop emits no message-received event for it. -/
theorem stranger_rule (t : UDPTunnel) (now : Nat) (d : Datagram) (F : BinaryMessage)
    (hread : read d.bytes = some (F, STATUS_OK))
    (hkind : isVersionStartByte F.start = true ∨ isControlStartByte F.start = true)
    (hstranger : isKnownDevice t F.device_id = false) :
    _readMessage t now (some d)
      = ({ t with
            messageCounter := (generateMessageID t).2
            sent := t.sent ++ [{ ip := d.remoteIP, port := d.remotePort,
                                 message := { start := DISCONNECT, device_id := t.id,
                                              message_id := (generateMessageID t).2,
                                              size := 0, data := none } }] },
         emptyMessage)
    ∧ isMessageEmpty (_readMessage t now (some d)).2 = true := by
  have hne : d.bytes.length ≠ 0 := by
    intro h0
    have hnil : d.bytes = [] := List.length_eq_zero.mp h0
    have hr : read [] = some (emptyMessage, STATUS_UNEXPECTED_END_OF_STREAM) := by decide
    rw [hnil, hr] at hread
    simp at hread
  have hcond : ((isVersionStartByte F.start || isControlStartByte F.start)
      && !isKnownDevice t F.device_id) = true := by
    rcases hkind with h | h <;> simp [h, hstranger]
  have heq : _readMessage t now (some d)
      = ({ t with
            messageCounter := (generateMessageID t).2
            sent := t.sent ++ [{ ip := d.remoteIP, port := d.remotePort,
                                 message := { start := DISCONNECT, device_id := t.id,
                                              message_id := (generateMessageID t).2,
                                              size := 0, data := none } }] },
         emptyMessage) := by
    simp only [_readMessage, hne, if_false, hread, if_true, processReceivedMessage, hcond]
    simp [doSend, generateMessageID]
  exact ⟨heq, by rw [heq]; rfl⟩

/-- Witness of C19: a fresh tunnel with id 7 receives 41 09 01 00 5F 7E, a
correctly checksummed CONFIRM from the unknown device 9. -/
theorem stranger_rule_witness :
    _readMessage (UDPTunnel.create 7) 100
        (some { remoteIP := 2, remotePort := 1002, bytes := [0x41, 0x09, 0x01, 0x00, 0x5F, 0x7E] })
      = ({ UDPTunnel.create 7 with
            messageCounter := 1
            sent := [{ ip := 2, port := 1002,
                       message := { start := DISCONNECT, device_id := 7, message_id := 1,
                                    size := 0, data := none } }] },
         emptyMessage) :=
  (stranger_rule (UDPTunnel.create 7) 100
    { remoteIP := 2, remotePort := 1002, bytes := [0x41, 0x09, 0x01, 0x00, 0x5F, 0x7E] }
    { start := CONFIRM, device_id := 9, message_id := 1, size := 0, data := none }
    (by decide) (Or.inr (by decide)) (by decide)).1

end bpa

namespace bpa
open ValidationStatus

/-! ## The periodic work of loop -/

theorem periodicOutput_refl (t : UDPTunnel) : periodicOutput t t :=
  ⟨[], [], by simp, by simp, by simp, by simp⟩

theorem periodicOutput_trans {a b c : UDPTunnel} (h1 : periodicOutput a b)
    (h2 : periodicOutput b c) : periodicOutput a c := by
  obtain ⟨f1, e1, hs1, hf1, he1, hx1⟩ := h1
  obtain ⟨f2, e2, hs2, hf2, he2, hx2⟩ := h2
  refine ⟨f1 ++ f2, e1 ++ e2, ?_, ?_, ?_, ?_⟩
  · rw [hs2, hs1, List.append_assoc]
  · intro p hp
    rcases List.mem_append.mp hp with h | h
    · exact hf1 p h
    · exact hf2 p h
  · rw [he2, he1, List.append_assoc]
  · intro e he
    rcases List.mem_append.mp he with h | h
    · exact hx1 e h
    · exact hx2 e h

theorem pingIfDue_output (t : UDPTunnel) (now deviceId : Nat) (device : internal.ConnectedDevice) :
    periodicOutput t (pingIfDue t now deviceId device).1
    ∧ (pingIfDue t now deviceId device).2.state = device.state := by
  unfold pingIfDue
  by_cases hp : elapsed now device.lastPing > BPA_PING_FREQUENCY
  · rw [if_pos hp]
    refine ⟨⟨[_], [], rfl, ?_, by simp [doSend, addPendingPackets, generateMessageID], by simp⟩,
      rfl⟩
    intro p hp
    simp only [List.mem_singleton] at hp
    subst hp
    exact Or.inl rfl
  · rw [if_neg hp]
    exact ⟨periodicOutput_refl t, rfl⟩

theorem updateDeviceStep_output (lostLimit : Nat) (t : UDPTunnel) (now deviceId : Nat)
    (device : internal.ConnectedDevice) :
    periodicOutput t (updateDeviceStep lostLimit t now deviceId device).1 := by
  obtain ⟨hping, -⟩ := pingIfDue_output t now deviceId device
  refine periodicOutput_trans hping ?_
  unfold updateDeviceStep
  simp only
  generalize pingIfDue t now deviceId device = pinged
  by_cases hA : lostLimit ≠ 0 ∧ pinged.2.countOfLost > lostLimit
  · rw [if_pos hA]
    exact ⟨[], [_], by simp [triggerError], by simp, rfl, by simp⟩
  · rw [if_neg hA]
    by_cases hB : pinged.2.state = internal.State.CONNECTED
        ∧ elapsed now pinged.2.lastSeen > BPA_STALE_TIMEOUT
    · rw [if_pos hB]
      exact ⟨[], [_], by simp [triggerError], by simp, rfl, by simp⟩
    · rw [if_neg hB]
      by_cases hC : pinged.2.state = internal.State.LOST
          ∧ elapsed now pinged.2.lastSeen > BPA_DISCONNECTED_TIMEOUT
      · rw [if_pos hC]
        refine ⟨[_], [], rfl, ?_, by simp [doSend, generateMessageID], by simp⟩
        intro p hp
        simp only [List.mem_singleton] at hp
        subst hp
        exact Or.inr rfl
      · rw [if_neg hC]
        exact periodicOutput_refl _

theorem updateDeviceStep_stays (t : UDPTunnel) (now deviceId : Nat)
    (device : internal.ConnectedDevice)
    (h : (updateDeviceStep 0 t now deviceId device).2 = false) :
    ∃ device2, mapFind (updateDeviceStep 0 t now deviceId device).1.connectedDevices deviceId
        = some device2 ∧ device2.state = internal.State.LOST := by
  unfold updateDeviceStep at h ⊢
  simp only at h ⊢
  generalize pingIfDue t now deviceId device = pinged at h ⊢
  have hA : ¬ ((0 : Nat) ≠ 0 ∧ pinged.2.countOfLost > 0) := fun hh => hh.1 rfl
  rw [if_neg hA] at h ⊢
  by_cases hB : pinged.2.state = internal.State.CONNECTED
      ∧ elapsed now pinged.2.lastSeen > BPA_STALE_TIMEOUT
  · rw [if_pos hB]
    exact ⟨{ pinged.2 with state := internal.State.LOST, lastUpdated := now },
      by simp [triggerError, mapFind_mapAssign_self], rfl⟩
  · rw [if_neg hB] at h
    by_cases hC : pinged.2.state = internal.State.LOST
        ∧ elapsed now pinged.2.lastSeen > BPA_DISCONNECTED_TIMEOUT
    · rw [if_pos hC] at h
      simp at h
    · rw [if_neg hC] at h
      simp at h

theorem updateDeviceStep_moves (t : UDPTunnel) (now deviceId : Nat)
    (device : internal.ConnectedDevice) (hstate : device.state ≠ internal.State.CONNECTED) :
    (updateDeviceStep 0 t now deviceId device).2 = true := by
  obtain ⟨-, hst⟩ := pingIfDue_output t now deviceId device
  unfold updateDeviceStep
  simp only
  generalize pingIfDue t now deviceId device = pinged at hst ⊢
  have hA : ¬ ((0 : Nat) ≠ 0 ∧ pinged.2.countOfLost > 0) := fun hh => hh.1 rfl
  have hB : ¬ (pinged.2.state = internal.State.CONNECTED
      ∧ elapsed now pinged.2.lastSeen > BPA_STALE_TIMEOUT) := by
    intro hh
    exact hstate (hst ▸ hh.1)
  rw [if_neg hA, if_neg hB]
  by_cases hC : pinged.2.state = internal.State.LOST
      ∧ elapsed now pinged.2.lastSeen > BPA_DISCONNECTED_TIMEOUT
  · rw [if_pos hC]
  · rw [if_neg hC]

/-- With BPA_DISCONNECT_ON_LOST_N_PACKETS = 0 the iterator leaves every record
after at most two passes of the loop body. -/
theorem updateDeviceVisit_returns (t : UDPTunnel) (now deviceId fuel : Nat) (hfuel : 2 ≤ fuel) :
    ∃ t1, updateDeviceVisit 0 now deviceId fuel t = some t1 ∧ periodicOutput t t1 := by
  obtain ⟨f, rfl⟩ : ∃ f, fuel = f + 2 := ⟨fuel - 2, by omega⟩
  unfold updateDeviceVisit
  cases hfind : mapFind t.connectedDevices deviceId with
  | none => exact ⟨t, rfl, periodicOutput_refl t⟩
  | some device =>
    simp only
    have hout := updateDeviceStep_output 0 t now deviceId device
    by_cases hflag : (updateDeviceStep 0 t now deviceId device).2 = true
    · rw [if_pos hflag]
      exact ⟨_, rfl, hout⟩
    · rw [if_neg hflag]
      simp only [Bool.not_eq_true] at hflag
      obtain ⟨device2, hfind2, hlost⟩ := updateDeviceStep_stays t now deviceId device hflag
      unfold updateDeviceVisit
      rw [hfind2]
      simp only
      have hmove := updateDeviceStep_moves (updateDeviceStep 0 t now deviceId device).1 now
        deviceId device2 (by rw [hlost]; decide)
      rw [if_pos hmove]
      exact ⟨_, rfl, periodicOutput_trans hout (updateDeviceStep_output 0 _ now deviceId device2)⟩

theorem updateConnectedDevicesState_walk_returns (now fuel : Nat) (hfuel : 2 ≤ fuel) :
    ∀ (ids : List Nat) (t : UDPTunnel),
      ∃ t1, updateConnectedDevicesState_walk 0 now fuel ids t = some t1 ∧ periodicOutput t t1 := by
  intro ids
  induction ids with
  | nil => intro t; exact ⟨t, rfl, periodicOutput_refl t⟩
  | cons k rest ih =>
    intro t
    obtain ⟨t1, h1, o1⟩ := updateDeviceVisit_returns t now k fuel hfuel
    obtain ⟨t2, h2, o2⟩ := ih t1
    refine ⟨t2, ?_, periodicOutput_trans o1 o2⟩
    unfold updateConnectedDevicesState_walk
    rw [h1]
    exact h2

theorem connectedDevice_lostPacket_logs (t : UDPTunnel) (now id : Nat) :
    (connectedDevice_lostPacket t now id).sent = t.sent
    ∧ (connectedDevice_lostPacket t now id).events = t.events := by
  unfold connectedDevice_lostPacket
  cases mapFind t.connectedDevices id <;> exact ⟨rfl, rfl⟩

theorem checkForLostPackets_walk_logs (now : Nat) :
    ∀ (entries : List (Nat × internal.PacketInfo)) (t : UDPTunnel),
      (checkForLostPackets_walk now entries t).sent = t.sent
      ∧ (checkForLostPackets_walk now entries t).events = t.events := by
  intro entries
  induction entries with
  | nil => intro t; exact ⟨rfl, rfl⟩
  | cons e rest ih =>
    intro t
    obtain ⟨message_id, info⟩ := e
    unfold checkForLostPackets_walk
    by_cases hx : elapsed now info.timestamp > BPA_LOST_PACKET_TIMEOUT
    · rw [if_pos hx]
      obtain ⟨hs, he⟩ := ih { connectedDevice_lostPacket t now info.device_id with
          pendingPackets := mapErase (connectedDevice_lostPacket t now info.device_id).pendingPackets
            message_id }
      obtain ⟨ls, le⟩ := connectedDevice_lostPacket_logs t now info.device_id
      exact ⟨hs.trans ls, he.trans le⟩
    · rw [if_neg hx]
      exact ih t

/-- The periodic part of loop (lost-packet sweep, peer walk, handshake sweep)
returns when two passes per record are allowed, and adds only PING and
DISCONNECT frames and DEVICE_LOST errors to the logs. -/
theorem periodic_work_returns (t : UDPTunnel) (now fuel : Nat) (hfuel : 2 ≤ fuel) :
    ∃ t2, updateConnectedDevicesState BPA_DISCONNECT_ON_LOST_N_PACKETS fuel
            (checkForLostPackets t now) now = some t2
      ∧ periodicOutput t (clearStaleHandshakes t2 now) := by
  obtain ⟨t2, h2, o2⟩ := updateConnectedDevicesState_walk_returns now fuel hfuel
    ((checkForLostPackets t now).connectedDevices.map Prod.fst) (checkForLostPackets t now)
  refine ⟨t2, h2, ?_⟩
  obtain ⟨hs, he⟩ := checkForLostPackets_walk_logs now t.pendingPackets t
  obtain ⟨frames, errors, a, b, c, d⟩ := o2
  refine ⟨frames, errors, ?_, b, ?_, d⟩
  · show t2.sent = t.sent ++ frames
    rw [a]; unfold checkForLostPackets; rw [hs]
  · show t2.events = t.events ++ errors
    rw [c]; unfold checkForLostPackets; rw [he]

end bpa

namespace bpa
open ValidationStatus

/-! ## C20: a data frame from a known peer -/

theorem connectedDevice_receivedPacket_logs (t : UDPTunnel) (now id : Nat) :
    (connectedDevice_receivedPacket t now id).sent = t.sent
    ∧ (connectedDevice_receivedPacket t now id).events = t.events
    ∧ (connectedDevice_receivedPacket t now id).pendingPackets = t.pendingPackets := by
  unfold connectedDevice_receivedPacket
  by_cases hk : (!isKnownDevice t t.id) = true
  · rw [if_pos hk]
    exact ⟨rfl, rfl, rfl⟩
  · rw [if_neg hk]
    cases mapFind t.connectedDevices id <;> exact ⟨rfl, rfl, rfl⟩

/-- The dispatch of a valid START_V1 frame from a known device. -/
theorem readMessage_data_frame (t : UDPTunnel) (now : Nat) (d : Datagram) (F : BinaryMessage)
    (hread : read d.bytes = some (F, STATUS_OK)) (hstart : F.start = START_V1)
    (hknown : isKnownDevice t F.device_id = true) :
    _readMessage t now (some d)
      = (connectedDevice_receivedPacket
          (addPendingPackets (doSend t d.remoteIP d.remotePort CONFIRM none 0).1 now F.device_id
            (doSend t d.remoteIP d.remotePort CONFIRM none 0).2) now F.device_id, F) := by
  have hne : d.bytes.length ≠ 0 := by
    intro h0
    have hnil : d.bytes = [] := List.length_eq_zero.mp h0
    have hr : read [] = some (emptyMessage, STATUS_UNEXPECTED_END_OF_STREAM) := by decide
    rw [hnil, hr] at hread
    simp at hread
  have hcond : ((isVersionStartByte F.start || isControlStartByte F.start)
      && !isKnownDevice t F.device_id) = false := by
    simp [hknown]
  rw [hstart] at hcond
  simp only [_readMessage, hne, if_false, hread, if_true, processReceivedMessage, hstart, hcond,
    Bool.false_eq_true]

/-- C20. For every tunnel state and every datagram that `read` accepts as a
START_V1 frame F from a device S that is in the peer table, one call of loop
(which returns when two passes per peer record are allowed) sends exactly one
CONFIRM frame: it goes to the remote address of the datagram, has an empty
payload and carries the newly generated message id, and every other frame sent
in the call is a PING or a DISCONNECT of the periodic work. The dispatch step
puts the pending-ack entry (now, S) under that id. The call emits exactly one
message-received event, (S, payload of F, F.size), as its last event, the others
being DEVICE_LOST errors of the periodic work. -/
theorem data_frame_from_known_peer (t : UDPTunnel) (now : Nat) (d : Datagram)
    (F : BinaryMessage) (fuel : Nat)
    (hread : read d.bytes = some (F, STATUS_OK)) (hstart : F.start = START_V1)
    (hknown : isKnownDevice t F.device_id = true) (hfuel : 2 ≤ fuel) :
    ∃ t1 frames errors,
      loop t now (some d) fuel = some t1
      ∧ t1.sent = t.sent ++ [{ ip := d.remoteIP, port := d.remotePort,
                               message := { start := CONFIRM, device_id := t.id,
                                            message_id := (generateMessageID t).2,
                                            size := 0, data := none } }] ++ frames
      ∧ (∀ p ∈ frames, p.message.start = PING ∨ p.message.start = DISCONNECT)
      ∧ (_readMessage t now (some d)).1.pendingPackets
          = mapAssign t.pendingPackets (generateMessageID t).2
              { timestamp := now, device_id := F.device_id }
      ∧ t1.events = t.events ++ errors ++ [Event.messageReceived F.device_id F.data F.size]
      ∧ (∀ e ∈ errors, ∃ id, e = Event.error id ErrorCode.DEVICE_LOST) := by
  have hrm := readMessage_data_frame t now d F hread hstart hknown
  obtain ⟨ls, le, lp⟩ := connectedDevice_receivedPacket_logs
    (addPendingPackets (doSend t d.remoteIP d.remotePort CONFIRM none 0).1 now F.device_id
      (doSend t d.remoteIP d.remotePort CONFIRM none 0).2) now F.device_id
  obtain ⟨t2, h2, frames, errors, a, b, c, e⟩ :=
    periodic_work_returns (_readMessage t now (some d)).1 now fuel hfuel
  have hempty : isMessageEmpty F = false := by
    simp [isMessageEmpty, hstart, START_V1, UNDEFINED]
  refine ⟨triggerMessageReceived (clearStaleHandshakes t2 now) F.device_id F.data F.size,
    frames, errors, ?_, ?_, b, ?_, ?_, e⟩
  · unfold loop
    simp only [h2]
    rw [hrm]
    simp only [hempty, if_true]
  · show (clearStaleHandshakes t2 now).sent = _
    rw [a, hrm]
    simp only [ls]
    simp [addPendingPackets, doSend, generateMessageID]
  · rw [hrm]
    simp only [lp]
    simp [addPendingPackets, doSend, generateMessageID]
  · show (clearStaleHandshakes t2 now).events ++ [_] = _
    rw [c, hrm]
    simp only [le]
    simp [addPendingPackets, doSend, generateMessageID]

end bpa

namespace bpa
open ValidationStatus

/-- Witness of C20: the sample tunnel (id 7, device 9 known) polls at time 100
with the datagram 30 09 01 03 01 02 03 B7 AC from (2, 1002). -/
theorem data_frame_from_known_peer_witness :
    ∃ t1 errors,
      loop sampleTunnel 100
          (some { remoteIP := 2, remotePort := 1002,
                  bytes := [0x30, 0x09, 0x01, 0x03, 0x01, 0x02, 0x03, 0xB7, 0xAC] }) 2 = some t1
      ∧ t1.events = sampleTunnel.events ++ errors ++ [Event.messageReceived 9 (some [1, 2, 3]) 3] := by
  obtain ⟨t1, _, errors, h1, _, _, _, h5, _⟩ :=
    data_frame_from_known_peer sampleTunnel 100
      { remoteIP := 2, remotePort := 1002,
        bytes := [0x30, 0x09, 0x01, 0x03, 0x01, 0x02, 0x03, 0xB7, 0xAC] }
      { start := START_V1, device_id := 9, message_id := 1, size := 3, data := some [1, 2, 3] }
      2 (by decide) rfl (by decide) (by decide)
  exact ⟨t1, errors, h1, h5⟩

/-! ## The record stored by the terminal handshake transition -/

/-- For every tunnel state, the record that the HANDSHAKE_RESP and
HANDSHAKE_COMPLETE cases store for the device is not in state CONNECTED: the
constructor sets DISCONNECTED and recording activity only turns LOST into
CONNECTED. -/
theorem establish_not_connected (t : UDPTunnel) (now deviceId seed : Nat)
    (info : internal.HandshakeInfo) :
    isConnected (establish t now deviceId seed info) deviceId = false := by
  unfold establish
  simp only [triggerDeviceConnected]
  unfold isConnected connectedDevice_receivedPacket
  simp only
  split_ifs with hk
  · simp [mapFind_mapAssign_self, internal.ConnectedDevice.create]
  · simp [mapFind_mapAssign_self, internal.ConnectedDevice.create]

end bpa

namespace bpa
open ValidationStatus

/-! ## Dispatch of single frames -/

theorem mapErase_of_absent {V : Type} (m : List (Nat × V)) (k : Nat)
    (h : mapFind m k = none) : mapErase m k = m := by
  induction m with
  | nil => rfl
  | cons e rest ih =>
    obtain ⟨k1, v1⟩ := e
    unfold mapFind at h
    by_cases h1 : k1 = k
    · simp [h1] at h
    · rw [if_neg h1] at h
      have := ih h
      unfold mapErase at this ⊢
      simp [List.filter_cons, h1, this]

theorem pendingPackets_receivedResponse_eq (t : UDPTunnel) (message_id : Nat) :
    pendingPackets_receivedResponse t message_id
      = { t with pendingPackets := mapErase t.pendingPackets message_id } := by
  unfold pendingPackets_receivedResponse
  cases h : mapFind t.pendingPackets message_id with
  | none => simp [mapErase_of_absent _ _ h]
  | some v => rfl

theorem connectedDevice_receivedPacket_pending (t : UDPTunnel) (now id : Nat) :
    (connectedDevice_receivedPacket t now id).pendingPackets = t.pendingPackets
    ∧ (connectedDevice_receivedPacket t now id).pendingConnections = t.pendingConnections
    ∧ (connectedDevice_receivedPacket t now id).messageCounter = t.messageCounter := by
  unfold connectedDevice_receivedPacket
  by_cases hk : (!isKnownDevice t t.id) = true
  · rw [if_pos hk]
    exact ⟨rfl, rfl, rfl⟩
  · rw [if_neg hk]
    cases mapFind t.connectedDevices id <;> exact ⟨rfl, rfl, rfl⟩

/-- C29. For every tunnel state and every CONFIRM frame with message id m from
a device that is in the peer table, processing the frame leaves the pending-ack
table equal to the table before with key m erased (no entry under m, every
other entry as before), sends no frame and emits no event; the frame is not
handed on as a received message. -/
theorem inbound_confirm (t : UDPTunnel) (now remoteIP remotePort : Nat) (F : BinaryMessage)
    (hstart : F.start = CONFIRM) (hknown : isKnownDevice t F.device_id = true) :
    (processReceivedMessage t now remoteIP remotePort F).1.pendingPackets
      = mapErase t.pendingPackets F.message_id
    ∧ mapFind (processReceivedMessage t now remoteIP remotePort F).1.pendingPackets F.message_id
      = none
    ∧ (∀ j, j ≠ F.message_id →
        mapFind (processReceivedMessage t now remoteIP remotePort F).1.pendingPackets j
          = mapFind t.pendingPackets j)
    ∧ (processReceivedMessage t now remoteIP remotePort F).1.sent = t.sent
    ∧ (processReceivedMessage t now remoteIP remotePort F).1.events = t.events
    ∧ (processReceivedMessage t now remoteIP remotePort F).2 = false := by
  have hcond : ((isVersionStartByte CONFIRM || isControlStartByte CONFIRM)
      && !isKnownDevice t F.device_id) = false := by
    simp [hknown]
  have hne : ¬ (CONFIRM = START_V1) := by decide
  have heq : processReceivedMessage t now remoteIP remotePort F
      = (connectedDevice_receivedPacket
          (pendingPackets_receivedResponse t F.message_id) now F.device_id, false) := by
    simp only [processReceivedMessage, hstart, hcond, Bool.false_eq_true, if_false, hne, if_true]
  obtain ⟨hs, he, -⟩ := connectedDevice_receivedPacket_logs
    (pendingPackets_receivedResponse t F.message_id) now F.device_id
  obtain ⟨hp, -, -⟩ := connectedDevice_receivedPacket_pending
    (pendingPackets_receivedResponse t F.message_id) now F.device_id
  have hpp : (processReceivedMessage t now remoteIP remotePort F).1.pendingPackets
      = mapErase t.pendingPackets F.message_id := by
    rw [heq]
    show (connectedDevice_receivedPacket _ now _).pendingPackets = _
    rw [hp, pendingPackets_receivedResponse_eq]
  refine ⟨hpp, ?_, ?_, ?_, ?_, ?_⟩
  · rw [hpp]; exact mapFind_mapErase_self _ _
  · intro j hj
    rw [hpp]; exact mapFind_mapErase_ne _ _ _ hj
  · rw [heq]
    show (connectedDevice_receivedPacket _ now _).sent = _
    rw [hs, pendingPackets_receivedResponse_eq]
  · rw [heq]
    show (connectedDevice_receivedPacket _ now _).events = _
    rw [he, pendingPackets_receivedResponse_eq]
  · rw [heq]

/-- Witness of C29: the sample tunnel, holding a pending entry under 4,
processes a CONFIRM with message id 4 from device 9. -/
theorem inbound_confirm_witness :
    (processReceivedMessage
        { sampleTunnel with pendingPackets := [(4, { timestamp := 60, device_id := 9 })] }
        100 2 1002
        { start := CONFIRM, device_id := 9, message_id := 4, size := 0, data := none }).1.pendingPackets
      = mapErase [(4, { timestamp := 60, device_id := 9 })] 4 :=
  (inbound_confirm
    { sampleTunnel with pendingPackets := [(4, { timestamp := 60, device_id := 9 })] }
    100 2 1002 { start := CONFIRM, device_id := 9, message_id := 4, size := 0, data := none }
    rfl (by decide)).1

end bpa

namespace bpa
open ValidationStatus

/-- C30 as amended. For every tunnel state and every INCORRECT_FORMAT,
INCORRECT_CHECKSUM or REJECTED frame with message id m from a device S that is
in the peer table, processing the frame erases the pending-ack entry for m,
replaces the count_of_errors of S by its successor modulo 256 (the counter is
one byte, so this is an increment by one below 255 and 0 after 255), sets
last_seen and last_updated of S to now, emits exactly one error event (S,
INCORRECT_FORMAT_ERROR) and changes nothing else: no frame is sent. -/
theorem inbound_nack (t : UDPTunnel) (now remoteIP remotePort : Nat) (F : BinaryMessage)
    (device : internal.ConnectedDevice)
    (hstart : F.start = INCORRECT_FORMAT ∨ F.start = INCORRECT_CHECKSUM ∨ F.start = REJECTED)
    (hfind : mapFind t.connectedDevices F.device_id = some device) :
    processReceivedMessage t now remoteIP remotePort F
      = ({ t with
            pendingPackets := mapErase t.pendingPackets F.message_id
            connectedDevices := mapAssign t.connectedDevices F.device_id
              { device with lastUpdated := now, lastSeen := now,
                            countOfErrors := (device.countOfErrors + 1) % 256 }
            events := t.events ++ [Event.error F.device_id ErrorCode.INCORRECT_FORMAT_ERROR] },
         false)
    ∧ (device.countOfErrors < 255 →
        (device.countOfErrors + 1) % 256 = device.countOfErrors + 1) := by
  refine ⟨?_, fun h => Nat.mod_eq_of_lt (by omega)⟩
  have hknown : isKnownDevice t F.device_id = true := by simp [isKnownDevice, hfind]
  have hcond : ((isVersionStartByte F.start || isControlStartByte F.start)
      && !isKnownDevice t F.device_id) = false := by
    simp [hknown]
  have h1 : ¬ F.start = START_V1 := by
    rcases hstart with h | h | h <;> rw [h] <;> decide
  have h2 : ¬ F.start = CONFIRM := by
    rcases hstart with h | h | h <;> rw [h] <;> decide
  simp only [processReceivedMessage, hcond, Bool.false_eq_true, if_false, h1, h2, hstart, if_true,
    pendingPackets_receivedResponse_eq, connectedDevice_error, hfind, triggerError]

/-- Witness of C30 as amended: the sample tunnel processes a REJECTED frame with
message id 4 from device 9. -/
theorem inbound_nack_witness :
    processReceivedMessage sampleTunnel 100 2 1002
        { start := REJECTED, device_id := 9, message_id := 4, size := 0, data := none }
      = ({ sampleTunnel with
            connectedDevices := [(9, { sampleDevice with lastUpdated := 100, lastSeen := 100,
                                                         countOfErrors := 1 })]
            events := [Event.error 9 ErrorCode.INCORRECT_FORMAT_ERROR] },
         false) :=
  (inbound_nack sampleTunnel 100 2 1002
    { start := REJECTED, device_id := 9, message_id := 4, size := 0, data := none }
    sampleDevice (Or.inr (Or.inr rfl)) rfl).1

/-- C30 as stated fails when count_of_errors is 255: a tunnel with id 7 whose
record for device 9 has count_of_errors 255 processes a valid REJECTED frame
from 9, and afterwards the count is 0, not 256. -/
theorem inbound_nack_count_wraps_counterexample :
    validate { start := REJECTED, device_id := 9, message_id := 4, size := 0, data := none }
      = STATUS_OK
    ∧ (mapFind
        (processReceivedMessage
          { sampleTunnel with
              connectedDevices := [(9, { sampleDevice with countOfErrors := 255 })] }
          100 2 1002
          { start := REJECTED, device_id := 9, message_id := 4, size := 0, data := none }
        ).1.connectedDevices 9).map (fun device => device.countOfErrors)
      = some 0 := by
  decide

/-! ## C23 and C24: unknown seed, inbound DISCONNECT -/

/-- C23. For every tunnel state and every HANDSHAKE_RESP or HANDSHAKE_COMPLETE
frame with the matching version byte whose recovered seed is not a key of the
pending-handshake table, processing the frame sends exactly one REJECTED frame
(empty payload) to the remote address of the datagram and changes nothing but
the message counter and the send log: no peer record is inserted, no event is
emitted and the pending-handshake table is as before. -/
theorem unknown_seed_rejected (t : UDPTunnel) (now remoteIP remotePort : Nat) (F : BinaryMessage)
    (hstart : F.start = HANDSHAKE_RESP ∨ F.start = HANDSHAKE_COMPLETE)
    (hversion : dataAt F 0 = BPA_VERSION)
    (hseed : mapFind t.pendingConnections (recoveredSeed t F) = none) :
    processReceivedMessage t now remoteIP remotePort F
      = ({ t with
            messageCounter := (generateMessageID t).2
            sent := t.sent ++ [{ ip := remoteIP, port := remotePort,
                                 message := { start := REJECTED, device_id := t.id,
                                              message_id := (generateMessageID t).2,
                                              size := 0, data := none } }] },
         false) := by
  rcases hstart with h | h
  · have hcond : ((isVersionStartByte HANDSHAKE_RESP || isControlStartByte HANDSHAKE_RESP)
        && !isKnownDevice t F.device_id) = false := by
      simp [isVersionStartByte, isControlStartByte, HANDSHAKE_RESP, START_V1]
    simp only [processReceivedMessage, h, hcond, Bool.false_eq_true, if_false, hversion, hseed,
      show ¬ HANDSHAKE_RESP = START_V1 by decide, show ¬ HANDSHAKE_RESP = CONFIRM by decide,
      show ¬ (HANDSHAKE_RESP = INCORRECT_FORMAT ∨ HANDSHAKE_RESP = INCORRECT_CHECKSUM
        ∨ HANDSHAKE_RESP = REJECTED) by decide,
      show ¬ HANDSHAKE_RESP = PING by decide, show ¬ HANDSHAKE_RESP = HANDSHAKE_INIT by decide,
      if_true, ne_eq, not_true_eq_false, doSend, generateMessageID]
  · have hcond : ((isVersionStartByte HANDSHAKE_COMPLETE || isControlStartByte HANDSHAKE_COMPLETE)
        && !isKnownDevice t F.device_id) = false := by
      simp [isVersionStartByte, isControlStartByte, HANDSHAKE_COMPLETE, START_V1]
    simp only [processReceivedMessage, h, hcond, Bool.false_eq_true, if_false, hseed,
      show ¬ HANDSHAKE_COMPLETE = START_V1 by decide,
      show ¬ HANDSHAKE_COMPLETE = CONFIRM by decide,
      show ¬ (HANDSHAKE_COMPLETE = INCORRECT_FORMAT ∨ HANDSHAKE_COMPLETE = INCORRECT_CHECKSUM
        ∨ HANDSHAKE_COMPLETE = REJECTED) by decide,
      show ¬ HANDSHAKE_COMPLETE = PING by decide,
      show ¬ HANDSHAKE_COMPLETE = HANDSHAKE_INIT by decide,
      show ¬ HANDSHAKE_COMPLETE = HANDSHAKE_RESP by decide,
      if_true, doSend, generateMessageID]

/-- Witness of C23: a fresh tunnel with id 7 (no pending handshake) processes a
HANDSHAKE_RESP with payload 1, 0E, 0C from device 9. -/
theorem unknown_seed_rejected_witness :
    processReceivedMessage (UDPTunnel.create 7) 100 2 1002
        { start := HANDSHAKE_RESP, device_id := 9, message_id := 1, size := 3,
          data := some [1, 0x0E, 0x0C] }
      = ({ UDPTunnel.create 7 with
            messageCounter := 1
            sent := [{ ip := 2, port := 1002,
                       message := { start := REJECTED, device_id := 7, message_id := 1,
                                    size := 0, data := none } }] },
         false) :=
  unknown_seed_rejected (UDPTunnel.create 7) 100 2 1002
    { start := HANDSHAKE_RESP, device_id := 9, message_id := 1, size := 3,
      data := some [1, 0x0E, 0x0C] }
    (Or.inl rfl) (by decide) (by decide)

/-- C24. For every tunnel state, processing a DISCONNECT frame from device S
erases S from the peer table (which leaves the table as it is when S is not in
it) and changes nothing else: no frame is sent, no event is emitted and the
frame is not handed on as a received message. Afterwards S is not known, and
processing the same frame again, at any time and from any address, leaves the
state exactly as it was after the first time. -/
theorem inbound_disconnect_idempotent (t : UDPTunnel) (now remoteIP remotePort : Nat)
    (F : BinaryMessage) (hstart : F.start = DISCONNECT) :
    processReceivedMessage t now remoteIP remotePort F
      = ({ t with connectedDevices := mapErase t.connectedDevices F.device_id }, false)
    ∧ isKnownDevice (processReceivedMessage t now remoteIP remotePort F).1 F.device_id = false
    ∧ (isKnownDevice t F.device_id = false →
        (processReceivedMessage t now remoteIP remotePort F).1 = t)
    ∧ ∀ now2 remoteIP2 remotePort2,
        processReceivedMessage (processReceivedMessage t now remoteIP remotePort F).1
            now2 remoteIP2 remotePort2 F
          = ((processReceivedMessage t now remoteIP remotePort F).1, false) := by
  have hcase : ∀ (u : UDPTunnel) (n i p : Nat), processReceivedMessage u n i p F
      = (if isKnownDevice u F.device_id then
          ({ u with connectedDevices := mapErase u.connectedDevices F.device_id }, false)
        else (u, false)) := by
    intro u n i p
    have hcond : ((isVersionStartByte DISCONNECT || isControlStartByte DISCONNECT)
        && !isKnownDevice u F.device_id) = false := by
      simp [isVersionStartByte, isControlStartByte, DISCONNECT, START_V1]
    simp only [processReceivedMessage, hstart, hcond, Bool.false_eq_true, if_false,
      show ¬ DISCONNECT = START_V1 by decide, show ¬ DISCONNECT = CONFIRM by decide,
      show ¬ (DISCONNECT = INCORRECT_FORMAT ∨ DISCONNECT = INCORRECT_CHECKSUM
        ∨ DISCONNECT = REJECTED) by decide,
      show ¬ DISCONNECT = PING by decide, show ¬ DISCONNECT = HANDSHAKE_INIT by decide,
      show ¬ DISCONNECT = HANDSHAKE_RESP by decide,
      show ¬ DISCONNECT = HANDSHAKE_COMPLETE by decide, if_true]
  have habsent : ∀ u : UDPTunnel, isKnownDevice u F.device_id = false →
      ({ u with connectedDevices := mapErase u.connectedDevices F.device_id } : UDPTunnel) = u := by
    intro u hu
    have hnone : mapFind u.connectedDevices F.device_id = none := by
      unfold isKnownDevice at hu
      cases hf : mapFind u.connectedDevices F.device_id with
      | none => rfl
      | some v => simp [hf] at hu
    rw [mapErase_of_absent _ _ hnone]
  have heq : processReceivedMessage t now remoteIP remotePort F
      = ({ t with connectedDevices := mapErase t.connectedDevices F.device_id }, false) := by
    rw [hcase]
    by_cases hk : isKnownDevice t F.device_id = true
    · rw [if_pos hk]
    · rw [if_neg hk]
      simp only [Bool.not_eq_true] at hk
      rw [habsent t hk]
  have hunknown : isKnownDevice
      ({ t with connectedDevices := mapErase t.connectedDevices F.device_id } : UDPTunnel)
      F.device_id = false := by
    simp [isKnownDevice, mapFind_mapErase_self]
  refine ⟨heq, ?_, ?_, ?_⟩
  · rw [heq]; exact hunknown
  · intro hk
    rw [heq]
    exact habsent t hk
  · intro now2 remoteIP2 remotePort2
    rw [heq, hcase]
    simp only [hunknown, Bool.false_eq_true, if_false]

/-- Witness of C24: the sample tunnel processes a DISCONNECT from device 9. -/
theorem inbound_disconnect_idempotent_witness :
    processReceivedMessage sampleTunnel 100 2 1002
        { start := DISCONNECT, device_id := 9, message_id := 1, size := 0, data := none }
      = ({ sampleTunnel with connectedDevices := [] }, false) :=
  (inbound_disconnect_idempotent sampleTunnel 100 2 1002
    { start := DISCONNECT, device_id := 9, message_id := 1, size := 0, data := none } rfl).1

end bpa

namespace bpa
open ValidationStatus

/-! ## C21, C22, C26, C28: scenarios in which the engine departs from the contract -/

/-- C21 in the acknowledgement scenario: the sender (id 7, peer 9 CONNECTED)
sends the data frame 1 2 3 with message id 5 and holds the pending entry
(100, 9) under 5. Over the transport the responder (id 9, which knows 7) reads
the frame with a checksum mismatch and answers INCORRECT_CHECKSUM with its own
message id 1; after the sender has polled with that reply the entry under 5 is
still there, and the poll at time 1200 counts the frame as lost for 9. Handed
the frame directly, the responder answers with a CONFIRM that carries its own
message id 1, not 5, and processing that CONFIRM leaves the entry under 5 in
place as well. -/
theorem ack_scenario_entry_not_erased :
    ackScenario.map (fun r =>
        (mapFind r.1.pendingPackets 5,
         r.2.1.sent.map (fun p => (p.message.start, p.message.message_id)),
         mapFind r.2.2.1.pendingPackets 5,
         (mapFind r.2.2.2.connectedDevices 9).map (fun device => device.countOfLost)))
      = some (some { timestamp := 100, device_id := 9 },
              [(INCORRECT_CHECKSUM, 1)],
              some { timestamp := 100, device_id := 9 },
              some 1)
    ∧ (processReceivedMessage sampleResponder 100 1 1001
          { start := START_V1, device_id := 7, message_id := 5, size := 3,
            data := some [1, 2, 3] }).1.sent
      = [{ ip := 1, port := 1001,
           message := { start := CONFIRM, device_id := 9, message_id := 1, size := 0,
                        data := none } }]
    ∧ (processReceivedMessage (sendMessage sampleSender 100 9 (some [1, 2, 3]) 3) 110 2 1002
          { start := CONFIRM, device_id := 9, message_id := 1, size := 0,
            data := none }).1.pendingPackets
      = [(5, { timestamp := 100, device_id := 9 })] := by
  decide

/-- C22 at a tunnel with id 9 that holds the pending entry (1, 1001, 100) under
seed 5 and processes, at time 120, the valid HANDSHAKE_COMPLETE frame from
device 7 with payload 2, 00, 0E: the first payload byte 2 differs from
BPA_VERSION and the recovered seed is 5. No REJECTED frame is sent (nothing is
sent at all); the pending entry is erased, a record for 7 is stored and a
device-connected event is emitted. -/
theorem handshake_complete_ignores_version :
    validate { start := HANDSHAKE_COMPLETE, device_id := 7, message_id := 1, size := 3,
               data := some [2, 0x00, 0x0E] } = STATUS_OK
    ∧ dataAt { start := HANDSHAKE_COMPLETE, device_id := 7, message_id := 1, size := 3,
               data := some [2, 0x00, 0x0E] } 0 ≠ BPA_VERSION
    ∧ processReceivedMessage
        { UDPTunnel.create 9 with
            pendingConnections := [(5, { ip := 1, port := 1001, timestamp := 100 })] }
        120 1 1001
        { start := HANDSHAKE_COMPLETE, device_id := 7, message_id := 1, size := 3,
          data := some [2, 0x00, 0x0E] }
      = ({ UDPTunnel.create 9 with
            connectedDevices := [(7, internal.ConnectedDevice.create 1 1001)]
            events := [Event.deviceConnected 7 1 1001] },
         false) := by
  decide

/-- C26 at the sample tunnel (id 7, device 9 CONNECTED, last seen at time 50)
polling at time 20000 with no datagram and the default constants: the time since
last_seen exceeds BPA_STALE_TIMEOUT, one DEVICE_LOST error is emitted for 9, and
in the same poll a DISCONNECT is sent and the record erased, so that afterwards
9 is not in the table and isLostDevice(9) is false. -/
theorem stale_peer_erased_in_same_poll :
    isConnected sampleTunnel 9 = true
    ∧ decide (elapsed 20000 sampleDevice.lastSeen > BPA_STALE_TIMEOUT) = true
    ∧ BPA_DISCONNECT_ON_LOST_N_PACKETS = 0
    ∧ loop sampleTunnel 20000 none 2
      = some { sampleTunnel with
          messageCounter := 2
          connectedDevices := []
          pendingPackets := [(1, { timestamp := 20000, device_id := 9 })]
          sent := [{ ip := 2, port := 1002,
                     message := { start := PING, device_id := 7, message_id := 1, size := 0,
                                  data := none } },
                   { ip := 2, port := 1002,
                     message := { start := DISCONNECT, device_id := 7, message_id := 2, size := 0,
                                  data := none } }]
          events := [Event.error 9 ErrorCode.DEVICE_LOST] }
    ∧ (loop sampleTunnel 20000 none 2).map (fun t => (isKnownDevice t 9, isLostDevice t 9))
      = some (false, false) := by
  decide

/-- C28 at a fresh tunnel with id 9 that processes, at time 100, the valid
HANDSHAKE_INIT frame from device 7 at (1, 1001) with payload 1, 0C, 02, which is
what the initiator 7 builds for seed 5 (encode(7, 5) = 0x020C). The seed
recovered is 249, not 5: the pending entry is stored under 249, and the frame
sent in reply has start byte 0x3E, not HANDSHAKE_RESP (0x2B). -/
theorem handshake_init_recovers_other_seed :
    [BPA_VERSION, lowByte (encode 7 5), highByte (encode 7 5)] = [1, 0x0C, 0x02]
    ∧ validate { start := HANDSHAKE_INIT, device_id := 7, message_id := 1, size := 3,
                 data := some [1, 0x0C, 0x02] } = STATUS_OK
    ∧ recoveredSeed (UDPTunnel.create 9)
        { start := HANDSHAKE_INIT, device_id := 7, message_id := 1, size := 3,
          data := some [1, 0x0C, 0x02] } = 249
    ∧ processReceivedMessage (UDPTunnel.create 9) 100 1 1001
        { start := HANDSHAKE_INIT, device_id := 7, message_id := 1, size := 3,
          data := some [1, 0x0C, 0x02] }
      = ({ UDPTunnel.create 9 with
            messageCounter := 1
            pendingConnections := [(249, { ip := 1, port := 1001, timestamp := 100 })]
            sent := [{ ip := 1, port := 1001,
                       message := { start := 0x3E, device_id := 9, message_id := 1, size := 3,
                                    data := some [1, 0x02, 0xF0] } }] },
         false)
    ∧ HANDSHAKE_RESP = 0x2B
    ∧ internal.HANDSHAKE_RESP = 0x3E := by
  decide

end bpa

namespace bpa
open ValidationStatus

/-! ## C25: payload lengths -/

/-- A datagram of bytes whose length is not its byte 3 plus 6 is rejected. -/
theorem read_rejects_length (d : List Nat)
    (h : min d.length BPA_MAX_SIZE ≠ d.getD 3 0 + 6) :
    read d = some (emptyMessage, STATUS_UNEXPECTED_END_OF_STREAM) := by
  have hget : (d.take BPA_MAX_SIZE).getD 3 0 = d.getD 3 0 := by
    simp [List.getD_eq_getElem?_getD, List.getElem?_take, BPA_MAX_SIZE, BPA_MAX_PAYLOAD_SIZE]
  unfold read
  simp only [hget, List.length_take]
  rw [Nat.min_comm]
  by_cases h4 : min d.length BPA_MAX_SIZE ≤ 4
  · rw [if_pos h4]
  · rw [if_neg h4, if_pos h]

/-- The frame part of the round trip. For every frame with a supported start
byte whose fields and payload bytes are bytes, whose payload has exactly `size`
bytes and whose payload pointer is null when the size is 0, `write` emits
`size + 6` bytes and `read` of them returns this very frame, with some
status. -/
theorem read_write_frame (F : BinaryMessage)
    (hsup : isSupportedStartByte F.start = true)
    (hdev : F.device_id < 256) (hmsg : F.message_id < 256) (hsize : F.size < 256)
    (hbytes : allBytes (payloadBytes F)) (hexact : exactPayload F)
    (hnull : F.size = 0 → F.data = none) :
    ∃ d st, write F = some d ∧ d.length = F.size + 6 ∧ allBytes d ∧ read d = some (F, st) := by
  obtain ⟨hreg, hlen⟩ := region_of_exactPayload F hexact
  obtain ⟨start, dev, msg, size, data⟩ := F
  simp only at hsup hdev hmsg hsize hnull hreg hlen
  generalize hp : payloadBytes (BinaryMessage.mk start dev msg size data) = p at hreg hlen hbytes
  have hstart : start < 256 := by
    rcases (isSupportedStartByte_iff start).1 hsup with
      h | h | h | h | h | h | h | h | h | h <;> rw [h] <;> decide
  have hh := fnv1a_hash16_lt p size
  generalize hq : fnv1a_hash16 p size = q at hh
  have hw : write (BinaryMessage.mk start dev msg size data)
      = some (start :: dev :: msg :: size :: (p ++ [q / 256, q % 256])) := by
    unfold write
    simp only [hreg, shiftRight8_eq_div, and255_eq_mod, hq]
    simp
  have hall : allBytes (start :: dev :: msg :: size :: (p ++ [q / 256, q % 256])) := by
    intro b hb
    simp only [List.mem_cons, List.mem_append, List.mem_singleton, List.not_mem_nil,
      or_false] at hb
    rcases hb with h | h | h | h | h | h | h
    · omega
    · omega
    · omega
    · omega
    · exact hbytes b h
    · omega
    · omega
  have hl : (start :: dev :: msg :: size :: (p ++ [q / 256, q % 256])).length = size + 6 := by
    simp [hlen]
  have hread := read_of_length _ hall (by rw [hl]; rfl)
  have hframe : classifiedFrame (start :: dev :: msg :: size :: (p ++ [q / 256, q % 256]))
      = BinaryMessage.mk start dev msg size data := by
    have htake : List.take size (p ++ [q / 256, q % 256]) = p := by
      rw [← hlen]; simp
    have hdata : (if size = 0 then none else some p) = data := by
      by_cases h0 : size = 0
      · rw [if_pos h0, hnull h0]
      · rw [if_neg h0]
        cases data with
        | none =>
          simp [exactPayload] at hexact; exact absurd hexact h0
        | some mem =>
          simp only [exactPayload] at hexact
          rw [← hp]
          simp [payloadBytes, ← hexact]
    simp [classifiedFrame, rawFrame, hsup, htake, hdata]
  rw [hframe] at hread
  exact ⟨_, _, hw, hl, hall, hread⟩

theorem zeroFrame_payload (n : Nat) : payloadBytes (zeroFrame n) = List.replicate n 0 := by
  by_cases h0 : n = 0
  · subst h0; rfl
  · simp [payloadBytes, zeroFrame, h0]

/-- C25 as amended. For every length n from 0 to 255 inclusive there is a
frame with an n-byte payload that `write` emits as n + 6 bytes and that `read`
parses back as the same frame, so with an n-byte payload (the status returned
with it is not claimed). The size field is one byte, which is why 255 is the
greatest length. -/
theorem payload_range (n : Nat) (hn : n ≤ 255) :
    ∃ F d st,
      (payloadBytes F).length = n ∧ F.size = n
      ∧ write F = some d ∧ d.length = n + 6 ∧ allBytes d
      ∧ read d = some (F, st) := by
  have hp := zeroFrame_payload n
  obtain ⟨d, st, hw, hl, hall, hr⟩ := read_write_frame (zeroFrame n)
    (show isSupportedStartByte START_V1 = true by decide)
    (show 1 < 256 by decide) (show 1 < 256 by decide) (show n < 256 by omega)
    (by rw [hp]; intro b hb; rw [List.eq_of_mem_replicate hb]; decide)
    (by
      by_cases h0 : n = 0
      · subst h0; rfl
      · simp [exactPayload, zeroFrame, h0])
    (by intro h0; have h0 : n = 0 := h0; simp [zeroFrame, h0])
  exact ⟨zeroFrame n, d, st, by rw [hp]; simp, rfl, hw, hl, hall, hr⟩

/-- Witness of C25 as amended at the greatest length, 255. -/
theorem payload_range_witness :
    ∃ F d st,
      (payloadBytes F).length = 255 ∧ F.size = 255
      ∧ write F = some d ∧ d.length = 255 + 6 ∧ allBytes d
      ∧ read d = some (F, st) :=
  payload_range 255 (by decide)

/-- C25 as stated fails at the length 256: no datagram of 256 + 6 bytes is
parsed by `read` into a frame with a 256-byte payload. Byte 3 of the datagram,
the declared size, is at most 255, so the length check of `read` rejects it. -/
theorem payload_256_counterexample :
    ¬ ∃ d F st, allBytes d ∧ d.length = 256 + 6 ∧ read d = some (F, st)
        ∧ (payloadBytes F).length = 256 := by
  rintro ⟨d, F, st, hall, hlen, hread, hpay⟩
  have h3 : d.getD 3 0 < 256 := by
    rw [List.getD_eq_getElem _ _ (by omega)]
    exact hall _ (List.getElem_mem _)
  have hrej := read_rejects_length d (by
    rw [hlen]; simp only [BPA_MAX_SIZE, BPA_MAX_PAYLOAD_SIZE]; omega)
  rw [hrej] at hread
  simp only [Option.some.injEq, Prod.mk.injEq] at hread
  rw [← hread.1] at hpay
  simp [payloadBytes, emptyMessage] at hpay

end bpa

namespace bpa
open ValidationStatus

/-! ## C27: the peer walk at a LOST record -/

theorem recordsFrom_refl (t : UDPTunnel) : recordsFrom t t :=
  ⟨rfl, fun _ dev1 h => ⟨dev1, h, rfl, rfl, rfl⟩⟩

theorem recordsFrom_trans {a b c : UDPTunnel} (h1 : recordsFrom a b) (h2 : recordsFrom b c) :
    recordsFrom a c := by
  refine ⟨h2.1.trans h1.1, ?_⟩
  intro i dev2 hfind
  obtain ⟨dev1, hf1, s1⟩ := h2.2 i dev2 hfind
  obtain ⟨dev, hf, s⟩ := h1.2 i dev1 hf1
  exact ⟨dev, hf, s1.1.trans s.1, s1.2.1.trans s.2.1, s1.2.2.trans s.2.2⟩

theorem framesToOthers_nil (k : Nat) (t : UDPTunnel) : framesToOthers k t [] := by
  intro p hp
  simp at hp

theorem framesToOthers_append {k : Nat} {t : UDPTunnel} {f g : List Packet}
    (hf : framesToOthers k t f) (hg : framesToOthers k t g) : framesToOthers k t (f ++ g) := by
  intro p hp
  rcases List.mem_append.mp hp with h | h
  · exact hf p h
  · exact hg p h

theorem framesToOthers_from {k : Nat} {t t1 : UDPTunnel} {f : List Packet}
    (hr : recordsFrom t t1) (hf : framesToOthers k t1 f) : framesToOthers k t f := by
  intro p hp
  obtain ⟨hstart, i, dev1, hik, hfind, hip, hport⟩ := hf p hp
  obtain ⟨dev, hfind0, s⟩ := hr.2 i dev1 hfind
  exact ⟨hstart, i, dev, hik, hfind0, hip.trans s.1, hport.trans s.2.1⟩

/-- What pingIfDue does at the record `device` stored under `j`. -/
theorem pingIfDue_effect (t : UDPTunnel) (now j : Nat) (device : internal.ConnectedDevice)
    (hfind : mapFind t.connectedDevices j = some device) :
    (pingIfDue t now j device).1.id = t.id
    ∧ (∀ i, i ≠ j → mapFind (pingIfDue t now j device).1.connectedDevices i
        = mapFind t.connectedDevices i)
    ∧ mapFind (pingIfDue t now j device).1.connectedDevices j = some (pingIfDue t now j device).2
    ∧ standing (pingIfDue t now j device).2 = standing device
    ∧ ∃ ping, (pingIfDue t now j device).1.sent = t.sent ++ ping
        ∧ (ping = [] ∨ ∃ mid, ping = [pingFrame t device mid]) := by
  unfold pingIfDue
  by_cases hp : elapsed now device.lastPing > BPA_PING_FREQUENCY
  · rw [if_pos hp]
    refine ⟨rfl, ?_, ?_, rfl, [pingFrame t device (generateMessageID t).2], rfl,
      Or.inr ⟨_, rfl⟩⟩
    · intro i hi
      exact mapFind_mapAssign_ne _ _ _ _ hi
    · exact mapFind_mapAssign_self _ _ _
  · rw [if_neg hp]
    exact ⟨rfl, fun _ _ => rfl, hfind, rfl, [], by simp, Or.inl rfl⟩

/-- What one pass of the loop body does at the record `device` stored under
`j`: the tunnel id and the other records are kept, the record under `j` keeps
its address and last-seen time while it stays, and the frames sent are PING or
DISCONNECT frames to the address of `device`. -/
theorem updateDeviceStep_effect (lostLimit : Nat) (t : UDPTunnel) (now j : Nat)
    (device : internal.ConnectedDevice)
    (hfind : mapFind t.connectedDevices j = some device) :
    (updateDeviceStep lostLimit t now j device).1.id = t.id
    ∧ (∀ i, i ≠ j → mapFind (updateDeviceStep lostLimit t now j device).1.connectedDevices i
        = mapFind t.connectedDevices i)
    ∧ (∀ dev1, mapFind (updateDeviceStep lostLimit t now j device).1.connectedDevices j
        = some dev1 → sameAddress device dev1)
    ∧ ∃ frames, (updateDeviceStep lostLimit t now j device).1.sent = t.sent ++ frames
        ∧ ∀ p ∈ frames, (p.message.start = PING ∨ p.message.start = DISCONNECT)
            ∧ p.ip = device.ip ∧ p.port = device.port := by
  obtain ⟨hid, hothers, hself, hstand, ping, hsent, hping⟩ := pingIfDue_effect t now j device hfind
  have hpingTo : ∀ p ∈ ping, (p.message.start = PING ∨ p.message.start = DISCONNECT)
      ∧ p.ip = device.ip ∧ p.port = device.port := by
    intro p hp
    rcases hping with h | ⟨mid, h⟩
    · rw [h] at hp; simp at hp
    · rw [h] at hp
      simp only [List.mem_singleton] at hp
      subst hp
      exact ⟨Or.inl rfl, rfl, rfl⟩
  unfold updateDeviceStep
  simp only
  generalize pingIfDue t now j device = pinged at hid hothers hself hstand hsent
  simp only [standing, Prod.mk.injEq] at hstand
  obtain ⟨hip, hport, hseen, hstate⟩ := hstand
  by_cases hA : lostLimit ≠ 0 ∧ pinged.2.countOfLost > lostLimit
  · rw [if_pos hA]
    refine ⟨hid, ?_, ?_, ping, hsent, hpingTo⟩
    · intro i hi
      show mapFind (mapAssign pinged.1.connectedDevices j _) i = _
      rw [mapFind_mapAssign_ne _ _ _ _ hi]
      exact hothers i hi
    · intro dev1 h1
      have h1 : mapFind (mapAssign pinged.1.connectedDevices j
          { pinged.2 with state := internal.State.LOST }) j = some dev1 := h1
      rw [mapFind_mapAssign_self] at h1
      simp only [Option.some.injEq] at h1
      subst h1
      exact ⟨hip, hport, hseen⟩
  · rw [if_neg hA]
    by_cases hB : pinged.2.state = internal.State.CONNECTED
        ∧ elapsed now pinged.2.lastSeen > BPA_STALE_TIMEOUT
    · rw [if_pos hB]
      refine ⟨hid, ?_, ?_, ping, hsent, hpingTo⟩
      · intro i hi
        show mapFind (mapAssign pinged.1.connectedDevices j _) i = _
        rw [mapFind_mapAssign_ne _ _ _ _ hi]
        exact hothers i hi
      · intro dev1 h1
        have h1 : mapFind (mapAssign pinged.1.connectedDevices j
            { pinged.2 with state := internal.State.LOST, lastUpdated := now }) j
            = some dev1 := h1
        rw [mapFind_mapAssign_self] at h1
        simp only [Option.some.injEq] at h1
        subst h1
        exact ⟨hip, hport, hseen⟩
    · rw [if_neg hB]
      by_cases hC : pinged.2.state = internal.State.LOST
          ∧ elapsed now pinged.2.lastSeen > BPA_DISCONNECTED_TIMEOUT
      · rw [if_pos hC]
        refine ⟨hid, ?_, ?_, ping ++ [disconnectFrame pinged.1 pinged.2
          (generateMessageID pinged.1).2], ?_, ?_⟩
        · intro i hi
          show mapFind (mapErase pinged.1.connectedDevices j) i = _
          rw [mapFind_mapErase_ne _ _ _ hi]
          exact hothers i hi
        · intro dev1 h1
          have h1 : mapFind (mapErase pinged.1.connectedDevices j) j = some dev1 := h1
          rw [mapFind_mapErase_self] at h1
          simp at h1
        · show pinged.1.sent ++ [_] = _
          rw [hsent, List.append_assoc]
          rfl
        · intro p hp
          rcases List.mem_append.mp hp with h | h
          · exact hpingTo p h
          · simp only [List.mem_singleton] at h
            subst h
            exact ⟨Or.inr rfl, hip, hport⟩
      · rw [if_neg hC]
        refine ⟨hid, hothers, ?_, ping, hsent, hpingTo⟩
        intro dev1 h1
        rw [hself] at h1
        simp only [Option.some.injEq] at h1
        subst h1
        exact ⟨hip, hport, hseen⟩

/-- What the passes made at the record under `j` do, whenever they end: the
peer table only loses or updates records, the records under other ids are
untouched, and the frames sent go to the address stored under `j`. -/
theorem updateDeviceVisit_effect (lostLimit now j : Nat) :
    ∀ (fuel : Nat) (t t1 : UDPTunnel), updateDeviceVisit lostLimit now j fuel t = some t1 →
      recordsFrom t t1
      ∧ (∀ i, i ≠ j → mapFind t1.connectedDevices i = mapFind t.connectedDevices i)
      ∧ ∃ frames, t1.sent = t.sent ++ frames
          ∧ ∀ p ∈ frames, (p.message.start = PING ∨ p.message.start = DISCONNECT)
              ∧ ∃ dev, mapFind t.connectedDevices j = some dev
                  ∧ p.ip = dev.ip ∧ p.port = dev.port := by
  intro fuel
  induction fuel with
  | zero =>
    intro t t1 h
    simp [updateDeviceVisit] at h
  | succ f ih =>
    intro t t1 h
    unfold updateDeviceVisit at h
    cases hfind : mapFind t.connectedDevices j with
    | none =>
      rw [hfind] at h
      simp only [Option.some.injEq] at h
      subst h
      exact ⟨recordsFrom_refl t, fun _ _ => rfl, [], by simp, by simp⟩
    | some device =>
      rw [hfind] at h
      simp only at h
      obtain ⟨hid, hothers, hself, frames, hsent, hto⟩ :=
        updateDeviceStep_effect lostLimit t now j device hfind
      have hrec : recordsFrom t (updateDeviceStep lostLimit t now j device).1 := by
        refine ⟨hid, ?_⟩
        intro i dev1 h1
        by_cases hi : i = j
        · subst hi
          exact ⟨device, hfind, hself dev1 h1⟩
        · rw [hothers i hi] at h1
          exact ⟨dev1, h1, rfl, rfl, rfl⟩
      have hto1 : ∀ p ∈ frames, (p.message.start = PING ∨ p.message.start = DISCONNECT)
          ∧ ∃ dev, some device = some dev ∧ p.ip = dev.ip ∧ p.port = dev.port :=
        fun p hp => ⟨(hto p hp).1, device, rfl, (hto p hp).2⟩
      by_cases hflag : (updateDeviceStep lostLimit t now j device).2 = true
      · rw [if_pos hflag] at h
        simp only [Option.some.injEq] at h
        subst h
        exact ⟨hrec, hothers, frames, hsent, hto1⟩
      · rw [if_neg hflag] at h
        obtain ⟨hrec2, hothers2, frames2, hsent2, hto2⟩ := ih _ t1 h
        refine ⟨recordsFrom_trans hrec hrec2, ?_, frames ++ frames2, ?_, ?_⟩
        · intro i hi
          rw [hothers2 i hi, hothers i hi]
        · rw [hsent2, hsent, List.append_assoc]
        · intro p hp
          rcases List.mem_append.mp hp with hp1 | hp2
          · exact hto1 p hp1
          · obtain ⟨hstart, dev2, hfind2, hip, hport⟩ := hto2 p hp2
            obtain ⟨ha, hb, -⟩ := hself dev2 hfind2
            exact ⟨hstart, device, rfl, hip.trans ha, hport.trans hb⟩

theorem disconnectFrame_congr {t t1 : UDPTunnel} {device device1 : internal.ConnectedDevice}
    (hid : t1.id = t.id) (hst : standing device1 = standing device) (mid : Nat) :
    disconnectFrame t1 device1 mid = disconnectFrame t device mid := by
  simp only [standing, Prod.mk.injEq] at hst
  simp [disconnectFrame, hid, hst.1, hst.2.1]

theorem pingFrame_congr {t t1 : UDPTunnel} {device device1 : internal.ConnectedDevice}
    (hid : t1.id = t.id) (hst : standing device1 = standing device) (mid : Nat) :
    pingFrame t1 device1 mid = pingFrame t device mid := by
  simp only [standing, Prod.mk.injEq] at hst
  simp [pingFrame, hid, hst.1, hst.2.1]

/-- The visit of a LOST record whose last-seen time is older than
BPA_DISCONNECTED_TIMEOUT: it ends after one pass, the record is erased, and
what is sent is the PING, if one is due, and one DISCONNECT frame to the
stored address. -/
theorem updateDeviceVisit_lost_expired (t : UDPTunnel) (now k fuel : Nat)
    (device : internal.ConnectedDevice)
    (hfind : mapFind t.connectedDevices k = some device)
    (hlost : device.state = internal.State.LOST)
    (hexp : elapsed now device.lastSeen > BPA_DISCONNECTED_TIMEOUT) :
    ∃ t1 ping mid, updateDeviceVisit 0 now k (fuel + 1) t = some t1
      ∧ mapFind t1.connectedDevices k = none
      ∧ t1.sent = t.sent ++ ping ++ [disconnectFrame t device mid]
      ∧ (ping = [] ∨ ∃ pid, ping = [pingFrame t device pid]) := by
  obtain ⟨hid, -, -, hstand, ping, hsent, hping⟩ := pingIfDue_effect t now k device hfind
  have hstep : updateDeviceStep 0 t now k device
      = ({ (doSend (pingIfDue t now k device).1 (pingIfDue t now k device).2.ip
              (pingIfDue t now k device).2.port DISCONNECT none 0).1 with
            connectedDevices := mapErase (doSend (pingIfDue t now k device).1
              (pingIfDue t now k device).2.ip (pingIfDue t now k device).2.port
              DISCONNECT none 0).1.connectedDevices k }, true) := by
    unfold updateDeviceStep
    simp only
    generalize pingIfDue t now k device = pinged at hstand
    simp only [standing, Prod.mk.injEq] at hstand
    obtain ⟨-, -, hseen, hstate⟩ := hstand
    have hA : ¬ ((0 : Nat) ≠ 0 ∧ pinged.2.countOfLost > 0) := fun hh => hh.1 rfl
    have hB : ¬ (pinged.2.state = internal.State.CONNECTED
        ∧ elapsed now pinged.2.lastSeen > BPA_STALE_TIMEOUT) := by
      intro hh
      rw [hstate, hlost] at hh
      exact absurd hh.1 (by decide)
    have hC : pinged.2.state = internal.State.LOST
        ∧ elapsed now pinged.2.lastSeen > BPA_DISCONNECTED_TIMEOUT := by
      rw [hstate, hseen]
      exact ⟨hlost, hexp⟩
    rw [if_neg hA, if_neg hB, if_pos hC]
  refine ⟨(updateDeviceStep 0 t now k device).1, ping,
    (generateMessageID (pingIfDue t now k device).1).2, ?_, ?_, ?_, hping⟩
  · unfold updateDeviceVisit
    rw [hfind]
    simp only
    rw [if_pos (by rw [hstep])]
  · rw [hstep]
    exact mapFind_mapErase_self _ _
  · rw [hstep]
    show (pingIfDue t now k device).1.sent ++ [disconnectFrame (pingIfDue t now k device).1
      (pingIfDue t now k device).2 _] = _
    rw [hsent, disconnectFrame_congr hid hstand]

/-- The visit of a LOST record whose last-seen time is not older than
BPA_DISCONNECTED_TIMEOUT: it ends after one pass and the record stays, with
its address, last-seen time and state. -/
theorem updateDeviceVisit_lost_fresh (t : UDPTunnel) (now k fuel : Nat)
    (device : internal.ConnectedDevice)
    (hfind : mapFind t.connectedDevices k = some device)
    (hlost : device.state = internal.State.LOST)
    (hfresh : ¬ elapsed now device.lastSeen > BPA_DISCONNECTED_TIMEOUT) :
    ∃ t1 device1, updateDeviceVisit 0 now k (fuel + 1) t = some t1
      ∧ mapFind t1.connectedDevices k = some device1
      ∧ standing device1 = standing device := by
  obtain ⟨-, -, hself, hstand, -⟩ := pingIfDue_effect t now k device hfind
  have hstep : updateDeviceStep 0 t now k device = ((pingIfDue t now k device).1, true) := by
    unfold updateDeviceStep
    simp only
    generalize pingIfDue t now k device = pinged at hstand
    simp only [standing, Prod.mk.injEq] at hstand
    obtain ⟨-, -, hseen, hstate⟩ := hstand
    have hA : ¬ ((0 : Nat) ≠ 0 ∧ pinged.2.countOfLost > 0) := fun hh => hh.1 rfl
    have hB : ¬ (pinged.2.state = internal.State.CONNECTED
        ∧ elapsed now pinged.2.lastSeen > BPA_STALE_TIMEOUT) := by
      intro hh
      rw [hstate, hlost] at hh
      exact absurd hh.1 (by decide)
    have hC : ¬ (pinged.2.state = internal.State.LOST
        ∧ elapsed now pinged.2.lastSeen > BPA_DISCONNECTED_TIMEOUT) := by
      rw [hseen]
      exact fun hh => hfresh hh.2
    rw [if_neg hA, if_neg hB, if_neg hC]
  refine ⟨(pingIfDue t now k device).1, (pingIfDue t now k device).2, ?_, hself, hstand⟩
  unfold updateDeviceVisit
  rw [hfind]
  simp only
  rw [hstep]
  rfl

theorem connectedDevice_lostPacket_standing (t : UDPTunnel) (now id i : Nat) :
    (connectedDevice_lostPacket t now id).id = t.id
    ∧ (mapFind (connectedDevice_lostPacket t now id).connectedDevices i).map standing
        = (mapFind t.connectedDevices i).map standing := by
  unfold connectedDevice_lostPacket
  cases hfind : mapFind t.connectedDevices id with
  | none => exact ⟨rfl, rfl⟩
  | some device =>
    refine ⟨rfl, ?_⟩
    by_cases hi : i = id
    · subst hi
      show (mapFind (mapAssign t.connectedDevices i _) i).map standing = _
      rw [mapFind_mapAssign_self, hfind]
      rfl
    · show (mapFind (mapAssign t.connectedDevices id _) i).map standing = _
      rw [mapFind_mapAssign_ne _ _ _ _ hi]

/-- The lost-packet sweep keeps the tunnel id and, of every peer record, the
address, the last-seen time and the state. -/
theorem checkForLostPackets_walk_standing (now i : Nat) :
    ∀ (entries : List (Nat × internal.PacketInfo)) (t : UDPTunnel),
      (checkForLostPackets_walk now entries t).id = t.id
      ∧ (mapFind (checkForLostPackets_walk now entries t).connectedDevices i).map standing
          = (mapFind t.connectedDevices i).map standing := by
  intro entries
  induction entries with
  | nil => intro t; exact ⟨rfl, rfl⟩
  | cons e rest ih =>
    intro t
    obtain ⟨message_id, info⟩ := e
    unfold checkForLostPackets_walk
    by_cases hx : elapsed now info.timestamp > BPA_LOST_PACKET_TIMEOUT
    · rw [if_pos hx]
      obtain ⟨h1, h2⟩ := ih { connectedDevice_lostPacket t now info.device_id with
          pendingPackets := mapErase (connectedDevice_lostPacket t now info.device_id).pendingPackets
            message_id }
      obtain ⟨l1, l2⟩ := connectedDevice_lostPacket_standing t now info.device_id i
      exact ⟨h1.trans l1, h2.trans l2⟩
    · rw [if_neg hx]
      exact ih t

theorem checkForLostPackets_recordsFrom (t : UDPTunnel) (now : Nat) :
    recordsFrom t (checkForLostPackets t now) := by
  refine ⟨(checkForLostPackets_walk_standing now 0 t.pendingPackets t).1, ?_⟩
  intro i dev1 h1
  have h := (checkForLostPackets_walk_standing now i t.pendingPackets t).2
  have h1 : mapFind (checkForLostPackets_walk now t.pendingPackets t).connectedDevices i
      = some dev1 := h1
  rw [h1] at h
  cases hfind : mapFind t.connectedDevices i with
  | none => rw [hfind] at h; simp at h
  | some dev =>
    rw [hfind] at h
    simp only [Option.map_some', Option.some.injEq, standing, Prod.mk.injEq] at h
    exact ⟨dev, rfl, h.1, h.2.1, h.2.2.1⟩

theorem checkForLostPackets_keeps (t : UDPTunnel) (now k : Nat)
    (device : internal.ConnectedDevice)
    (hfind : mapFind t.connectedDevices k = some device) :
    ∃ device1, mapFind (checkForLostPackets t now).connectedDevices k = some device1
      ∧ standing device1 = standing device := by
  have h := (checkForLostPackets_walk_standing now k t.pendingPackets t).2
  rw [hfind] at h
  cases h1 : mapFind (checkForLostPackets_walk now t.pendingPackets t).connectedDevices k with
  | none => rw [h1] at h; simp at h
  | some device1 =>
    rw [h1] at h
    simp only [Option.map_some', Option.some.injEq] at h
    exact ⟨device1, h1, h⟩

theorem mem_keys_of_mapFind {V : Type} (m : List (Nat × V)) (k : Nat) (v : V)
    (h : mapFind m k = some v) : k ∈ m.map Prod.fst := by
  induction m with
  | nil => simp [mapFind] at h
  | cons e rest ih =>
    obtain ⟨k1, v1⟩ := e
    unfold mapFind at h
    by_cases hk : k1 = k
    · simp [hk]
    · rw [if_neg hk] at h
      simp only [List.map_cons, List.mem_cons]
      exact Or.inr (ih h)

/-- The peer walk from a state in which `k` has no record: it returns, `k`
still has no record, and the frames sent go to records under other ids. -/
theorem updateConnectedDevicesState_walk_absent (now k fuel : Nat) (hfuel : 2 ≤ fuel) :
    ∀ (ids : List Nat) (t : UDPTunnel), mapFind t.connectedDevices k = none →
      ∃ t1 post, updateConnectedDevicesState_walk 0 now fuel ids t = some t1
        ∧ mapFind t1.connectedDevices k = none
        ∧ t1.sent = t.sent ++ post ∧ framesToOthers k t post := by
  intro ids
  induction ids with
  | nil =>
    intro t habs
    exact ⟨t, [], rfl, habs, by simp, framesToOthers_nil k t⟩
  | cons j rest ih =>
    intro t habs
    obtain ⟨t2, hvisit, -⟩ := updateDeviceVisit_returns t now j fuel hfuel
    obtain ⟨hrec, -, frames, hsent, hto⟩ := updateDeviceVisit_effect 0 now j fuel t t2 hvisit
    have habs2 : mapFind t2.connectedDevices k = none := by
      cases h2 : mapFind t2.connectedDevices k with
      | none => rfl
      | some dev1 =>
        obtain ⟨dev, hdev, -⟩ := hrec.2 k dev1 h2
        rw [habs] at hdev
        simp at hdev
    obtain ⟨t1, post, hwalk, habs1, hsent1, hpost⟩ := ih t2 habs2
    refine ⟨t1, frames ++ post, ?_, habs1, ?_, ?_⟩
    · unfold updateConnectedDevicesState_walk
      rw [hvisit]
      exact hwalk
    · rw [hsent1, hsent, List.append_assoc]
    · refine framesToOthers_append ?_ (framesToOthers_from hrec hpost)
      intro p hp
      obtain ⟨hstart, dev, hdev, hip, hport⟩ := hto p hp
      refine ⟨hstart, j, dev, ?_, hdev, hip, hport⟩
      intro hjk
      rw [hjk, habs] at hdev
      simp at hdev

/-- The peer walk over ids among which is `k`, the id of a LOST record whose
last-seen time is older than BPA_DISCONNECTED_TIMEOUT: it returns, the record
is erased, and the frames sent are those for other records, then for this one
the PING if due and one DISCONNECT, then those for other records. -/
theorem updateConnectedDevicesState_walk_erases (now k fuel : Nat) (hfuel : 2 ≤ fuel) :
    ∀ (ids : List Nat) (t : UDPTunnel) (device : internal.ConnectedDevice), k ∈ ids →
      mapFind t.connectedDevices k = some device →
      device.state = internal.State.LOST →
      elapsed now device.lastSeen > BPA_DISCONNECTED_TIMEOUT →
      ∃ t1 pre ping mid post, updateConnectedDevicesState_walk 0 now fuel ids t = some t1
        ∧ mapFind t1.connectedDevices k = none
        ∧ t1.sent = t.sent ++ pre ++ ping ++ [disconnectFrame t device mid] ++ post
        ∧ (ping = [] ∨ ∃ pid, ping = [pingFrame t device pid])
        ∧ framesToOthers k t pre ∧ framesToOthers k t post := by
  intro ids
  induction ids with
  | nil =>
    intro t device hmem
    simp at hmem
  | cons j rest ih =>
    intro t device hmem hfind hlost hexp
    obtain ⟨f, rfl⟩ : ∃ f, fuel = f + 1 := ⟨fuel - 1, by omega⟩
    by_cases hjk : j = k
    · subst hjk
      obtain ⟨t2, ping, mid, hvisit, habs, hsent, hping⟩ :=
        updateDeviceVisit_lost_expired t now j f device hfind hlost hexp
      obtain ⟨hrec, -, -⟩ := updateDeviceVisit_effect 0 now j (f + 1) t t2 hvisit
      obtain ⟨t1, post, hwalk, habs1, hsent1, hpost⟩ :=
        updateConnectedDevicesState_walk_absent now j (f + 1) hfuel rest t2 habs
      refine ⟨t1, [], ping, mid, post, ?_, habs1, ?_, hping, framesToOthers_nil j t,
        framesToOthers_from hrec hpost⟩
      · unfold updateConnectedDevicesState_walk
        rw [hvisit]
        exact hwalk
      · rw [hsent1, hsent]
        simp
    · have hmem2 : k ∈ rest := by
        rcases List.mem_cons.mp hmem with h | h
        · exact absurd h.symm hjk
        · exact h
      obtain ⟨t2, hvisit, -⟩ := updateDeviceVisit_returns t now j (f + 1) hfuel
      obtain ⟨hrec, hothers, frames, hsent, hto⟩ :=
        updateDeviceVisit_effect 0 now j (f + 1) t t2 hvisit
      have hfind2 : mapFind t2.connectedDevices k = some device := by
        rw [hothers k (fun h => hjk h.symm)]
        exact hfind
      obtain ⟨t1, pre, ping, mid, post, hwalk, habs1, hsent1, hping, hpre, hpost⟩ :=
        ih t2 device hmem2 hfind2 hlost hexp
      refine ⟨t1, frames ++ pre, ping, mid, post, ?_, habs1, ?_, ?_, ?_,
        framesToOthers_from hrec hpost⟩
      · unfold updateConnectedDevicesState_walk
        rw [hvisit]
        exact hwalk
      · rw [hsent1, hsent, disconnectFrame_congr hrec.1 rfl]
        simp
      · rcases hping with h | ⟨pid, h⟩
        · exact Or.inl h
        · exact Or.inr ⟨pid, by rw [h, pingFrame_congr hrec.1 rfl]⟩
      · refine framesToOthers_append ?_ (framesToOthers_from hrec hpre)
        intro p hp
        obtain ⟨hstart, dev, hdev, hip, hport⟩ := hto p hp
        exact ⟨hstart, j, dev, hjk, hdev, hip, hport⟩

/-- The peer walk from a state in which `k` is the id of a LOST record whose
last-seen time is not older than BPA_DISCONNECTED_TIMEOUT: it returns and the
record is still there, with its address, last-seen time and state. -/
theorem updateConnectedDevicesState_walk_keeps (now k fuel : Nat) (hfuel : 2 ≤ fuel) :
    ∀ (ids : List Nat) (t : UDPTunnel) (device : internal.ConnectedDevice),
      mapFind t.connectedDevices k = some device →
      device.state = internal.State.LOST →
      ¬ elapsed now device.lastSeen > BPA_DISCONNECTED_TIMEOUT →
      ∃ t1 device1, updateConnectedDevicesState_walk 0 now fuel ids t = some t1
        ∧ mapFind t1.connectedDevices k = some device1
        ∧ standing device1 = standing device := by
  intro ids
  induction ids with
  | nil =>
    intro t device hfind _ _
    exact ⟨t, device, rfl, hfind, rfl⟩
  | cons j rest ih =>
    intro t device hfind hlost hfresh
    obtain ⟨f, rfl⟩ : ∃ f, fuel = f + 1 := ⟨fuel - 1, by omega⟩
    by_cases hjk : j = k
    · subst hjk
      obtain ⟨t2, device2, hvisit, hfind2, hst2⟩ :=
        updateDeviceVisit_lost_fresh t now j f device hfind hlost hfresh
      have hst := hst2
      simp only [standing, Prod.mk.injEq] at hst
      obtain ⟨t1, device1, hwalk, hfind1, hst1⟩ := ih t2 device2 hfind2
        (by rw [hst.2.2.2]; exact hlost) (by rw [hst.2.2.1]; exact hfresh)
      refine ⟨t1, device1, ?_, hfind1, hst1.trans hst2⟩
      unfold updateConnectedDevicesState_walk
      rw [hvisit]
      exact hwalk
    · obtain ⟨t2, hvisit, -⟩ := updateDeviceVisit_returns t now j (f + 1) hfuel
      obtain ⟨-, hothers, -⟩ := updateDeviceVisit_effect 0 now j (f + 1) t t2 hvisit
      have hfind2 : mapFind t2.connectedDevices k = some device := by
        rw [hothers k (fun h => hjk h.symm)]
        exact hfind
      obtain ⟨t1, device1, hwalk, hfind1, hst1⟩ := ih t2 device hfind2 hlost hfresh
      refine ⟨t1, device1, ?_, hfind1, hst1⟩
      unfold updateConnectedDevicesState_walk
      rw [hvisit]
      exact hwalk

theorem disconnectsTo_append (ip port : Nat) (f g : List Packet) :
    disconnectsTo ip port (f ++ g) = disconnectsTo ip port f + disconnectsTo ip port g := by
  simp [disconnectsTo, List.countP_append]

theorem disconnectsTo_others (k : Nat) (t : UDPTunnel) (ip port : Nat) (frames : List Packet)
    (hto : framesToOthers k t frames)
    (hdistinct : ∀ i dev, i ≠ k → mapFind t.connectedDevices i = some dev →
      ¬ (dev.ip = ip ∧ dev.port = port)) :
    disconnectsTo ip port frames = 0 := by
  unfold disconnectsTo
  rw [List.countP_eq_zero]
  intro p hp
  obtain ⟨-, i, dev, hik, hfind, hip, hport⟩ := hto p hp
  simp only [decide_eq_true_eq, not_and]
  intro _ h1 h2
  exact hdistinct i dev hik hfind ⟨hip ▸ h1, hport ▸ h2⟩

/-- A poll without an inbound datagram is the lost-packet sweep, the peer walk
and the handshake sweep. -/
theorem loop_idle (t : UDPTunnel) (now fuel : Nat) (t2 : UDPTunnel)
    (h : updateConnectedDevicesState_walk 0 now fuel
      ((checkForLostPackets t now).connectedDevices.map Prod.fst) (checkForLostPackets t now)
      = some t2) :
    loop t now none fuel = some (clearStaleHandshakes t2 now) := by
  unfold loop updateConnectedDevicesState
  simp only [_readMessage]
  rw [show BPA_DISCONNECT_ON_LOST_N_PACKETS = 0 from rfl, h]
  rfl

/-- C27. Lost peer is removed. Let the peer table hold under `k` a record in
state LOST, and let the tunnel poll at time `now` with no inbound datagram
(two passes per record allowed). The poll returns. If now - last_seen exceeds
BPA_DISCONNECTED_TIMEOUT, then afterwards `k` is not in the peer table, and the
frames sent by the poll are: frames for other records, then for this record a
PING if one is due and one DISCONNECT frame to the stored address of the
record, then frames for other records; so when no other record has the same
address, the poll sends exactly one DISCONNECT frame to that address. If
now - last_seen is at most BPA_DISCONNECTED_TIMEOUT, the record stays in the
table in state LOST, with its address and last-seen time. -/
theorem lost_peer_poll (t : UDPTunnel) (now k fuel : Nat) (device : internal.ConnectedDevice)
    (hfind : mapFind t.connectedDevices k = some device)
    (hlost : device.state = internal.State.LOST)
    (hfuel : 2 ≤ fuel) :
    ∃ t1, loop t now none fuel = some t1
      ∧ (elapsed now device.lastSeen > BPA_DISCONNECTED_TIMEOUT →
          isKnownDevice t1 k = false
          ∧ (∃ pre ping mid post,
              t1.sent = t.sent ++ pre ++ ping ++ [disconnectFrame t device mid] ++ post
              ∧ (ping = [] ∨ ∃ pid, ping = [pingFrame t device pid])
              ∧ framesToOthers k t pre ∧ framesToOthers k t post)
          ∧ ((∀ i dev, i ≠ k → mapFind t.connectedDevices i = some dev →
                ¬ (dev.ip = device.ip ∧ dev.port = device.port)) →
              disconnectsTo device.ip device.port (newlySent t t1) = 1))
      ∧ (elapsed now device.lastSeen ≤ BPA_DISCONNECTED_TIMEOUT →
          isLostDevice t1 k = true
          ∧ ∃ device1, mapFind t1.connectedDevices k = some device1
              ∧ standing device1 = standing device) := by
  obtain ⟨d1, hfind1, hst1⟩ := checkForLostPackets_keeps t now k device hfind
  have hrec := checkForLostPackets_recordsFrom t now
  have hlogs := (checkForLostPackets_walk_logs now t.pendingPackets t).1
  have hst := hst1
  simp only [standing, Prod.mk.injEq] at hst
  obtain ⟨hip, hport, hseen, hstate⟩ := hst
  by_cases hexp : elapsed now device.lastSeen > BPA_DISCONNECTED_TIMEOUT
  · obtain ⟨t2, pre, ping, mid, post, hwalk, habs, hsent, hping, hpre, hpost⟩ :=
      updateConnectedDevicesState_walk_erases now k fuel hfuel
        ((checkForLostPackets t now).connectedDevices.map Prod.fst) (checkForLostPackets t now)
        d1 (mem_keys_of_mapFind _ k d1 hfind1) hfind1 (by rw [hstate]; exact hlost)
        (by rw [hseen]; exact hexp)
    have hsent2 : (clearStaleHandshakes t2 now).sent
        = t.sent ++ pre ++ ping ++ [disconnectFrame t device mid] ++ post := by
      show t2.sent = _
      rw [hsent, disconnectFrame_congr hrec.1 hst1]
      unfold checkForLostPackets
      rw [hlogs]
    have hping2 : ping = [] ∨ ∃ pid, ping = [pingFrame t device pid] := by
      rcases hping with h | ⟨pid, h⟩
      · exact Or.inl h
      · exact Or.inr ⟨pid, by rw [h, pingFrame_congr hrec.1 hst1]⟩
    have hpre2 := framesToOthers_from hrec hpre
    have hpost2 := framesToOthers_from hrec hpost
    refine ⟨clearStaleHandshakes t2 now, loop_idle t now fuel t2 hwalk, ?_, ?_⟩
    · intro _
      refine ⟨?_, ⟨pre, ping, mid, post, hsent2, hping2, hpre2, hpost2⟩, ?_⟩
      · show (mapFind t2.connectedDevices k).isSome = false
        rw [habs]
        rfl
      · intro hdistinct
        have hnew : newlySent t (clearStaleHandshakes t2 now)
            = pre ++ (ping ++ ([disconnectFrame t device mid] ++ post)) := by
          unfold newlySent
          rw [hsent2]
          simp
        rw [hnew, disconnectsTo_append, disconnectsTo_append, disconnectsTo_append,
          disconnectsTo_others k t _ _ pre hpre2 hdistinct,
          disconnectsTo_others k t _ _ post hpost2 hdistinct]
        have hd : disconnectsTo device.ip device.port [disconnectFrame t device mid] = 1 := by
          simp [disconnectsTo, disconnectFrame]
        have hp : disconnectsTo device.ip device.port ping = 0 := by
          rcases hping2 with h | ⟨pid, h⟩
          · rw [h]; rfl
          · rw [h]
            simp [disconnectsTo, pingFrame, PING, DISCONNECT]
        rw [hd, hp]
    · intro hle
      exact absurd hexp (by omega)
  · obtain ⟨t2, device2, hwalk, hfind2, hst2⟩ :=
      updateConnectedDevicesState_walk_keeps now k fuel hfuel
        ((checkForLostPackets t now).connectedDevices.map Prod.fst) (checkForLostPackets t now)
        d1 hfind1 (by rw [hstate]; exact hlost) (by rw [hseen]; exact hexp)
    refine ⟨clearStaleHandshakes t2 now, loop_idle t now fuel t2 hwalk, ?_, ?_⟩
    · intro h
      exact absurd h hexp
    · intro _
      have hst3 := hst2.trans hst1
      refine ⟨?_, device2, hfind2, hst3⟩
      show (match mapFind t2.connectedDevices k with
        | some device => decide (device.state = internal.State.LOST)
        | none => false) = true
      rw [hfind2]
      simp only [standing, Prod.mk.injEq] at hst3
      simp [hst3.2.2.2, hlost]

/-- Witness of C27 on `sampleLostTunnel`, whose record 9 is LOST and was last
seen at time 50: a poll at time 20000 erases it and sends exactly one
DISCONNECT frame to its address (2, 1002); a poll at time 5000 leaves it in
the table in state LOST. -/
theorem lost_peer_poll_witness :
    mapFind sampleLostTunnel.connectedDevices 9 = some sampleLostDevice
    ∧ sampleLostDevice.state = internal.State.LOST
    ∧ elapsed 20000 sampleLostDevice.lastSeen > BPA_DISCONNECTED_TIMEOUT
    ∧ (∃ t1, loop sampleLostTunnel 20000 none 2 = some t1
        ∧ isKnownDevice t1 9 = false
        ∧ disconnectsTo 2 1002 (newlySent sampleLostTunnel t1) = 1)
    ∧ elapsed 5000 sampleLostDevice.lastSeen ≤ BPA_DISCONNECTED_TIMEOUT
    ∧ (∃ t1, loop sampleLostTunnel 5000 none 2 = some t1 ∧ isLostDevice t1 9 = true) := by
  refine ⟨by decide, by decide, by decide, ?_, by decide, ?_⟩
  · obtain ⟨t1, hloop, hexp, -⟩ := lost_peer_poll sampleLostTunnel 20000 9 2 sampleLostDevice
      (by decide) (by decide) (by decide)
    obtain ⟨hknown, -, hcount⟩ := hexp (by decide)
    refine ⟨t1, hloop, hknown, hcount ?_⟩
    intro i dev hi hfind
    have hfind : (if 9 = i then some sampleLostDevice
        else if 11 = i then some { sampleDevice with ip := 3, port := 1003, lastSeen := 19000 }
        else none) = some dev := hfind
    rw [if_neg (fun h => hi h.symm)] at hfind
    by_cases h11 : 11 = i
    · rw [if_pos h11] at hfind
      simp only [Option.some.injEq] at hfind
      subst hfind
      decide
    · rw [if_neg h11] at hfind
      simp at hfind
  · obtain ⟨t1, hloop, -, hfresh⟩ := lost_peer_poll sampleLostTunnel 5000 9 2 sampleLostDevice
      (by decide) (by decide) (by decide)
    exact ⟨t1, hloop, (hfresh (by decide)).1⟩

end bpa

namespace bpa
open ValidationStatus

/-! ## The version check of the handshake cases -/

/-- The HANDSHAKE_INIT and HANDSHAKE_RESP cases do check the version: for every
tunnel state and every such frame whose first payload byte differs from
BPA_VERSION, processing sends one REJECTED frame (empty payload) to the remote
address of the datagram and changes nothing but the message counter and the
send log. The HANDSHAKE_COMPLETE case has no such check. -/
theorem handshake_version_mismatch_rejected (t : UDPTunnel) (now remoteIP remotePort : Nat)
    (F : BinaryMessage)
    (hstart : F.start = HANDSHAKE_INIT ∨ F.start = HANDSHAKE_RESP)
    (hversion : dataAt F 0 ≠ BPA_VERSION) :
    processReceivedMessage t now remoteIP remotePort F
      = ({ t with
            messageCounter := (generateMessageID t).2
            sent := t.sent ++ [{ ip := remoteIP, port := remotePort,
                                 message := { start := REJECTED, device_id := t.id,
                                              message_id := (generateMessageID t).2,
                                              size := 0, data := none } }] },
         false) := by
  rcases hstart with h | h
  · have hcond : ((isVersionStartByte HANDSHAKE_INIT || isControlStartByte HANDSHAKE_INIT)
        && !isKnownDevice t F.device_id) = false := by
      simp [isVersionStartByte, isControlStartByte, HANDSHAKE_INIT, START_V1]
    simp only [processReceivedMessage, h, hcond, Bool.false_eq_true, if_false, hversion,
      show ¬ HANDSHAKE_INIT = START_V1 by decide, show ¬ HANDSHAKE_INIT = CONFIRM by decide,
      show ¬ (HANDSHAKE_INIT = INCORRECT_FORMAT ∨ HANDSHAKE_INIT = INCORRECT_CHECKSUM
        ∨ HANDSHAKE_INIT = REJECTED) by decide,
      show ¬ HANDSHAKE_INIT = PING by decide,
      if_true, ne_eq, not_false_eq_true, doSend, generateMessageID]
  · have hcond : ((isVersionStartByte HANDSHAKE_RESP || isControlStartByte HANDSHAKE_RESP)
        && !isKnownDevice t F.device_id) = false := by
      simp [isVersionStartByte, isControlStartByte, HANDSHAKE_RESP, START_V1]
    simp only [processReceivedMessage, h, hcond, Bool.false_eq_true, if_false, hversion,
      show ¬ HANDSHAKE_RESP = START_V1 by decide, show ¬ HANDSHAKE_RESP = CONFIRM by decide,
      show ¬ (HANDSHAKE_RESP = INCORRECT_FORMAT ∨ HANDSHAKE_RESP = INCORRECT_CHECKSUM
        ∨ HANDSHAKE_RESP = REJECTED) by decide,
      show ¬ HANDSHAKE_RESP = PING by decide, show ¬ HANDSHAKE_RESP = HANDSHAKE_INIT by decide,
      if_true, ne_eq, not_false_eq_true, doSend, generateMessageID]

end bpa

namespace bpa
open ValidationStatus

/-! ## C37: one changed byte changes the checksum -/

theorem hashStep_lt (h b : Nat) : ((h ^^^ b) * 0xA1) % 2 ^ 16 < 65536 :=
  Nat.mod_lt _ (by norm_num)

/-- For 16-bit states and bytes, the step h -> ((h XOR b) * 0xA1) mod 2^16 is
injective in the state. -/
theorem hashStep_state_injective (h g b : Nat) (hh : h < 65536) (hg : g < 65536)
    (hb : b < 256)
    (heq : ((h ^^^ b) * 0xA1) % 2 ^ 16 = ((g ^^^ b) * 0xA1) % 2 ^ 16) : h = g := by
  have hb16 : b < 2 ^ 16 := by omega
  have h1 : h ^^^ b < 2 ^ 16 := Nat.xor_lt_two_pow (by omega) hb16
  have h2 : g ^^^ b < 2 ^ 16 := Nat.xor_lt_two_pow (by omega) hb16
  have h3 : h ^^^ b = g ^^^ b := by
    norm_num at heq h1 h2
    omega
  exact Nat.xor_left_injective h3

/-- For a 16-bit state and bytes, the step is injective in the byte. -/
theorem hashStep_byte_injective (h a b : Nat) (hh : h < 65536) (ha : a < 256) (hb : b < 256)
    (heq : ((h ^^^ a) * 0xA1) % 2 ^ 16 = ((h ^^^ b) * 0xA1) % 2 ^ 16) : a = b := by
  have h1 : h ^^^ a < 2 ^ 16 := Nat.xor_lt_two_pow (by omega) (by omega)
  have h2 : h ^^^ b < 2 ^ 16 := Nat.xor_lt_two_pow (by omega) (by omega)
  have h3 : h ^^^ a = h ^^^ b := by
    norm_num at heq h1 h2
    omega
  exact Nat.xor_right_injective h3

theorem specHash_foldl_lt (bs : List Nat) (h : Nat) (hh : h < 65536) :
    bs.foldl (fun h b => ((h ^^^ b) * 0xA1) % 2 ^ 16) h < 65536 := by
  induction bs generalizing h with
  | nil => exact hh
  | cons b rest ih => exact ih _ (hashStep_lt h b)

/-- Folding the step over the same bytes keeps two different 16-bit states
different. -/
theorem specHash_foldl_injective (bs : List Nat) (hbs : allBytes bs) (h g : Nat)
    (hh : h < 65536) (hg : g < 65536) (hne : h ≠ g) :
    bs.foldl (fun h b => ((h ^^^ b) * 0xA1) % 2 ^ 16) h
      ≠ bs.foldl (fun h b => ((h ^^^ b) * 0xA1) % 2 ^ 16) g := by
  induction bs generalizing h g with
  | nil => exact hne
  | cons b rest ih =>
    have hb : b < 256 := hbs b (List.mem_cons_self _ _)
    have hrest : allBytes rest := fun c hc => hbs c (List.mem_cons_of_mem _ hc)
    exact ih hrest _ _ (hashStep_lt h b) (hashStep_lt g b)
      (fun heq => hne (hashStep_state_injective h g b hh hg hb heq))

/-- Two lists that differ at exactly one index are a common prefix, two
different elements, and a common suffix. -/
theorem differAtOne_split (xs ys : List Nat) (hd : differAtOne xs ys) :
    ∃ p a b s, xs = p ++ a :: s ∧ ys = p ++ b :: s ∧ a ≠ b := by
  obtain ⟨hlen, hcount⟩ := hd
  obtain ⟨i, hi⟩ := List.length_eq_one.mp hcount
  have himem : i ∈ (List.range xs.length).filter (fun i => xs.getD i 0 != ys.getD i 0) := by
    rw [hi]; simp
  rw [List.mem_filter, List.mem_range] at himem
  obtain ⟨hilt, hine⟩ := himem
  have hine : xs.getD i 0 ≠ ys.getD i 0 := by simpa using hine
  have hothers : ∀ j, j < xs.length → j ≠ i → xs.getD j 0 = ys.getD j 0 := by
    intro j hj hji
    by_contra hne
    have hjmem : j ∈ (List.range xs.length).filter (fun i => xs.getD i 0 != ys.getD i 0) :=
      List.mem_filter.mpr ⟨List.mem_range.mpr hj, by simpa using hne⟩
    rw [hi] at hjmem
    simp only [List.mem_singleton] at hjmem
    exact hji hjmem
  have hys : ys = xs.set i (ys.getD i 0) := by
    apply List.ext_getElem (by simp [hlen])
    intro n h1 h2
    have hn : n < xs.length := by rw [hlen]; exact h1
    rw [List.getElem_set]
    by_cases hin : i = n
    · rw [if_pos hin]
      subst hin
      exact (List.getD_eq_getElem _ _ h1).symm
    · rw [if_neg hin]
      have := hothers n hn (fun h => hin h.symm)
      rw [List.getD_eq_getElem _ _ hn, List.getD_eq_getElem _ _ h1] at this
      exact this.symm
  refine ⟨xs.take i, xs.getD i 0, ys.getD i 0, xs.drop (i + 1), ?_, ?_, hine⟩
  · rw [List.getD_eq_getElem _ _ hilt, ← List.drop_eq_getElem_cons hilt, List.take_append_drop]
  · conv_lhs => rw [hys]
    rw [List.set_eq_take_append_cons_drop, if_pos hilt]

/-- C37. For every two byte sequences of the same length that differ at
exactly one index, fnv1a_hash16 over the whole length returns different
values. -/
theorem fnv1a_hash16_single_byte_sensitive (xs ys : List Nat)
    (hx : allBytes xs) (hy : allBytes ys) (hd : differAtOne xs ys) :
    fnv1a_hash16 xs xs.length ≠ fnv1a_hash16 ys ys.length := by
  obtain ⟨p, a, b, s, hxs, hys, hab⟩ := differAtOne_split xs ys hd
  rw [fnv1a_hash16_eq_specHash, fnv1a_hash16_eq_specHash, hxs, hys]
  unfold specHash
  rw [List.foldl_append, List.foldl_append, List.foldl_cons, List.foldl_cons]
  have hs : allBytes s := by
    intro c hc
    exact hx c (by rw [hxs]; simp [hc])
  have ha : a < 256 := hx a (by rw [hxs]; simp)
  have hb : b < 256 := hy b (by rw [hys]; simp)
  have hp := specHash_foldl_lt p 0x0097 (by norm_num)
  refine specHash_foldl_injective s hs _ _ (hashStep_lt _ a) (hashStep_lt _ b) ?_
  intro heq
  exact hab (hashStep_byte_injective _ a b hp ha hb heq)

/-- Witness of C37: 01 02 03 and 01 05 03 have different checksums. -/
theorem fnv1a_hash16_single_byte_sensitive_witness :
    fnv1a_hash16 [1, 2, 3] 3 ≠ fnv1a_hash16 [1, 5, 3] 3 :=
  fnv1a_hash16_single_byte_sensitive [1, 2, 3] [1, 5, 3] (by decide) (by decide) (by decide)

end bpa

namespace bpa
open ValidationStatus

/-! ## C31: recording activity -/

/-- When the own id of the tunnel is not a key of its peer table, recording
activity changes nothing, whatever the peer. -/
theorem connectedDevice_receivedPacket_own_id_absent (t : UDPTunnel) (now id : Nat)
    (h : isKnownDevice t t.id = false) : connectedDevice_receivedPacket t now id = t := by
  unfold connectedDevice_receivedPacket
  rw [h]
  rfl

/-- When the own id of the tunnel is a key of its peer table, recording
activity for a peer in the table does what the contract says. -/
theorem connectedDevice_receivedPacket_own_id_present (t : UDPTunnel) (now id : Nat)
    (device : internal.ConnectedDevice) (h : isKnownDevice t t.id = true)
    (hfind : mapFind t.connectedDevices id = some device) :
    connectedDevice_receivedPacket t now id
      = { t with
            connectedDevices := mapAssign t.connectedDevices id
              { device with
                  countOfLost := 0, countOfErrors := 0, lastUpdated := now, lastSeen := now,
                  lastPing := now,
                  state := if device.state = internal.State.LOST then internal.State.CONNECTED
                           else device.state } } := by
  unfold connectedDevice_receivedPacket
  rw [h, hfind]
  rfl

/-- C31 at the tunnel `sampleLostTunnel` (id 7; peer 9 LOST, last seen, updated
and pinged at time 50): recording activity for 9 at time 100 leaves the state
as it is, and so does processing a valid PING frame from 9 as far as the peer
table goes: the record keeps its times and stays LOST. -/
theorem activity_not_recorded :
    isKnownDevice sampleLostTunnel 9 = true
    ∧ connectedDevice_receivedPacket sampleLostTunnel 100 9 = sampleLostTunnel
    ∧ validate { start := PING, device_id := 9, message_id := 1, size := 0, data := none }
        = STATUS_OK
    ∧ (processReceivedMessage sampleLostTunnel 100 2 1002
          { start := PING, device_id := 9, message_id := 1, size := 0,
            data := none }).1.connectedDevices
        = sampleLostTunnel.connectedDevices
    ∧ mapFind sampleLostTunnel.connectedDevices 9
        = some { ip := 2, port := 1002, lastSeen := 50, lastUpdated := 50, lastPing := 50,
                 state := internal.State.LOST, countOfErrors := 0, countOfLost := 0 }
    ∧ isLostDevice (connectedDevice_receivedPacket sampleLostTunnel 100 9) 9 = true := by
  decide

/-! ## C36: the peer walk with disconnection on loss enabled -/

theorem pingIfDue_countOfLost (t : UDPTunnel) (now j : Nat) (device : internal.ConnectedDevice) :
    (pingIfDue t now j device).2.countOfLost = device.countOfLost := by
  unfold pingIfDue
  by_cases hp : elapsed now device.lastPing > BPA_PING_FREQUENCY
  · rw [if_pos hp]
  · rw [if_neg hp]

/-- With a limit N > 0, a pass of the loop body at a record whose count of
lost packets exceeds N sets the state LOST, emits the error, leaves the count
as it is and does not move the iterator. -/
theorem updateDeviceStep_over_limit (N : Nat) (hN : 0 < N) (t : UDPTunnel) (now k : Nat)
    (device : internal.ConnectedDevice)
    (hcount : device.countOfLost > N) :
    (updateDeviceStep N t now k device).2 = false
    ∧ (∃ device2, mapFind (updateDeviceStep N t now k device).1.connectedDevices k = some device2
        ∧ device2.countOfLost = device.countOfLost ∧ device2.state = internal.State.LOST)
    ∧ (updateDeviceStep N t now k device).1.events
        = t.events ++ [Event.error k ErrorCode.DEVICE_LOST] := by
  have hc := pingIfDue_countOfLost t now k device
  have hev : (pingIfDue t now k device).1.events = t.events := by
    unfold pingIfDue
    by_cases hp : elapsed now device.lastPing > BPA_PING_FREQUENCY
    · rw [if_pos hp]; rfl
    · rw [if_neg hp]
  unfold updateDeviceStep
  simp only
  generalize pingIfDue t now k device = pinged at hc hev
  have hA : N ≠ 0 ∧ pinged.2.countOfLost > N := ⟨by omega, by rw [hc]; exact hcount⟩
  rw [if_pos hA]
  refine ⟨rfl, ⟨{ pinged.2 with state := internal.State.LOST }, ?_, hc, rfl⟩, ?_⟩
  · exact mapFind_mapAssign_self _ _ _
  · show pinged.1.events ++ _ = _
    rw [hev]

theorem updateDeviceVisit_over_limit (N : Nat) (hN : 0 < N) (now k : Nat) :
    ∀ (fuel : Nat) (t : UDPTunnel) (device : internal.ConnectedDevice),
      mapFind t.connectedDevices k = some device → device.countOfLost > N →
      updateDeviceVisit N now k fuel t = none := by
  intro fuel
  induction fuel with
  | zero => intro t device _ _; rfl
  | succ f ih =>
    intro t device hfind hcount
    obtain ⟨hflag, ⟨device2, hfind2, hc2, -⟩, -⟩ :=
      updateDeviceStep_over_limit N hN t now k device hcount
    unfold updateDeviceVisit
    rw [hfind]
    simp only
    rw [if_neg (by rw [hflag]; decide)]
    exact ih _ device2 hfind2 (by rw [hc2]; exact hcount)

theorem updateConnectedDevicesState_walk_over_limit (N : Nat) (hN : 0 < N) (now k fuel : Nat) :
    ∀ (ids : List Nat) (t : UDPTunnel) (device : internal.ConnectedDevice), k ∈ ids →
      mapFind t.connectedDevices k = some device → device.countOfLost > N →
      updateConnectedDevicesState_walk N now fuel ids t = none := by
  intro ids
  induction ids with
  | nil => intro t device hmem; simp at hmem
  | cons j rest ih =>
    intro t device hmem hfind hcount
    unfold updateConnectedDevicesState_walk
    by_cases hjk : j = k
    · subst hjk
      rw [updateDeviceVisit_over_limit N hN now j fuel t device hfind hcount]
    · cases hvisit : updateDeviceVisit N now j fuel t with
      | none => rfl
      | some t2 =>
        simp only
        obtain ⟨-, hothers, -⟩ := updateDeviceVisit_effect N now j fuel t t2 hvisit
        have hmem2 : k ∈ rest := by
          rcases List.mem_cons.mp hmem with h | h
          · exact absurd h.symm hjk
          · exact h
        exact ih t2 device hmem2 (by rw [hothers k (fun h => hjk h.symm)]; exact hfind) hcount

/-- C36, read with the branch as an ordinary run-time test. With a limit N > 0
and a peer table that holds a record whose count of lost packets exceeds N,
the peer walk does not return, however many passes per record are allowed:
the pass at that record sets LOST and emits DEVICE_LOST but leaves the
iterator where it is and the count as it was, so the same branch is taken
again without end and no later record is treated. -/
theorem eager_loss_walk_never_returns (N : Nat) (t : UDPTunnel) (now k fuel : Nat)
    (device : internal.ConnectedDevice) (hN : 0 < N)
    (hfind : mapFind t.connectedDevices k = some device)
    (hcount : device.countOfLost > N) :
    updateConnectedDevicesState N fuel t now = none
    ∧ (updateDeviceStep N t now k device).2 = false
    ∧ (updateDeviceStep N t now k device).1.events
        = t.events ++ [Event.error k ErrorCode.DEVICE_LOST] := by
  obtain ⟨hflag, -, hev⟩ := updateDeviceStep_over_limit N hN t now k device hcount
  exact ⟨updateConnectedDevicesState_walk_over_limit N hN now k fuel _ t device
    (mem_keys_of_mapFind _ k device hfind) hfind hcount, hflag, hev⟩

/-- Witness of C36: limit 1, the sample tunnel with a count of 2 for peer 9,
one thousand passes per record allowed. -/
theorem eager_loss_walk_never_returns_witness :
    (0 < 1 ∧ mapFind sampleLossyTunnel.connectedDevices 9
        = some { sampleDevice with countOfLost := 2 }
      ∧ ({ sampleDevice with countOfLost := 2 } : internal.ConnectedDevice).countOfLost > 1)
    ∧ updateConnectedDevicesState 1 1000 sampleLossyTunnel 100 = none :=
  ⟨by decide, (eager_loss_walk_never_returns 1 sampleLossyTunnel 100 9 1000
    { sampleDevice with countOfLost := 2 } (by decide) (by decide) (by decide)).1⟩

/-! ## C39: the frames handed to the transport -/

/-- C39 at three sends of the handshake. A fresh tunnel with id 7 that calls
connect sends a frame that fails validation with STATUS_MISSED_START_BYTE
(start byte 0x3C); a fresh tunnel with id 9 that processes a valid
HANDSHAKE_INIT answers with a frame that fails in the same way (start byte
0x3E); and a tunnel with id 7 that processes a valid HANDSHAKE_RESP for its
pending seed 5 sends a HANDSHAKE_COMPLETE frame without payload, which fails
validation with STATUS_INCORRECT_FORMAT. -/
theorem handshake_frames_fail_validate :
    (connect (UDPTunnel.create 7) 100 2 1002 [5]).map
        (fun t => t.sent.map (fun p => (p.message.start, validate p.message)))
      = some [(0x3C, STATUS_MISSED_START_BYTE)]
    ∧ (processReceivedMessage (UDPTunnel.create 9) 100 1 1001
          { start := HANDSHAKE_INIT, device_id := 7, message_id := 1, size := 3,
            data := some [1, 0x0C, 0x02] }).1.sent.map
        (fun p => (p.message.start, validate p.message))
      = [(0x3E, STATUS_MISSED_START_BYTE)]
    ∧ (processReceivedMessage
          { UDPTunnel.create 7 with
              pendingConnections := [(5, { ip := 2, port := 1002, timestamp := 100 })] }
          120 2 1002
          { start := HANDSHAKE_RESP, device_id := 9, message_id := 1, size := 3,
            data := some [1, 0x0E, 0x0C] }).1.sent.map
        (fun p => (p.message.start, p.message.size, validate p.message))
      = [(HANDSHAKE_COMPLETE, 0, STATUS_INCORRECT_FORMAT)] := by
  decide

end bpa

namespace bpa
open ValidationStatus

/-! ## C34: dispatch of invalid frames -/

/-- C34. For every tunnel state and every non-empty inbound datagram that
`read` decodes as the frame F with a status other than STATUS_OK, the dispatch
of _readMessage erases the pending-ack entry under F.message_id when that id
is not 0 and then: for the statuses MISSED_START_BYTE, MISSED_DEVICE_ID and
INCORRECT_FORMAT sends exactly one INCORRECT_FORMAT frame (empty payload) to
the remote address of the datagram; for INCORRECT_CHECKSUM sends exactly one
INCORRECT_CHECKSUM frame there; for every other status sends nothing. Nothing
else changes but the message counter: the peer table, the pending-handshake
table and the events are as before, and the message returned to loop is the
empty one. -/
theorem invalid_frame_dispatch (t : UDPTunnel) (now : Nat) (d : Datagram) (F : BinaryMessage)
    (st : ValidationStatus)
    (hne : d.bytes ≠ [])
    (hread : read d.bytes = some (F, st))
    (hst : st ≠ STATUS_OK) :
    ((st = STATUS_MISSED_START_BYTE ∨ st = STATUS_MISSED_DEVICE_ID
        ∨ st = STATUS_INCORRECT_FORMAT) →
      _readMessage t now (some d)
        = ({ t with
              pendingPackets := if F.message_id ≠ 0 then mapErase t.pendingPackets F.message_id
                                else t.pendingPackets
              messageCounter := (generateMessageID t).2
              sent := t.sent ++ [{ ip := d.remoteIP, port := d.remotePort,
                                   message := { start := INCORRECT_FORMAT, device_id := t.id,
                                                message_id := (generateMessageID t).2,
                                                size := 0, data := none } }] },
           emptyMessage))
    ∧ (st = STATUS_INCORRECT_CHECKSUM →
      _readMessage t now (some d)
        = ({ t with
              pendingPackets := if F.message_id ≠ 0 then mapErase t.pendingPackets F.message_id
                                else t.pendingPackets
              messageCounter := (generateMessageID t).2
              sent := t.sent ++ [{ ip := d.remoteIP, port := d.remotePort,
                                   message := { start := INCORRECT_CHECKSUM, device_id := t.id,
                                                message_id := (generateMessageID t).2,
                                                size := 0, data := none } }] },
           emptyMessage))
    ∧ ((st = STATUS_MISSED_MESSAGE_ID ∨ st = STATUS_UNEXPECTED_END_OF_STREAM
        ∨ st = STATUS_STREAM_ERROR) →
      _readMessage t now (some d)
        = ({ t with
              pendingPackets := if F.message_id ≠ 0 then mapErase t.pendingPackets F.message_id
                                else t.pendingPackets },
           emptyMessage)) := by
  have hlen : ¬ d.bytes.length = 0 := fun h0 => hne (List.length_eq_zero.mp h0)
  have heq : _readMessage t now (some d)
      = (processInvalidMessage t d.remoteIP d.remotePort st F, emptyMessage) := by
    simp only [_readMessage, hlen, if_false, hread, hst]
  rw [heq]
  by_cases hm : F.message_id = 0
  · refine ⟨?_, ?_, ?_⟩
    · rintro (h | h | h) <;> subst h <;>
        simp [processInvalidMessage, hm, doSend, generateMessageID]
    · intro h
      subst h
      simp [processInvalidMessage, hm, doSend, generateMessageID]
    · rintro (h | h | h) <;> subst h <;> simp [processInvalidMessage, hm]
  · refine ⟨?_, ?_, ?_⟩
    · rintro (h | h | h) <;> subst h <;>
        simp [processInvalidMessage, hm, doSend, generateMessageID,
          pendingPackets_receivedResponse_eq]
    · intro h
      subst h
      simp [processInvalidMessage, hm, doSend, generateMessageID,
        pendingPackets_receivedResponse_eq]
    · rintro (h | h | h) <;> subst h <;>
        simp [processInvalidMessage, hm, pendingPackets_receivedResponse_eq]

/-- Witness of C34: the sample tunnel, holding a pending-ack entry under 1,
receives 41 01 01 00 00 97, which `read` decodes as a CONFIRM with message id 1
and the status INCORRECT_CHECKSUM. -/
theorem invalid_frame_dispatch_witness :
    read [0x41, 0x01, 0x01, 0x00, 0x00, 0x97]
      = some ({ start := CONFIRM, device_id := 1, message_id := 1, size := 0, data := none },
          STATUS_INCORRECT_CHECKSUM)
    ∧ _readMessage { sampleTunnel with pendingPackets := [(1, { timestamp := 60, device_id := 9 })] }
        100 (some { remoteIP := 2, remotePort := 1002,
                    bytes := [0x41, 0x01, 0x01, 0x00, 0x00, 0x97] })
      = ({ sampleTunnel with
            messageCounter := 1
            sent := [{ ip := 2, port := 1002,
                       message := { start := INCORRECT_CHECKSUM, device_id := 7,
                                    message_id := 1, size := 0, data := none } }] },
         emptyMessage) :=
  ⟨by decide,
   (invalid_frame_dispatch
      { sampleTunnel with pendingPackets := [(1, { timestamp := 60, device_id := 9 })] } 100
      { remoteIP := 2, remotePort := 1002, bytes := [0x41, 0x01, 0x01, 0x00, 0x00, 0x97] }
      { start := CONFIRM, device_id := 1, message_id := 1, size := 0, data := none }
      STATUS_INCORRECT_CHECKSUM (by decide) (by decide) (by decide)).2.1 rfl⟩

end bpa

namespace bpa
open ValidationStatus

/-! ## C40: the device-disconnected callback -/

theorem eventsExtend_refl (t : UDPTunnel) : eventsExtend t t :=
  ⟨[], by simp, fun e he => by simp at he⟩

theorem eventsExtend_of_eq {t t1 : UDPTunnel} (h : t1.events = t.events) : eventsExtend t t1 :=
  ⟨[], by simp [h], fun e he => by simp at he⟩

theorem eventsExtend_trans {a b c : UDPTunnel} (h1 : eventsExtend a b) (h2 : eventsExtend b c) :
    eventsExtend a c := by
  obtain ⟨n1, e1, d1⟩ := h1
  obtain ⟨n2, e2, d2⟩ := h2
  refine ⟨n1 ++ n2, by rw [e2, e1, List.append_assoc], ?_⟩
  intro e he
  rcases List.mem_append.mp he with h | h
  · exact d1 e h
  · exact d2 e h

theorem eventsExtend_of_periodicOutput {t t1 : UDPTunnel} (h : periodicOutput t t1) :
    eventsExtend t t1 := by
  obtain ⟨-, errors, -, -, hev, herr⟩ := h
  refine ⟨errors, hev, ?_⟩
  intro e he id heq
  obtain ⟨j, hj⟩ := herr e he
  rw [hj] at heq
  exact Event.noConfusion heq

theorem eventsExtend_triggerError (t : UDPTunnel) (id : Nat) (code : ErrorCode) :
    eventsExtend t (triggerError t id code) := by
  refine ⟨[Event.error id code], rfl, ?_⟩
  intro e he j heq
  simp only [List.mem_singleton] at he
  rw [he] at heq
  exact Event.noConfusion heq

theorem eventsExtend_triggerDeviceConnected (t : UDPTunnel) (id ip port : Nat) :
    eventsExtend t (triggerDeviceConnected t id ip port) := by
  refine ⟨[Event.deviceConnected id ip port], rfl, ?_⟩
  intro e he j heq
  simp only [List.mem_singleton] at he
  rw [he] at heq
  exact Event.noConfusion heq

theorem eventsExtend_triggerMessageReceived (t : UDPTunnel) (id : Nat)
    (payload : Option (List Nat)) (size : Nat) :
    eventsExtend t (triggerMessageReceived t id payload size) := by
  refine ⟨[Event.messageReceived id payload size], rfl, ?_⟩
  intro e he j heq
  simp only [List.mem_singleton] at he
  rw [he] at heq
  exact Event.noConfusion heq

theorem connectedDevice_error_events (t : UDPTunnel) (now id : Nat) :
    (connectedDevice_error t now id).events = t.events := by
  unfold connectedDevice_error
  cases mapFind t.connectedDevices id <;> rfl

theorem pendingPackets_receivedResponse_events (t : UDPTunnel) (message_id : Nat) :
    (pendingPackets_receivedResponse t message_id).events = t.events := by
  rw [pendingPackets_receivedResponse_eq]

theorem handshake_events (t : UDPTunnel) (byte seed : Nat) :
    (handshake t byte seed).events = t.events := by
  unfold handshake
  cases mapFind t.pendingConnections seed <;> rfl

theorem eventsExtend_establish (t : UDPTunnel) (now deviceId seed : Nat)
    (info : internal.HandshakeInfo) : eventsExtend t (establish t now deviceId seed info) := by
  unfold establish
  simp only
  refine eventsExtend_trans ?_ (eventsExtend_triggerDeviceConnected _ _ _ _)
  exact eventsExtend_of_eq (connectedDevice_receivedPacket_logs _ now deviceId).2.1

/-- Case analysis of processReceivedMessage: a property that holds for the
result of every branch holds for the result of the method. -/
theorem processReceivedMessage_cases (P : UDPTunnel × Bool → Prop) (t : UDPTunnel)
    (now remoteIP remotePort : Nat) (F : BinaryMessage)
    (hstranger : P ((doSend t remoteIP remotePort DISCONNECT none 0).1, false))
    (hdata : P (connectedDevice_receivedPacket
      (addPendingPackets (doSend t remoteIP remotePort CONFIRM none 0).1 now F.device_id
        (doSend t remoteIP remotePort CONFIRM none 0).2) now F.device_id, true))
    (hconfirm : P (connectedDevice_receivedPacket
      (pendingPackets_receivedResponse t F.message_id) now F.device_id, false))
    (hnack : P (triggerError
      (connectedDevice_error (pendingPackets_receivedResponse t F.message_id) now F.device_id)
      F.device_id ErrorCode.INCORRECT_FORMAT_ERROR, false))
    (hping : P (connectedDevice_receivedPacket
      (addPendingPackets (doSend t remoteIP remotePort CONFIRM none 0).1 now F.device_id
        (doSend t remoteIP remotePort CONFIRM none 0).2) now F.device_id, false))
    (hrejected : P ((doSend t remoteIP remotePort REJECTED none 0).1, false))
    (hinit : ∀ u : UDPTunnel, u.connectedDevices = t.connectedDevices → u.events = t.events →
      P (handshake u internal.HANDSHAKE_RESP (recoveredSeed t F), false))
    (hresp : ∀ info, mapFind t.pendingConnections (recoveredSeed t F) = some info →
      P ((doSend (establish t now F.device_id (recoveredSeed t F) info) info.ip info.port
        HANDSHAKE_COMPLETE none 0).1, false))
    (hcomplete : ∀ info, mapFind t.pendingConnections (recoveredSeed t F) = some info →
      P (establish t now F.device_id (recoveredSeed t F) info, false))
    (hdisconnect : F.start = DISCONNECT →
      P ({ t with connectedDevices := mapErase t.connectedDevices F.device_id }, false))
    (hnone : P (t, false)) :
    P (processReceivedMessage t now remoteIP remotePort F) := by
  unfold processReceivedMessage
  simp only
  split
  · exact hstranger
  by_cases h1 : F.start = START_V1
  · rw [if_pos h1]; exact hdata
  rw [if_neg h1]
  by_cases h2 : F.start = CONFIRM
  · rw [if_pos h2]; exact hconfirm
  rw [if_neg h2]
  by_cases h3 : F.start = INCORRECT_FORMAT ∨ F.start = INCORRECT_CHECKSUM ∨ F.start = REJECTED
  · rw [if_pos h3]; exact hnack
  rw [if_neg h3]
  by_cases h4 : F.start = PING
  · rw [if_pos h4]; exact hping
  rw [if_neg h4]
  by_cases h5 : F.start = HANDSHAKE_INIT
  · rw [if_pos h5]
    by_cases hv : dataAt F 0 ≠ BPA_VERSION
    · rw [if_pos hv]; exact hrejected
    · rw [if_neg hv]
      exact hinit _ rfl rfl
  rw [if_neg h5]
  by_cases h6 : F.start = HANDSHAKE_RESP
  · rw [if_pos h6]
    by_cases hv : dataAt F 0 ≠ BPA_VERSION
    · rw [if_pos hv]; exact hrejected
    · rw [if_neg hv]
      cases hfind : mapFind t.pendingConnections (recoveredSeed t F) with
      | none => exact hrejected
      | some info => exact hresp info hfind
  rw [if_neg h6]
  by_cases h7 : F.start = HANDSHAKE_COMPLETE
  · rw [if_pos h7]
    cases hfind : mapFind t.pendingConnections (recoveredSeed t F) with
    | none => exact hrejected
    | some info => exact hcomplete info hfind
  rw [if_neg h7]
  by_cases h8 : F.start = DISCONNECT
  · rw [if_pos h8]
    by_cases hk : isKnownDevice t F.device_id = true
    · rw [if_pos hk]; exact hdisconnect h8
    · rw [if_neg hk]; exact hnone
  rw [if_neg h8]
  exact hnone

/-- Case analysis of _readMessage: no dispatch, the dispatch of a frame read
with STATUS_OK, or the dispatch of a frame read with another status. -/
theorem readMessage_cases (P : UDPTunnel → Prop) (t : UDPTunnel) (now : Nat)
    (incoming : Option Datagram)
    (hnone : P t)
    (hvalid : ∀ d F, incoming = some d → d.bytes ≠ [] → read d.bytes = some (F, STATUS_OK) →
      P (processReceivedMessage t now d.remoteIP d.remotePort F).1)
    (hinvalid : ∀ d F st, incoming = some d → read d.bytes = some (F, st) → st ≠ STATUS_OK →
      P (processInvalidMessage t d.remoteIP d.remotePort st F)) :
    P (_readMessage t now incoming).1 := by
  unfold _readMessage
  cases incoming with
  | none => exact hnone
  | some d =>
    simp only
    by_cases h0 : d.bytes.length = 0
    · rw [if_pos h0]
      exact hnone
    · rw [if_neg h0]
      have hne : d.bytes ≠ [] := fun h => h0 (by rw [h]; rfl)
      cases hread : read d.bytes with
      | none => exact hnone
      | some r =>
        obtain ⟨F, st⟩ := r
        simp only
        by_cases hst : st = STATUS_OK
        · rw [if_pos hst]
          subst hst
          by_cases hflag : (processReceivedMessage t now d.remoteIP d.remotePort F).2 = true
          · rw [if_pos hflag]
            exact hvalid d F rfl hne hread
          · rw [if_neg hflag]
            exact hvalid d F rfl hne hread
        · rw [if_neg hst]
          exact hinvalid d F st rfl hread hst

theorem eventsExtend_processReceivedMessage (t : UDPTunnel) (now remoteIP remotePort : Nat)
    (F : BinaryMessage) :
    eventsExtend t (processReceivedMessage t now remoteIP remotePort F).1 := by
  have hrecv : ∀ s : UDPTunnel, s.events = t.events →
      eventsExtend t (connectedDevice_receivedPacket s now F.device_id) := fun s hs =>
    eventsExtend_of_eq ((connectedDevice_receivedPacket_logs s now F.device_id).2.1.trans hs)
  apply processReceivedMessage_cases (fun r => eventsExtend t r.1)
  · exact eventsExtend_of_eq rfl
  · exact hrecv _ rfl
  · exact hrecv _ (pendingPackets_receivedResponse_events t F.message_id)
  · refine eventsExtend_trans (eventsExtend_of_eq ?_) (eventsExtend_triggerError _ _ _)
    exact (connectedDevice_error_events _ now F.device_id).trans
      (pendingPackets_receivedResponse_events t F.message_id)
  · exact hrecv _ rfl
  · exact eventsExtend_of_eq rfl
  · intro u _ hev
    exact eventsExtend_of_eq ((handshake_events _ _ _).trans hev)
  · intro info _
    exact eventsExtend_trans (eventsExtend_establish t now F.device_id _ info)
      (eventsExtend_of_eq rfl)
  · intro info _
    exact eventsExtend_establish t now F.device_id _ info
  · intro _
    exact eventsExtend_of_eq rfl
  · exact eventsExtend_refl t

theorem processInvalidMessage_events (t : UDPTunnel) (remoteIP remotePort : Nat)
    (status : ValidationStatus) (F : BinaryMessage) :
    (processInvalidMessage t remoteIP remotePort status F).events = t.events := by
  unfold processInvalidMessage
  by_cases hm : F.message_id ≠ 0
  · simp only [if_pos hm]
    cases status <;> exact pendingPackets_receivedResponse_events t F.message_id
  · simp only [if_neg hm]
    cases status <;> rfl

theorem eventsExtend_readMessage (t : UDPTunnel) (now : Nat) (incoming : Option Datagram) :
    eventsExtend t (_readMessage t now incoming).1 := by
  apply readMessage_cases (fun s => eventsExtend t s)
  · exact eventsExtend_refl t
  · intro d F _ _ _
    exact eventsExtend_processReceivedMessage t now _ _ F
  · intro d F st _ _ _
    exact eventsExtend_of_eq (processInvalidMessage_events t _ _ st F)

/-- Whenever the passes at one record end, they have added only PING and
DISCONNECT frames and DEVICE_LOST errors to the logs. -/
theorem updateDeviceVisit_output (lostLimit now j : Nat) :
    ∀ (fuel : Nat) (t t1 : UDPTunnel), updateDeviceVisit lostLimit now j fuel t = some t1 →
      periodicOutput t t1 := by
  intro fuel
  induction fuel with
  | zero =>
    intro t t1 h
    simp [updateDeviceVisit] at h
  | succ f ih =>
    intro t t1 h
    unfold updateDeviceVisit at h
    cases hfind : mapFind t.connectedDevices j with
    | none =>
      rw [hfind] at h
      simp only [Option.some.injEq] at h
      subst h
      exact periodicOutput_refl t
    | some device =>
      rw [hfind] at h
      simp only at h
      have hout := updateDeviceStep_output lostLimit t now j device
      by_cases hflag : (updateDeviceStep lostLimit t now j device).2 = true
      · rw [if_pos hflag] at h
        simp only [Option.some.injEq] at h
        subst h
        exact hout
      · rw [if_neg hflag] at h
        exact periodicOutput_trans hout (ih _ t1 h)

theorem updateConnectedDevicesState_walk_output (lostLimit now fuel : Nat) :
    ∀ (ids : List Nat) (t t1 : UDPTunnel),
      updateConnectedDevicesState_walk lostLimit now fuel ids t = some t1 →
      periodicOutput t t1 := by
  intro ids
  induction ids with
  | nil =>
    intro t t1 h
    simp only [updateConnectedDevicesState_walk, Option.some.injEq] at h
    subst h
    exact periodicOutput_refl t
  | cons j rest ih =>
    intro t t1 h
    unfold updateConnectedDevicesState_walk at h
    cases hvisit : updateDeviceVisit lostLimit now j fuel t with
    | none => rw [hvisit] at h; simp at h
    | some t2 =>
      rw [hvisit] at h
      exact periodicOutput_trans (updateDeviceVisit_output lostLimit now j fuel t t2 hvisit)
        (ih t2 t1 h)

/-- The shape of a poll that returns: the frame dispatch, the lost-packet
sweep, a peer walk that returns, the handshake sweep, and the
message-received trigger when the dispatch returned a message. -/
theorem loop_eq_some (t : UDPTunnel) (now : Nat) (incoming : Option Datagram) (fuel : Nat)
    (t1 : UDPTunnel) (h : loop t now incoming fuel = some t1) :
    ∃ t2, updateConnectedDevicesState_walk 0 now fuel
        ((checkForLostPackets (_readMessage t now incoming).1 now).connectedDevices.map Prod.fst)
        (checkForLostPackets (_readMessage t now incoming).1 now) = some t2
      ∧ (t1 = clearStaleHandshakes t2 now
        ∨ t1 = triggerMessageReceived (clearStaleHandshakes t2 now)
            (_readMessage t now incoming).2.device_id (_readMessage t now incoming).2.data
            (_readMessage t now incoming).2.size) := by
  unfold loop updateConnectedDevicesState at h
  simp only at h
  rw [show BPA_DISCONNECT_ON_LOST_N_PACKETS = 0 from rfl] at h
  cases hwalk : updateConnectedDevicesState_walk 0 now fuel
      ((checkForLostPackets (_readMessage t now incoming).1 now).connectedDevices.map Prod.fst)
      (checkForLostPackets (_readMessage t now incoming).1 now) with
  | none => rw [hwalk] at h; simp at h
  | some t2 =>
    rw [hwalk] at h
    simp only at h
    refine ⟨t2, rfl, ?_⟩
    by_cases he : isMessageEmpty (_readMessage t now incoming).2 = false
    · rw [if_pos he] at h
      simp only [Option.some.injEq] at h
      exact Or.inr h.symm
    · rw [if_neg he] at h
      simp only [Option.some.injEq] at h
      exact Or.inl h.symm

/-- C40. For every tunnel state and every input, the events after
sendMessage, connect, disconnect and a poll that returns are the events before
followed by events none of which is a device-disconnected event. -/
theorem device_disconnected_never_emitted (t : UDPTunnel) :
    (∀ now dest buffer size, eventsExtend t (sendMessage t now dest buffer size))
    ∧ (∀ now ip port draws t1, connect t now ip port draws = some t1 → eventsExtend t t1)
    ∧ (∀ deviceId, eventsExtend t (disconnect t deviceId))
    ∧ (∀ now incoming fuel t1, loop t now incoming fuel = some t1 → eventsExtend t t1) := by
  refine ⟨?_, ?_, ?_, ?_⟩
  · intro now dest buffer size
    unfold sendMessage
    by_cases hc : isConnected t dest = false
    · rw [if_pos hc]
      exact eventsExtend_triggerError t dest _
    · rw [if_neg hc]
      cases mapFind t.connectedDevices dest <;> exact eventsExtend_refl t
  · intro now ip port draws t1 h
    unfold connect at h
    cases hseed : generateSeedForHandshake t draws with
    | none => rw [hseed] at h; simp at h
    | some seed =>
      rw [hseed] at h
      simp only [Option.some.injEq] at h
      subst h
      exact eventsExtend_of_eq (handshake_events _ _ _)
  · intro deviceId
    unfold disconnect
    cases mapFind t.connectedDevices deviceId <;> exact eventsExtend_refl t
  · intro now incoming fuel t1 h
    obtain ⟨t2, hwalk, hfinal⟩ := loop_eq_some t now incoming fuel t1 h
    have h1 := eventsExtend_readMessage t now incoming
    have h2 : eventsExtend (_readMessage t now incoming).1
        (checkForLostPackets (_readMessage t now incoming).1 now) :=
      eventsExtend_of_eq (checkForLostPackets_walk_logs now _ _).2
    have h3 := eventsExtend_of_periodicOutput
      (updateConnectedDevicesState_walk_output 0 now fuel _ _ t2 hwalk)
    have h4 : eventsExtend t (clearStaleHandshakes t2 now) :=
      eventsExtend_trans (eventsExtend_trans h1 h2) (eventsExtend_trans h3 (eventsExtend_of_eq rfl))
    rcases hfinal with h | h
    · rw [h]; exact h4
    · rw [h]; exact eventsExtend_trans h4 (eventsExtend_triggerMessageReceived _ _ _ _)

/-- Witness of C40: the sample tunnel loses its peer 9 by a local disconnect,
by an inbound DISCONNECT (datagram 7E 09 01 00 A7 C1) and, at time 20000, by
timeout; each time the events gain no device-disconnected event. -/
theorem device_disconnected_never_emitted_witness :
    (isKnownDevice (disconnect sampleTunnel 9) 9 = false
      ∧ eventsExtend sampleTunnel (disconnect sampleTunnel 9))
    ∧ (∃ t1, loop sampleTunnel 100
          (some { remoteIP := 2, remotePort := 1002,
                  bytes := [0x7E, 0x09, 0x01, 0x00, 0xA7, 0xC1] }) 2 = some t1
        ∧ isKnownDevice t1 9 = false ∧ eventsExtend sampleTunnel t1)
    ∧ (∃ t1, loop sampleTunnel 20000 none 2 = some t1
        ∧ isKnownDevice t1 9 = false ∧ eventsExtend sampleTunnel t1) := by
  have ha : loop sampleTunnel 100
      (some { remoteIP := 2, remotePort := 1002,
              bytes := [0x7E, 0x09, 0x01, 0x00, 0xA7, 0xC1] }) 2
      = some { sampleTunnel with connectedDevices := [] } := by decide
  obtain ⟨t3, hb, -⟩ := periodic_work_returns sampleTunnel 20000 2 (by decide)
  have hb2 : loop sampleTunnel 20000 none 2 = some (clearStaleHandshakes t3 20000) :=
    loop_idle sampleTunnel 20000 2 t3 hb
  have hknown : isKnownDevice (clearStaleHandshakes t3 20000) 9 = false := by
    have hd : (loop sampleTunnel 20000 none 2).map (fun s => isKnownDevice s 9)
        = some false := by decide
    rw [hb2] at hd
    simpa using hd
  exact ⟨⟨by decide, (device_disconnected_never_emitted sampleTunnel).2.2.1 9⟩,
    ⟨_, ha, by decide, (device_disconnected_never_emitted sampleTunnel).2.2.2 _ _ _ _ ha⟩,
    ⟨_, hb2, hknown, (device_disconnected_never_emitted sampleTunnel).2.2.2 _ _ _ _ hb2⟩⟩

end bpa

namespace bpa
open ValidationStatus

/-! ## C38: the peer states that can be reached -/

theorem mem_of_mapFind {V : Type} (m : List (Nat × V)) (k : Nat) (v : V)
    (h : mapFind m k = some v) : (k, v) ∈ m := by
  induction m with
  | nil => simp [mapFind] at h
  | cons e rest ih =>
    obtain ⟨k1, v1⟩ := e
    unfold mapFind at h
    by_cases hk : k1 = k
    · rw [if_pos hk] at h
      simp only [Option.some.injEq] at h
      subst hk
      subst h
      exact List.mem_cons_self _ _
    · rw [if_neg hk] at h
      exact List.mem_cons_of_mem _ (ih h)

theorem mem_mapAssign {V : Type} (m : List (Nat × V)) (k : Nat) (v : V) (e : Nat × V)
    (h : e ∈ mapAssign m k v) : e = (k, v) ∨ e ∈ m := by
  induction m with
  | nil =>
    simp only [mapAssign, List.mem_singleton] at h
    exact Or.inl h
  | cons e1 rest ih =>
    obtain ⟨k1, v1⟩ := e1
    unfold mapAssign at h
    by_cases h1 : k < k1
    · rw [if_pos h1] at h
      rcases List.mem_cons.mp h with h | h
      · exact Or.inl h
      · exact Or.inr h
    · rw [if_neg h1] at h
      by_cases h2 : k = k1
      · rw [if_pos h2] at h
        rcases List.mem_cons.mp h with h | h
        · exact Or.inl h
        · exact Or.inr (List.mem_cons_of_mem _ h)
      · rw [if_neg h2] at h
        rcases List.mem_cons.mp h with h | h
        · exact Or.inr (by rw [h]; exact List.mem_cons_self _ _)
        · rcases ih h with h | h
          · exact Or.inl h
          · exact Or.inr (List.mem_cons_of_mem _ h)

theorem mem_of_mem_mapErase {V : Type} (m : List (Nat × V)) (k : Nat) (e : Nat × V)
    (h : e ∈ mapErase m k) : e ∈ m :=
  (List.mem_filter.mp h).1

theorem allDisconnected_of_table_eq {t s : UDPTunnel}
    (h : s.connectedDevices = t.connectedDevices) (ht : allDisconnected t) :
    allDisconnected s := by
  intro e he
  rw [h] at he
  exact ht e he

theorem allDisconnected_mapAssign {t s : UDPTunnel} (k : Nat) (v : internal.ConnectedDevice)
    (h : s.connectedDevices = mapAssign t.connectedDevices k v)
    (hv : v.state = internal.State.DISCONNECTED) (ht : allDisconnected t) :
    allDisconnected s := by
  intro e he
  rw [h] at he
  rcases mem_mapAssign _ _ _ _ he with h1 | h1
  · rw [h1]; exact hv
  · exact ht e h1

theorem allDisconnected_mapErase {t s : UDPTunnel} (k : Nat)
    (h : s.connectedDevices = mapErase t.connectedDevices k) (ht : allDisconnected t) :
    allDisconnected s := by
  intro e he
  rw [h] at he
  exact ht e (mem_of_mem_mapErase _ _ _ he)

theorem state_of_allDisconnected {t : UDPTunnel} (ht : allDisconnected t) (k : Nat)
    (device : internal.ConnectedDevice) (hfind : mapFind t.connectedDevices k = some device) :
    device.state = internal.State.DISCONNECTED :=
  ht (k, device) (mem_of_mapFind _ _ _ hfind)

theorem allDisconnected_receivedPacket (t : UDPTunnel) (now id : Nat) (ht : allDisconnected t) :
    allDisconnected (connectedDevice_receivedPacket t now id) := by
  unfold connectedDevice_receivedPacket
  by_cases hk : (!isKnownDevice t t.id) = true
  · rw [if_pos hk]; exact ht
  · rw [if_neg hk]
    cases hfind : mapFind t.connectedDevices id with
    | none => exact ht
    | some device =>
      have hs := state_of_allDisconnected ht id device hfind
      exact allDisconnected_mapAssign id _ rfl (by simp [hs]) ht

theorem allDisconnected_error (t : UDPTunnel) (now id : Nat) (ht : allDisconnected t) :
    allDisconnected (connectedDevice_error t now id) := by
  unfold connectedDevice_error
  cases hfind : mapFind t.connectedDevices id with
  | none => exact ht
  | some device =>
    exact allDisconnected_mapAssign id _ rfl (state_of_allDisconnected ht id device hfind) ht

theorem allDisconnected_lostPacket (t : UDPTunnel) (now id : Nat) (ht : allDisconnected t) :
    allDisconnected (connectedDevice_lostPacket t now id) := by
  unfold connectedDevice_lostPacket
  cases hfind : mapFind t.connectedDevices id with
  | none => exact ht
  | some device =>
    exact allDisconnected_mapAssign id _ rfl (state_of_allDisconnected ht id device hfind) ht

theorem pendingPackets_receivedResponse_table (t : UDPTunnel) (message_id : Nat) :
    (pendingPackets_receivedResponse t message_id).connectedDevices = t.connectedDevices := by
  rw [pendingPackets_receivedResponse_eq]

theorem handshake_table (t : UDPTunnel) (byte seed : Nat) :
    (handshake t byte seed).connectedDevices = t.connectedDevices := by
  unfold handshake
  cases mapFind t.pendingConnections seed <;> rfl

theorem processInvalidMessage_table (t : UDPTunnel) (remoteIP remotePort : Nat)
    (status : ValidationStatus) (F : BinaryMessage) :
    (processInvalidMessage t remoteIP remotePort status F).connectedDevices
      = t.connectedDevices := by
  unfold processInvalidMessage
  by_cases hm : F.message_id ≠ 0
  · simp only [if_pos hm]
    cases status <;> exact pendingPackets_receivedResponse_table t F.message_id
  · simp only [if_neg hm]
    cases status <;> rfl

theorem allDisconnected_establish (t : UDPTunnel) (now deviceId seed : Nat)
    (info : internal.HandshakeInfo) (ht : allDisconnected t) :
    allDisconnected (establish t now deviceId seed info) := by
  unfold establish
  simp only
  refine allDisconnected_of_table_eq (t := connectedDevice_receivedPacket _ now deviceId) rfl ?_
  refine allDisconnected_receivedPacket _ now deviceId ?_
  exact allDisconnected_mapAssign deviceId (internal.ConnectedDevice.create info.ip info.port)
    rfl rfl ht

theorem allDisconnected_processReceivedMessage (t : UDPTunnel) (now remoteIP remotePort : Nat)
    (F : BinaryMessage) (ht : allDisconnected t) :
    allDisconnected (processReceivedMessage t now remoteIP remotePort F).1 := by
  have hrecv : ∀ s : UDPTunnel, s.connectedDevices = t.connectedDevices →
      allDisconnected (connectedDevice_receivedPacket s now F.device_id) := fun s hs =>
    allDisconnected_receivedPacket s now F.device_id (allDisconnected_of_table_eq hs ht)
  apply processReceivedMessage_cases (fun r => allDisconnected r.1)
  · exact allDisconnected_of_table_eq rfl ht
  · exact hrecv _ rfl
  · exact hrecv _ (pendingPackets_receivedResponse_table t F.message_id)
  · refine allDisconnected_of_table_eq
      (t := connectedDevice_error (pendingPackets_receivedResponse t F.message_id) now
        F.device_id) rfl ?_
    exact allDisconnected_error _ now F.device_id
      (allDisconnected_of_table_eq (pendingPackets_receivedResponse_table t F.message_id) ht)
  · exact hrecv _ rfl
  · exact allDisconnected_of_table_eq rfl ht
  · intro u hu _
    exact allDisconnected_of_table_eq ((handshake_table _ _ _).trans hu) ht
  · intro info _
    exact allDisconnected_of_table_eq
      (t := establish t now F.device_id (recoveredSeed t F) info) rfl
      (allDisconnected_establish t now F.device_id _ info ht)
  · intro info _
    exact allDisconnected_establish t now F.device_id _ info ht
  · intro _
    exact allDisconnected_mapErase F.device_id rfl ht
  · exact ht

theorem allDisconnected_readMessage (t : UDPTunnel) (now : Nat) (incoming : Option Datagram)
    (ht : allDisconnected t) : allDisconnected (_readMessage t now incoming).1 := by
  apply readMessage_cases (fun s => allDisconnected s)
  · exact ht
  · intro d F _ _ _
    exact allDisconnected_processReceivedMessage t now _ _ F ht
  · intro d F st _ _ _
    exact allDisconnected_of_table_eq (processInvalidMessage_table t _ _ st F) ht

theorem allDisconnected_checkForLostPackets_walk (now : Nat) :
    ∀ (entries : List (Nat × internal.PacketInfo)) (t : UDPTunnel), allDisconnected t →
      allDisconnected (checkForLostPackets_walk now entries t) := by
  intro entries
  induction entries with
  | nil => intro t ht; exact ht
  | cons e rest ih =>
    intro t ht
    obtain ⟨message_id, info⟩ := e
    unfold checkForLostPackets_walk
    by_cases hx : elapsed now info.timestamp > BPA_LOST_PACKET_TIMEOUT
    · rw [if_pos hx]
      refine ih _ ?_
      exact allDisconnected_of_table_eq
        (t := connectedDevice_lostPacket t now info.device_id) rfl
        (allDisconnected_lostPacket t now info.device_id ht)
    · rw [if_neg hx]
      exact ih t ht

/-- At a record in state DISCONNECTED a pass of the loop body changes neither
that state nor any other, and moves the iterator on. -/
theorem updateDeviceStep_disconnected (t : UDPTunnel) (now k : Nat)
    (device : internal.ConnectedDevice) (ht : allDisconnected t)
    (hstate : device.state = internal.State.DISCONNECTED) :
    allDisconnected (updateDeviceStep 0 t now k device).1
    ∧ (updateDeviceStep 0 t now k device).2 = true := by
  have hping : allDisconnected (pingIfDue t now k device).1
      ∧ (pingIfDue t now k device).2.state = internal.State.DISCONNECTED := by
    unfold pingIfDue
    by_cases hp : elapsed now device.lastPing > BPA_PING_FREQUENCY
    · rw [if_pos hp]
      exact ⟨allDisconnected_mapAssign k { device with lastPing := now } rfl hstate ht, hstate⟩
    · rw [if_neg hp]
      exact ⟨ht, hstate⟩
  unfold updateDeviceStep
  simp only
  generalize pingIfDue t now k device = pinged at hping
  have hA : ¬ ((0 : Nat) ≠ 0 ∧ pinged.2.countOfLost > 0) := fun hh => hh.1 rfl
  have hB : ¬ (pinged.2.state = internal.State.CONNECTED
      ∧ elapsed now pinged.2.lastSeen > BPA_STALE_TIMEOUT) := by
    intro hh
    rw [hping.2] at hh
    exact absurd hh.1 (by decide)
  have hC : ¬ (pinged.2.state = internal.State.LOST
      ∧ elapsed now pinged.2.lastSeen > BPA_DISCONNECTED_TIMEOUT) := by
    intro hh
    rw [hping.2] at hh
    exact absurd hh.1 (by decide)
  rw [if_neg hA, if_neg hB, if_neg hC]
  exact ⟨hping.1, rfl⟩

theorem allDisconnected_updateDeviceVisit (now k fuel : Nat) (t t1 : UDPTunnel)
    (h : updateDeviceVisit 0 now k fuel t = some t1) (ht : allDisconnected t) :
    allDisconnected t1 := by
  cases fuel with
  | zero => simp [updateDeviceVisit] at h
  | succ f =>
    unfold updateDeviceVisit at h
    cases hfind : mapFind t.connectedDevices k with
    | none =>
      rw [hfind] at h
      simp only [Option.some.injEq] at h
      subst h
      exact ht
    | some device =>
      rw [hfind] at h
      simp only at h
      obtain ⟨hall, hflag⟩ := updateDeviceStep_disconnected t now k device ht
        (state_of_allDisconnected ht k device hfind)
      rw [if_pos hflag] at h
      simp only [Option.some.injEq] at h
      subst h
      exact hall

theorem allDisconnected_walk (now fuel : Nat) :
    ∀ (ids : List Nat) (t t1 : UDPTunnel),
      updateConnectedDevicesState_walk 0 now fuel ids t = some t1 → allDisconnected t →
      allDisconnected t1 := by
  intro ids
  induction ids with
  | nil =>
    intro t t1 h ht
    simp only [updateConnectedDevicesState_walk, Option.some.injEq] at h
    subst h
    exact ht
  | cons j rest ih =>
    intro t t1 h ht
    unfold updateConnectedDevicesState_walk at h
    cases hvisit : updateDeviceVisit 0 now j fuel t with
    | none => rw [hvisit] at h; simp at h
    | some t2 =>
      rw [hvisit] at h
      exact ih t2 t1 h (allDisconnected_updateDeviceVisit now j fuel t t2 hvisit ht)

theorem allDisconnected_loop (t t1 : UDPTunnel) (now : Nat) (incoming : Option Datagram)
    (fuel : Nat) (h : loop t now incoming fuel = some t1) (ht : allDisconnected t) :
    allDisconnected t1 := by
  obtain ⟨t2, hwalk, hfinal⟩ := loop_eq_some t now incoming fuel t1 h
  have h1 := allDisconnected_readMessage t now incoming ht
  have h2 : allDisconnected (checkForLostPackets (_readMessage t now incoming).1 now) :=
    allDisconnected_checkForLostPackets_walk now _ _ h1
  have h3 := allDisconnected_walk now fuel _ _ t2 hwalk h2
  rcases hfinal with h | h
  · rw [h]; exact allDisconnected_of_table_eq rfl h3
  · rw [h]; exact allDisconnected_of_table_eq rfl h3

theorem allDisconnected_sendMessage (t : UDPTunnel) (now dest : Nat)
    (buffer : Option (List Nat)) (size : Nat) (ht : allDisconnected t) :
    allDisconnected (sendMessage t now dest buffer size) := by
  unfold sendMessage
  by_cases hc : isConnected t dest = false
  · rw [if_pos hc]
    exact allDisconnected_of_table_eq rfl ht
  · rw [if_neg hc]
    cases mapFind t.connectedDevices dest with
    | none => exact ht
    | some info => exact allDisconnected_of_table_eq rfl ht

theorem allDisconnected_connect (t t1 : UDPTunnel) (now ip port : Nat) (draws : List Nat)
    (h : connect t now ip port draws = some t1) (ht : allDisconnected t) :
    allDisconnected t1 := by
  unfold connect at h
  cases hseed : generateSeedForHandshake t draws with
  | none => rw [hseed] at h; simp at h
  | some seed =>
    rw [hseed] at h
    simp only [Option.some.injEq] at h
    subst h
    exact allDisconnected_of_table_eq (handshake_table _ _ _) ht

theorem allDisconnected_disconnect (t : UDPTunnel) (deviceId : Nat) (ht : allDisconnected t) :
    allDisconnected (disconnect t deviceId) := by
  unfold disconnect
  cases mapFind t.connectedDevices deviceId with
  | none => exact ht
  | some device => exact allDisconnected_mapErase deviceId rfl ht

theorem allDisconnected_of_reachable (t : UDPTunnel) (h : Reachable t) : allDisconnected t := by
  induction h with
  | byCreate id =>
    intro e he
    simp [UDPTunnel.create] at he
  | bySendMessage t now dest buffer size _ ih =>
    exact allDisconnected_sendMessage t now dest buffer size ih
  | byConnect t t1 now ip port draws _ hc ih =>
    exact allDisconnected_connect t t1 now ip port draws hc ih
  | byDisconnect t deviceId _ ih => exact allDisconnected_disconnect t deviceId ih
  | byLoop t t1 now incoming fuel _ hl ih =>
    exact allDisconnected_loop t t1 now incoming fuel hl ih

/-- C38. In every state reachable from a freshly constructed tunnel through
sendMessage, connect, disconnect and loop (default constants), every record
of the peer table has state DISCONNECTED; hence isConnected and isLostDevice
are false for every id, and sendMessage hands no frame to the transport. -/
theorem reachable_peers_disconnected (t : UDPTunnel) (h : Reachable t) :
    allDisconnected t
    ∧ (∀ id, isConnected t id = false ∧ isLostDevice t id = false)
    ∧ (∀ now dest buffer size, (sendMessage t now dest buffer size).sent = t.sent) := by
  have hall := allDisconnected_of_reachable t h
  have hconn : ∀ id, isConnected t id = false := by
    intro id
    unfold isConnected
    cases hfind : mapFind t.connectedDevices id with
    | none => rfl
    | some device =>
      simp [state_of_allDisconnected hall id device hfind]
  refine ⟨hall, ?_, ?_⟩
  · intro id
    refine ⟨hconn id, ?_⟩
    unfold isLostDevice
    cases hfind : mapFind t.connectedDevices id with
    | none => rfl
    | some device =>
      simp [state_of_allDisconnected hall id device hfind]
  · intro now dest buffer size
    unfold sendMessage
    rw [if_pos (hconn dest)]
    rfl

/-- Witness of C38: a fresh tunnel with id 7 calls connect (random draw 5) at
time 100 and polls at time 120 with the datagram 2B 09 01 03 01 0E 0C 87 74, a
correctly checksummed HANDSHAKE_RESP from device 9 for the seed 5. The state
reached has a record for 9, in state DISCONNECTED; 9 is not connected and
sendMessage to 9 sends nothing. -/
theorem reachable_peers_disconnected_witness :
    connect (UDPTunnel.create 7) 100 2 1002 [5] = some sampleConnecting
    ∧ loop sampleConnecting 120
        (some { remoteIP := 2, remotePort := 1002,
                bytes := [0x2B, 0x09, 0x01, 0x03, 0x01, 0x0E, 0x0C, 0x87, 0x74] }) 2
      = some sampleHandshaken
    ∧ isKnownDevice sampleHandshaken 9 = true
    ∧ allDisconnected sampleHandshaken
    ∧ isConnected sampleHandshaken 9 = false
    ∧ (sendMessage sampleHandshaken 130 9 (some [1, 2, 3]) 3).sent = sampleHandshaken.sent := by
  have e1 : connect (UDPTunnel.create 7) 100 2 1002 [5] = some sampleConnecting := by decide
  have e2 : loop sampleConnecting 120
      (some { remoteIP := 2, remotePort := 1002,
              bytes := [0x2B, 0x09, 0x01, 0x03, 0x01, 0x0E, 0x0C, 0x87, 0x74] }) 2
      = some sampleHandshaken := by decide
  obtain ⟨ha, hb, hc⟩ := reachable_peers_disconnected sampleHandshaken
    (Reachable.byLoop _ _ _ _ _ (Reachable.byConnect _ _ _ _ _ _ (Reachable.byCreate 7) e1) e2)
  exact ⟨e1, e2, by decide, ha, (hb 9).1, hc 130 9 (some [1, 2, 3]) 3⟩

end bpa

namespace bpa
open ValidationStatus

/-! ## C35: how a peer leaves the table -/

theorem isKnownDevice_mapAssign {t s : UDPTunnel} (j k : Nat) (v : internal.ConnectedDevice)
    (h : s.connectedDevices = mapAssign t.connectedDevices j v)
    (hk : isKnownDevice t k = true) : isKnownDevice s k = true := by
  unfold isKnownDevice at hk ⊢
  rw [h]
  by_cases hjk : k = j
  · subst hjk
    rw [mapFind_mapAssign_self]
    rfl
  · rw [mapFind_mapAssign_ne _ _ _ _ hjk]
    exact hk

theorem isKnownDevice_of_table_eq {t s : UDPTunnel}
    (h : s.connectedDevices = t.connectedDevices) (k : Nat)
    (hk : isKnownDevice t k = true) : isKnownDevice s k = true := by
  unfold isKnownDevice at hk ⊢
  rw [h]
  exact hk

theorem isKnownDevice_receivedPacket (t : UDPTunnel) (now id k : Nat)
    (hk : isKnownDevice t k = true) :
    isKnownDevice (connectedDevice_receivedPacket t now id) k = true := by
  unfold connectedDevice_receivedPacket
  by_cases hg : (!isKnownDevice t t.id) = true
  · rw [if_pos hg]; exact hk
  · rw [if_neg hg]
    cases mapFind t.connectedDevices id with
    | none => exact hk
    | some device => exact isKnownDevice_mapAssign id k _ rfl hk

theorem isKnownDevice_error (t : UDPTunnel) (now id k : Nat)
    (hk : isKnownDevice t k = true) :
    isKnownDevice (connectedDevice_error t now id) k = true := by
  unfold connectedDevice_error
  cases mapFind t.connectedDevices id with
  | none => exact hk
  | some device => exact isKnownDevice_mapAssign id k _ rfl hk

theorem isKnownDevice_establish (t : UDPTunnel) (now deviceId seed k : Nat)
    (info : internal.HandshakeInfo) (hk : isKnownDevice t k = true) :
    isKnownDevice (establish t now deviceId seed info) k = true := by
  unfold establish
  simp only
  refine isKnownDevice_of_table_eq (t := connectedDevice_receivedPacket _ now deviceId) rfl k ?_
  refine isKnownDevice_receivedPacket _ now deviceId k ?_
  exact isKnownDevice_mapAssign deviceId k (internal.ConnectedDevice.create info.ip info.port)
    rfl hk

/-- The dispatch of a valid frame removes a device from the peer table only in
the DISCONNECT case, and then the device the frame names. -/
theorem processReceivedMessage_removes (t : UDPTunnel) (now remoteIP remotePort : Nat)
    (F : BinaryMessage) (k : Nat) (hk : isKnownDevice t k = true) :
    isKnownDevice (processReceivedMessage t now remoteIP remotePort F).1 k = true
    ∨ (F.start = DISCONNECT ∧ F.device_id = k) := by
  have hrecv : ∀ s : UDPTunnel, s.connectedDevices = t.connectedDevices →
      isKnownDevice (connectedDevice_receivedPacket s now F.device_id) k = true := fun s hs =>
    isKnownDevice_receivedPacket s now F.device_id k (isKnownDevice_of_table_eq hs k hk)
  apply processReceivedMessage_cases
    (fun r => isKnownDevice r.1 k = true ∨ (F.start = DISCONNECT ∧ F.device_id = k))
  · exact Or.inl (isKnownDevice_of_table_eq rfl k hk)
  · exact Or.inl (hrecv _ rfl)
  · exact Or.inl (hrecv _ (pendingPackets_receivedResponse_table t F.message_id))
  · refine Or.inl (isKnownDevice_of_table_eq
      (t := connectedDevice_error (pendingPackets_receivedResponse t F.message_id) now
        F.device_id) rfl k ?_)
    exact isKnownDevice_error _ now F.device_id k
      (isKnownDevice_of_table_eq (pendingPackets_receivedResponse_table t F.message_id) k hk)
  · exact Or.inl (hrecv _ rfl)
  · exact Or.inl (isKnownDevice_of_table_eq rfl k hk)
  · intro u hu _
    exact Or.inl (isKnownDevice_of_table_eq ((handshake_table _ _ _).trans hu) k hk)
  · intro info _
    exact Or.inl (isKnownDevice_of_table_eq
      (t := establish t now F.device_id (recoveredSeed t F) info) rfl k
      (isKnownDevice_establish t now F.device_id _ k info hk))
  · intro info _
    exact Or.inl (isKnownDevice_establish t now F.device_id _ k info hk)
  · intro hstart
    by_cases hd : F.device_id = k
    · exact Or.inr ⟨hstart, hd⟩
    · refine Or.inl ?_
      show (mapFind (mapErase t.connectedDevices F.device_id) k).isSome = true
      rw [mapFind_mapErase_ne _ _ _ (fun h => hd h.symm)]
      exact hk
  · exact Or.inl hk

theorem readMessage_removes (t : UDPTunnel) (now : Nat) (incoming : Option Datagram) (k : Nat)
    (hk : isKnownDevice t k = true) :
    isKnownDevice (_readMessage t now incoming).1 k = true
    ∨ ∃ d F, incoming = some d ∧ d.bytes ≠ [] ∧ read d.bytes = some (F, STATUS_OK)
        ∧ F.start = DISCONNECT ∧ F.device_id = k := by
  apply readMessage_cases (fun s => isKnownDevice s k = true
    ∨ ∃ d F, incoming = some d ∧ d.bytes ≠ [] ∧ read d.bytes = some (F, STATUS_OK)
        ∧ F.start = DISCONNECT ∧ F.device_id = k)
  · exact Or.inl hk
  · intro d F hin hne hread
    rcases processReceivedMessage_removes t now d.remoteIP d.remotePort F k hk with h | h
    · exact Or.inl h
    · exact Or.inr ⟨d, F, hin, hne, hread, h.1, h.2⟩
  · intro d F st _ _ _
    exact Or.inl (isKnownDevice_of_table_eq (processInvalidMessage_table t _ _ st F) k hk)

theorem walkRemoves_congr {now : Nat} {a b : internal.ConnectedDevice}
    (h : standing b = standing a) : walkRemoves now b ↔ walkRemoves now a := by
  simp only [standing, Prod.mk.injEq] at h
  unfold walkRemoves
  rw [h.2.2.1, h.2.2.2]

/-- A pass of the loop body at a record that does not meet the removal
condition leaves a record there that does not meet it either. -/
theorem updateDeviceStep_keeps (t : UDPTunnel) (now k : Nat) (device : internal.ConnectedDevice)
    (hfind : mapFind t.connectedDevices k = some device)
    (hkeep : ¬ walkRemoves now device) :
    ∃ device2, mapFind (updateDeviceStep 0 t now k device).1.connectedDevices k = some device2
      ∧ ¬ walkRemoves now device2 := by
  obtain ⟨-, -, hself, hstand, -⟩ := pingIfDue_effect t now k device hfind
  unfold updateDeviceStep
  simp only
  generalize pingIfDue t now k device = pinged at hself hstand
  have hkeep2 : ¬ walkRemoves now pinged.2 := fun h => hkeep ((walkRemoves_congr hstand).mp h)
  have hA : ¬ ((0 : Nat) ≠ 0 ∧ pinged.2.countOfLost > 0) := fun hh => hh.1 rfl
  rw [if_neg hA]
  by_cases hB : pinged.2.state = internal.State.CONNECTED
      ∧ elapsed now pinged.2.lastSeen > BPA_STALE_TIMEOUT
  · rw [if_pos hB]
    refine ⟨{ pinged.2 with state := internal.State.LOST, lastUpdated := now },
      mapFind_mapAssign_self _ _ _, ?_⟩
    intro hrem
    exact hkeep2 ⟨hrem.1, Or.inr hB⟩
  · rw [if_neg hB]
    by_cases hC : pinged.2.state = internal.State.LOST
        ∧ elapsed now pinged.2.lastSeen > BPA_DISCONNECTED_TIMEOUT
    · exact absurd ⟨hC.2, Or.inl hC.1⟩ hkeep2
    · rw [if_neg hC]
      exact ⟨pinged.2, hself, hkeep2⟩

theorem updateDeviceVisit_keeps (now k : Nat) :
    ∀ (fuel : Nat) (t t1 : UDPTunnel) (device : internal.ConnectedDevice),
      updateDeviceVisit 0 now k fuel t = some t1 →
      mapFind t.connectedDevices k = some device → ¬ walkRemoves now device →
      ∃ device2, mapFind t1.connectedDevices k = some device2 ∧ ¬ walkRemoves now device2 := by
  intro fuel
  induction fuel with
  | zero =>
    intro t t1 device h
    simp [updateDeviceVisit] at h
  | succ f ih =>
    intro t t1 device h hfind hkeep
    unfold updateDeviceVisit at h
    rw [hfind] at h
    simp only at h
    obtain ⟨device2, hfind2, hkeep2⟩ := updateDeviceStep_keeps t now k device hfind hkeep
    by_cases hflag : (updateDeviceStep 0 t now k device).2 = true
    · rw [if_pos hflag] at h
      simp only [Option.some.injEq] at h
      subst h
      exact ⟨device2, hfind2, hkeep2⟩
    · rw [if_neg hflag] at h
      exact ih _ t1 device2 h hfind2 hkeep2

/-- The peer walk erases no record that does not meet the removal condition
when the walk starts. -/
theorem updateConnectedDevicesState_walk_keeps_others (now k fuel : Nat) :
    ∀ (ids : List Nat) (t t1 : UDPTunnel) (device : internal.ConnectedDevice),
      updateConnectedDevicesState_walk 0 now fuel ids t = some t1 →
      mapFind t.connectedDevices k = some device → ¬ walkRemoves now device →
      ∃ device2, mapFind t1.connectedDevices k = some device2 ∧ ¬ walkRemoves now device2 := by
  intro ids
  induction ids with
  | nil =>
    intro t t1 device h hfind hkeep
    simp only [updateConnectedDevicesState_walk, Option.some.injEq] at h
    subst h
    exact ⟨device, hfind, hkeep⟩
  | cons j rest ih =>
    intro t t1 device h hfind hkeep
    unfold updateConnectedDevicesState_walk at h
    cases hvisit : updateDeviceVisit 0 now j fuel t with
    | none => rw [hvisit] at h; simp at h
    | some t2 =>
      rw [hvisit] at h
      by_cases hjk : j = k
      · subst hjk
        obtain ⟨device2, hfind2, hkeep2⟩ :=
          updateDeviceVisit_keeps now j fuel t t2 device hvisit hfind hkeep
        exact ih t2 t1 device2 h hfind2 hkeep2
      · obtain ⟨-, hothers, -⟩ := updateDeviceVisit_effect 0 now j fuel t t2 hvisit
        exact ih t2 t1 device h (by rw [hothers k (fun h => hjk h.symm)]; exact hfind) hkeep

/-- C35. Let the device id `k` be in the peer table. sendMessage and connect
keep it there. disconnect removes it only when called with `k`. A poll that
returns removes it only if the datagram of the poll was read with STATUS_OK
as a DISCONNECT frame from `k`, or if the record under `k`, as it is when the
periodic work of the poll starts, is older than BPA_DISCONNECTED_TIMEOUT and
is found LOST by the peer walk (it is LOST, or it is CONNECTED and older than
BPA_STALE_TIMEOUT, so that the walk sets it LOST and finds it LOST in its next
pass). -/
theorem peer_removal_causes (t : UDPTunnel) (k : Nat) (hknown : isKnownDevice t k = true) :
    (∀ now dest buffer size, isKnownDevice (sendMessage t now dest buffer size) k = true)
    ∧ (∀ now ip port draws t1, connect t now ip port draws = some t1 →
        isKnownDevice t1 k = true)
    ∧ (∀ deviceId, isKnownDevice (disconnect t deviceId) k = false → deviceId = k)
    ∧ (∀ now incoming fuel t1, loop t now incoming fuel = some t1 →
        isKnownDevice t1 k = false →
        (∃ d F, incoming = some d ∧ d.bytes ≠ [] ∧ read d.bytes = some (F, STATUS_OK)
          ∧ F.start = DISCONNECT ∧ F.device_id = k)
        ∨ (∃ device, mapFind (_readMessage t now incoming).1.connectedDevices k = some device
            ∧ walkRemoves now device)) := by
  refine ⟨?_, ?_, ?_, ?_⟩
  · intro now dest buffer size
    unfold sendMessage
    by_cases hc : isConnected t dest = false
    · rw [if_pos hc]
      exact isKnownDevice_of_table_eq rfl k hknown
    · rw [if_neg hc]
      cases mapFind t.connectedDevices dest with
      | none => exact hknown
      | some info => exact isKnownDevice_of_table_eq rfl k hknown
  · intro now ip port draws t1 h
    unfold connect at h
    cases hseed : generateSeedForHandshake t draws with
    | none => rw [hseed] at h; simp at h
    | some seed =>
      rw [hseed] at h
      simp only [Option.some.injEq] at h
      subst h
      exact isKnownDevice_of_table_eq (handshake_table _ _ _) k hknown
  · intro deviceId hgone
    by_contra hne
    unfold disconnect at hgone
    cases hfind : mapFind t.connectedDevices deviceId with
    | none =>
      rw [hfind] at hgone
      rw [hknown] at hgone
      exact absurd hgone (by decide)
    | some device =>
      rw [hfind] at hgone
      have hstill : (mapFind (mapErase t.connectedDevices deviceId) k).isSome = true := by
        rw [mapFind_mapErase_ne _ _ _ (fun h => hne h.symm)]
        exact hknown
      have hgone : (mapFind (mapErase t.connectedDevices deviceId) k).isSome = false := hgone
      rw [hstill] at hgone
      exact absurd hgone (by decide)
  · intro now incoming fuel t1 h hgone
    obtain ⟨t2, hwalk, hfinal⟩ := loop_eq_some t now incoming fuel t1 h
    have hgone2 : mapFind t2.connectedDevices k = none := by
      have hg : (mapFind t2.connectedDevices k).isSome = false := by
        rcases hfinal with hf | hf
        · rw [hf] at hgone; exact hgone
        · rw [hf] at hgone; exact hgone
      cases hm : mapFind t2.connectedDevices k with
      | none => rfl
      | some v => rw [hm] at hg; simp at hg
    rcases readMessage_removes t now incoming k hknown with hk | hk
    · refine Or.inr ?_
      cases hfind : mapFind (_readMessage t now incoming).1.connectedDevices k with
      | none =>
        unfold isKnownDevice at hk
        rw [hfind] at hk
        exact absurd hk (by decide)
      | some device =>
        refine ⟨device, rfl, ?_⟩
        by_contra hkeep
        obtain ⟨d1, hfind1, hst1⟩ :=
          checkForLostPackets_keeps (_readMessage t now incoming).1 now k device hfind
        obtain ⟨device2, hfind2, -⟩ := updateConnectedDevicesState_walk_keeps_others now k fuel
          _ _ t2 d1 hwalk hfind1 (fun hr => hkeep ((walkRemoves_congr hst1).mp hr))
        rw [hgone2] at hfind2
        exact absurd hfind2 (by simp)
    · exact Or.inl hk

/-- Witness of C35 on the sample tunnel and its peer 9: sendMessage keeps 9;
the poll at time 100 with the DISCONNECT datagram 7E 09 01 00 A7 C1 removes 9
by the frame; the poll at time 20000 without datagram removes 9 because the
record is CONNECTED and was last seen at time 50. -/
theorem peer_removal_causes_witness :
    isKnownDevice sampleTunnel 9 = true
    ∧ isKnownDevice (sendMessage sampleTunnel 100 9 (some [1, 2, 3]) 3) 9 = true
    ∧ loop sampleTunnel 100
        (some { remoteIP := 2, remotePort := 1002,
                bytes := [0x7E, 0x09, 0x01, 0x00, 0xA7, 0xC1] }) 2
      = some { sampleTunnel with connectedDevices := [] }
    ∧ ((∃ d F, some ({ remoteIP := 2, remotePort := 1002,
                       bytes := [0x7E, 0x09, 0x01, 0x00, 0xA7, 0xC1] } : Datagram) = some d
          ∧ d.bytes ≠ [] ∧ read d.bytes = some (F, STATUS_OK)
          ∧ F.start = DISCONNECT ∧ F.device_id = 9)
        ∨ (∃ device, mapFind (_readMessage sampleTunnel 100
              (some { remoteIP := 2, remotePort := 1002,
                      bytes := [0x7E, 0x09, 0x01, 0x00, 0xA7, 0xC1] })).1.connectedDevices 9
            = some device ∧ walkRemoves 100 device))
    ∧ (∃ t1, loop sampleTunnel 20000 none 2 = some t1 ∧ isKnownDevice t1 9 = false
        ∧ ∃ device, mapFind (_readMessage sampleTunnel 20000 none).1.connectedDevices 9
            = some device ∧ walkRemoves 20000 device) := by
  have ha : loop sampleTunnel 100
      (some { remoteIP := 2, remotePort := 1002,
              bytes := [0x7E, 0x09, 0x01, 0x00, 0xA7, 0xC1] }) 2
      = some { sampleTunnel with connectedDevices := [] } := by decide
  obtain ⟨t3, hb, -⟩ := periodic_work_returns sampleTunnel 20000 2 (by decide)
  have hb2 : loop sampleTunnel 20000 none 2 = some (clearStaleHandshakes t3 20000) :=
    loop_idle sampleTunnel 20000 2 t3 hb
  have hgone : isKnownDevice (clearStaleHandshakes t3 20000) 9 = false := by
    have hd : (loop sampleTunnel 20000 none 2).map (fun s => isKnownDevice s 9)
        = some false := by decide
    rw [hb2] at hd
    simpa using hd
  refine ⟨by decide, (peer_removal_causes sampleTunnel 9 (by decide)).1 100 9 (some [1, 2, 3]) 3,
    ha, (peer_removal_causes sampleTunnel 9 (by decide)).2.2.2 _ _ _ _ ha (by decide),
    _, hb2, hgone, ?_⟩
  rcases (peer_removal_causes sampleTunnel 9 (by decide)).2.2.2 _ _ _ _ hb2 hgone with h | h
  · obtain ⟨d, F, hin, -⟩ := h
    exact absurd hin (by simp)
  · exact h

end bpa

namespace bpa
open ValidationStatus

/-! ## C32: the lost-packet sweep -/

theorem connectedDevice_lostPacket_pending (t : UDPTunnel) (now id : Nat) :
    (connectedDevice_lostPacket t now id).pendingPackets = t.pendingPackets := by
  unfold connectedDevice_lostPacket
  cases mapFind t.connectedDevices id <;> rfl

theorem recordLost_zero (now : Nat) (device : internal.ConnectedDevice) :
    recordLost now 0 device = device := by
  simp [recordLost]

theorem recordLost_succ (now n : Nat) (device : internal.ConnectedDevice) :
    recordLost now n (recordLost now 1 device) = recordLost now (n + 1) device := by
  unfold recordLost
  by_cases hn : n = 0
  · subst hn
    simp
  · simp only [hn, if_false, Nat.add_one_ne_zero, one_ne_zero]
    have : ((device.countOfLost + 1) % 256 + n) % 256 = (device.countOfLost + (n + 1)) % 256 := by
      omega
    simp [this]

theorem connectedDevice_lostPacket_table (t : UDPTunnel) (now id i : Nat) :
    mapFind (connectedDevice_lostPacket t now id).connectedDevices i
      = (mapFind t.connectedDevices i).map
          (fun device => if id = i then recordLost now 1 device else device) := by
  unfold connectedDevice_lostPacket
  cases hfind : mapFind t.connectedDevices id with
  | none =>
    by_cases hi : id = i
    · subst hi
      simp [hfind]
    · simp [hi]
  | some device =>
    by_cases hi : id = i
    · subst hi
      show mapFind (mapAssign t.connectedDevices id _) id = _
      rw [mapFind_mapAssign_self, hfind]
      simp [recordLost]
    · show mapFind (mapAssign t.connectedDevices id _) i = _
      rw [mapFind_mapAssign_ne _ _ _ _ (fun h => hi h.symm)]
      simp [hi]

/-- The sweep over the entries `entries` erases from the pending-ack table the
keys of those among them that are lost. -/
theorem checkForLostPackets_walk_pending (now : Nat) :
    ∀ (entries : List (Nat × internal.PacketInfo)) (t : UDPTunnel),
      (checkForLostPackets_walk now entries t).pendingPackets
        = t.pendingPackets.filter
            (fun e => !(entries.any (fun e1 => isLostPacket now e1 && e1.1 == e.1))) := by
  intro entries
  induction entries with
  | nil => intro t; simp [checkForLostPackets_walk]
  | cons e0 rest ih =>
    intro t
    obtain ⟨message_id, info⟩ := e0
    unfold checkForLostPackets_walk
    by_cases hx : elapsed now info.timestamp > BPA_LOST_PACKET_TIMEOUT
    · rw [if_pos hx, ih]
      show (mapErase (connectedDevice_lostPacket t now info.device_id).pendingPackets
        message_id).filter _ = _
      rw [connectedDevice_lostPacket_pending]
      unfold mapErase
      rw [List.filter_filter]
      apply List.filter_congr
      intro e _
      have hl : isLostPacket now (message_id, info) = true := by
        simp [isLostPacket, hx]
      simp only [List.any_cons, hl, Bool.true_and, Bool.not_or]
      by_cases hm : e.1 = message_id
      · simp [hm]
      · have hm2 : ¬ message_id = e.1 := fun h => hm h.symm
        have h1 : (e.1 != message_id) = true := bne_iff_ne.mpr hm
        have h2 : (message_id == e.1) = false := beq_eq_false_iff_ne.mpr hm2
        rw [h1, h2]
        simp
    · rw [if_neg hx, ih]
      apply List.filter_congr
      intro e _
      have hl : isLostPacket now (message_id, info) = false := by
        simp [isLostPacket, hx]
      simp [List.any_cons, hl]

/-- The sweep over the entries `entries` counts, for every device, the lost
entries among them that are registered against it. -/
theorem checkForLostPackets_walk_table (now i : Nat) :
    ∀ (entries : List (Nat × internal.PacketInfo)) (t : UDPTunnel),
      mapFind (checkForLostPackets_walk now entries t).connectedDevices i
        = (mapFind t.connectedDevices i).map (recordLost now (lostCount now i entries)) := by
  intro entries
  induction entries with
  | nil =>
    intro t
    cases h : mapFind t.connectedDevices i <;>
      simp [checkForLostPackets_walk, lostCount, recordLost_zero, h]
  | cons e0 rest ih =>
    intro t
    obtain ⟨message_id, info⟩ := e0
    unfold checkForLostPackets_walk
    by_cases hx : elapsed now info.timestamp > BPA_LOST_PACKET_TIMEOUT
    · rw [if_pos hx, ih]
      show (mapFind (connectedDevice_lostPacket t now info.device_id).connectedDevices i).map _
        = _
      rw [connectedDevice_lostPacket_table]
      have hl : isLostPacket now (message_id, info) = true := by
        simp [isLostPacket, hx]
      cases hfind : mapFind t.connectedDevices i with
      | none => rfl
      | some device =>
        simp only [Option.map_some', Option.some.injEq]
        by_cases hd : info.device_id = i
        · rw [if_pos hd, recordLost_succ]
          congr 1
          simp [lostCount, List.countP_cons, hl, hd]
        · rw [if_neg hd]
          congr 1
          simp [lostCount, List.countP_cons, hd]
    · rw [if_neg hx, ih]
      have hl : isLostPacket now (message_id, info) = false := by
        simp [isLostPacket, hx]
      congr 2
      simp [lostCount, List.countP_cons, hl]

theorem checkForLostPackets_walk_noop (now : Nat) :
    ∀ (entries : List (Nat × internal.PacketInfo)) (t : UDPTunnel),
      (∀ e ∈ entries, isLostPacket now e = false) →
      checkForLostPackets_walk now entries t = t := by
  intro entries
  induction entries with
  | nil => intro t _; rfl
  | cons e0 rest ih =>
    intro t h
    obtain ⟨message_id, info⟩ := e0
    have h0 := h (message_id, info) (List.mem_cons_self _ _)
    have hx : ¬ elapsed now info.timestamp > BPA_LOST_PACKET_TIMEOUT := by
      simpa [isLostPacket] using h0
    unfold checkForLostPackets_walk
    rw [if_neg hx]
    exact ih t (fun e he => h e (List.mem_cons_of_mem _ he))

/-- C32. For every tunnel state whose pending-ack table has distinct keys and
every clock value, checkForLostPackets leaves in the pending-ack table exactly
the entries that are not lost (sent at most BPA_LOST_PACKET_TIMEOUT before
now), unchanged and in order; every peer record has its count of lost packets
raised, modulo 256, by the number of lost entries registered against that peer
and, when that number is not 0, last_updated set to now, and is otherwise
unchanged (entries registered against ids outside the peer table count for
nobody); nothing is sent and no event emitted; a second sweep at the same
clock value changes nothing, the lost entries being gone; and a later sweep at
any clock value counts only among the entries that were left. -/
theorem ack_sweep (t : UDPTunnel) (now : Nat)
    (hkeys : (t.pendingPackets.map Prod.fst).Nodup) :
    (checkForLostPackets t now).pendingPackets
      = t.pendingPackets.filter (fun e => !isLostPacket now e)
    ∧ (∀ id, mapFind (checkForLostPackets t now).connectedDevices id
        = (mapFind t.connectedDevices id).map
            (recordLost now (lostCount now id t.pendingPackets)))
    ∧ (checkForLostPackets t now).sent = t.sent
    ∧ (checkForLostPackets t now).events = t.events
    ∧ checkForLostPackets (checkForLostPackets t now) now = checkForLostPackets t now
    ∧ (∀ now2 id,
        mapFind (checkForLostPackets (checkForLostPackets t now) now2).connectedDevices id
          = (mapFind (checkForLostPackets t now).connectedDevices id).map
              (recordLost now2 (lostCount now2 id
                (t.pendingPackets.filter (fun e => !isLostPacket now e))))) := by
  have hpending : (checkForLostPackets t now).pendingPackets
      = t.pendingPackets.filter (fun e => !isLostPacket now e) := by
    unfold checkForLostPackets
    rw [checkForLostPackets_walk_pending]
    apply List.filter_congr
    intro e he
    congr 1
    rw [Bool.eq_iff_iff, List.any_eq_true]
    constructor
    · rintro ⟨e1, he1, h⟩
      simp only [Bool.and_eq_true, beq_iff_eq] at h
      have : e1 = e := List.inj_on_of_nodup_map hkeys he1 he h.2
      rw [← this]
      exact h.1
    · intro h
      exact ⟨e, he, by simp [h]⟩
  refine ⟨hpending, ?_, (checkForLostPackets_walk_logs now _ t).1,
    (checkForLostPackets_walk_logs now _ t).2, ?_, ?_⟩
  · intro id
    exact checkForLostPackets_walk_table now id t.pendingPackets t
  rotate_left
  · intro now2 id
    have h : mapFind (checkForLostPackets (checkForLostPackets t now) now2).connectedDevices id
        = (mapFind (checkForLostPackets t now).connectedDevices id).map
            (recordLost now2 (lostCount now2 id (checkForLostPackets t now).pendingPackets)) :=
      checkForLostPackets_walk_table now2 id (checkForLostPackets t now).pendingPackets
        (checkForLostPackets t now)
    rw [hpending] at h
    exact h
  · have hnoop := checkForLostPackets_walk_noop now (checkForLostPackets t now).pendingPackets
      (checkForLostPackets t now) (by
        intro e he
        rw [hpending] at he
        have := (List.mem_filter.mp he).2
        simpa using this)
    exact hnoop

/-- Witness of C32: in `samplePendingTunnel` at time 20000 the entries 1 and 3
are lost and entry 2 is not; the sweep keeps entry 2 and counts one lost
packet for peer 9 (entry 3 is registered against 11, which is not a peer). -/
theorem ack_sweep_witness :
    (samplePendingTunnel.pendingPackets.map Prod.fst).Nodup
    ∧ (checkForLostPackets samplePendingTunnel 20000).pendingPackets
        = [(2, { timestamp := 19500, device_id := 9 })]
    ∧ mapFind (checkForLostPackets samplePendingTunnel 20000).connectedDevices 9
        = some { sampleDevice with countOfLost := 1, lastUpdated := 20000 } :=
  ⟨by decide,
   (ack_sweep samplePendingTunnel 20000 (by decide)).1.trans (by decide),
   ((ack_sweep samplePendingTunnel 20000 (by decide)).2.1 9).trans (by decide)⟩

end bpa

namespace bpa
open ValidationStatus

/-! ## C33: the PING of the peer walk -/

theorem elapsed_self (now : Nat) : elapsed now now = 0 := by
  unfold elapsed TIMESTAMP_MODULUS
  norm_num
  omega

theorem pingIfDue_not_due (t : UDPTunnel) (now k : Nat) (device : internal.ConnectedDevice)
    (hq : ¬ elapsed now device.lastPing > BPA_PING_FREQUENCY) :
    pingIfDue t now k device = (t, device) := by
  unfold pingIfDue
  rw [if_neg hq]

theorem pingIfDue_due (t : UDPTunnel) (now k : Nat) (device : internal.ConnectedDevice)
    (hd : elapsed now device.lastPing > BPA_PING_FREQUENCY) :
    (pingIfDue t now k device).1.sent
      = t.sent ++ [pingFrame t device (generateMessageID t).2]
    ∧ (pingIfDue t now k device).1.pendingPackets
      = mapAssign t.pendingPackets (generateMessageID t).2 { timestamp := now, device_id := k }
    ∧ (pingIfDue t now k device).1.connectedDevices
      = mapAssign t.connectedDevices k { device with lastPing := now }
    ∧ (pingIfDue t now k device).2 = { device with lastPing := now } := by
  unfold pingIfDue
  rw [if_pos hd]
  exact ⟨rfl, rfl, rfl, rfl⟩

/-- What follows the PING statement in a pass of the loop body: the frames
added are DISCONNECT frames, the record under `k` keeps its last-ping time
while it stays, and the pending-ack table is not touched. -/
theorem updateDeviceStep_after_ping (t : UDPTunnel) (now k : Nat)
    (device : internal.ConnectedDevice)
    (hfind : mapFind t.connectedDevices k = some device) :
    (∃ frames, (updateDeviceStep 0 t now k device).1.sent
        = (pingIfDue t now k device).1.sent ++ frames
      ∧ ∀ p ∈ frames, p.message.start = DISCONNECT)
    ∧ (∀ d1, mapFind (updateDeviceStep 0 t now k device).1.connectedDevices k = some d1 →
        d1.lastPing = (pingIfDue t now k device).2.lastPing)
    ∧ (updateDeviceStep 0 t now k device).1.pendingPackets
        = (pingIfDue t now k device).1.pendingPackets := by
  obtain ⟨-, -, hself, -, -⟩ := pingIfDue_effect t now k device hfind
  unfold updateDeviceStep
  simp only
  generalize pingIfDue t now k device = pinged at hself
  have hA : ¬ ((0 : Nat) ≠ 0 ∧ pinged.2.countOfLost > 0) := fun hh => hh.1 rfl
  rw [if_neg hA]
  by_cases hB : pinged.2.state = internal.State.CONNECTED
      ∧ elapsed now pinged.2.lastSeen > BPA_STALE_TIMEOUT
  · rw [if_pos hB]
    refine ⟨⟨[], by simp [triggerError], by simp⟩, ?_, rfl⟩
    intro d1 h1
    have h1 : mapFind (mapAssign pinged.1.connectedDevices k
        { pinged.2 with state := internal.State.LOST, lastUpdated := now }) k = some d1 := h1
    rw [mapFind_mapAssign_self] at h1
    simp only [Option.some.injEq] at h1
    rw [← h1]
  · rw [if_neg hB]
    by_cases hC : pinged.2.state = internal.State.LOST
        ∧ elapsed now pinged.2.lastSeen > BPA_DISCONNECTED_TIMEOUT
    · rw [if_pos hC]
      refine ⟨⟨[disconnectFrame pinged.1 pinged.2 (generateMessageID pinged.1).2], rfl, ?_⟩,
        ?_, rfl⟩
      · intro p hp
        simp only [List.mem_singleton] at hp
        rw [hp]
        rfl
      · intro d1 h1
        have h1 : mapFind (mapErase pinged.1.connectedDevices k) k = some d1 := h1
        rw [mapFind_mapErase_self] at h1
        simp at h1
    · rw [if_neg hC]
      refine ⟨⟨[], by simp, by simp⟩, ?_, rfl⟩
      intro d1 h1
      rw [hself] at h1
      simp only [Option.some.injEq] at h1
      rw [← h1]

/-- The passes at the record under `k` when that record, if there is one, has
a last-ping time `L` that is not older than BPA_PING_FREQUENCY: no PING is
sent, only DISCONNECT frames are, and the pending-ack table is not touched. -/
theorem updateDeviceVisit_quiet (now k L : Nat) (hL : ¬ elapsed now L > BPA_PING_FREQUENCY) :
    ∀ (fuel : Nat) (t t1 : UDPTunnel), updateDeviceVisit 0 now k fuel t = some t1 →
      (∀ d, mapFind t.connectedDevices k = some d → d.lastPing = L) →
      (∃ frames, t1.sent = t.sent ++ frames ∧ ∀ p ∈ frames, p.message.start = DISCONNECT)
      ∧ (∀ d, mapFind t1.connectedDevices k = some d → d.lastPing = L)
      ∧ t1.pendingPackets = t.pendingPackets := by
  intro fuel
  induction fuel with
  | zero =>
    intro t t1 h
    simp [updateDeviceVisit] at h
  | succ f ih =>
    intro t t1 h hQ
    unfold updateDeviceVisit at h
    cases hfind : mapFind t.connectedDevices k with
    | none =>
      rw [hfind] at h
      simp only [Option.some.injEq] at h
      subst h
      exact ⟨⟨[], by simp, by simp⟩, hQ, rfl⟩
    | some device =>
      rw [hfind] at h
      simp only at h
      have hlp := hQ device hfind
      have hq : ¬ elapsed now device.lastPing > BPA_PING_FREQUENCY := by rw [hlp]; exact hL
      obtain ⟨⟨frames, hsent, hdisc⟩, hrec, hpend⟩ := updateDeviceStep_after_ping t now k device hfind
      rw [pingIfDue_not_due t now k device hq] at hsent hrec hpend
      have hrec2 : ∀ d, mapFind (updateDeviceStep 0 t now k device).1.connectedDevices k = some d →
          d.lastPing = L := fun d hd => (hrec d hd).trans hlp
      by_cases hflag : (updateDeviceStep 0 t now k device).2 = true
      · rw [if_pos hflag] at h
        simp only [Option.some.injEq] at h
        subst h
        exact ⟨⟨frames, hsent, hdisc⟩, hrec2, hpend⟩
      · rw [if_neg hflag] at h
        obtain ⟨⟨frames2, hsent2, hdisc2⟩, hrec3, hpend3⟩ := ih _ t1 h hrec2
        refine ⟨⟨frames ++ frames2, ?_, ?_⟩, hrec3, hpend3.trans hpend⟩
        · rw [hsent2, hsent, List.append_assoc]
        · intro p hp
          rcases List.mem_append.mp hp with h1 | h1
          · exact hdisc p h1
          · exact hdisc2 p h1

/-- The passes at a record whose last-ping time is older than
BPA_PING_FREQUENCY: exactly one PING is sent, first, to the stored address; a
pending-ack entry for its message id is registered against the device; the
record, while it stays, has the last-ping time `now`; the other frames are
DISCONNECT frames. -/
theorem updateDeviceVisit_pings (now k : Nat) (fuel : Nat) (t t1 : UDPTunnel)
    (device : internal.ConnectedDevice)
    (h : updateDeviceVisit 0 now k fuel t = some t1)
    (hfind : mapFind t.connectedDevices k = some device)
    (hd : elapsed now device.lastPing > BPA_PING_FREQUENCY) :
    (∃ frames, t1.sent = t.sent ++ [pingFrame t device (generateMessageID t).2] ++ frames
      ∧ ∀ p ∈ frames, p.message.start = DISCONNECT)
    ∧ (∀ d, mapFind t1.connectedDevices k = some d → d.lastPing = now)
    ∧ mapFind t1.pendingPackets (generateMessageID t).2
        = some { timestamp := now, device_id := k } := by
  have hnow : ¬ elapsed now now > BPA_PING_FREQUENCY := by
    rw [elapsed_self]
    decide
  cases fuel with
  | zero => simp [updateDeviceVisit] at h
  | succ f =>
    unfold updateDeviceVisit at h
    rw [hfind] at h
    simp only at h
    obtain ⟨⟨frames, hsent, hdisc⟩, hrec, hpend⟩ := updateDeviceStep_after_ping t now k device hfind
    obtain ⟨psent, ppend, -, pdev⟩ := pingIfDue_due t now k device hd
    rw [psent] at hsent
    rw [ppend] at hpend
    rw [pdev] at hrec
    have hentry : mapFind (updateDeviceStep 0 t now k device).1.pendingPackets
        (generateMessageID t).2 = some { timestamp := now, device_id := k } := by
      rw [hpend, mapFind_mapAssign_self]
    by_cases hflag : (updateDeviceStep 0 t now k device).2 = true
    · rw [if_pos hflag] at h
      simp only [Option.some.injEq] at h
      subst h
      exact ⟨⟨frames, hsent, hdisc⟩, hrec, hentry⟩
    · rw [if_neg hflag] at h
      obtain ⟨⟨frames2, hsent2, hdisc2⟩, hrec3, hpend3⟩ :=
        updateDeviceVisit_quiet now k now hnow f _ t1 h hrec
      refine ⟨⟨frames ++ frames2, ?_, ?_⟩, hrec3, ?_⟩
      · rw [hsent2, hsent, List.append_assoc]
      · intro p hp
        rcases List.mem_append.mp hp with h1 | h1
        · exact hdisc p h1
        · exact hdisc2 p h1
      · rw [hpend3]
        exact hentry

theorem noPingFor_nil (k : Nat) (t : UDPTunnel) : noPingFor k t [] := by
  intro p hp
  simp at hp

theorem noPingFor_append {k : Nat} {t : UDPTunnel} {f g : List Packet}
    (hf : noPingFor k t f) (hg : noPingFor k t g) : noPingFor k t (f ++ g) := by
  intro p hp
  rcases List.mem_append.mp hp with h | h
  · exact hf p h
  · exact hg p h

theorem noPingFor_from {k : Nat} {t t1 : UDPTunnel} {f : List Packet}
    (hr : recordsFrom t t1) (hf : noPingFor k t1 f) : noPingFor k t f := by
  intro p hp
  rcases hf p hp with h | ⟨i, dev1, hik, hfind, hip, hport⟩
  · exact Or.inl h
  · obtain ⟨dev, hfind0, s⟩ := hr.2 i dev1 hfind
    exact Or.inr ⟨i, dev, hik, hfind0, hip.trans s.1, hport.trans s.2.1⟩

theorem noPingFor_of_framesToOthers {k : Nat} {t : UDPTunnel} {f : List Packet}
    (hf : framesToOthers k t f) : noPingFor k t f :=
  fun p hp => Or.inr (hf p hp).2

theorem noPingFor_of_disconnects (k : Nat) (t : UDPTunnel) (f : List Packet)
    (hf : ∀ p ∈ f, p.message.start = DISCONNECT) : noPingFor k t f :=
  fun p hp => Or.inl (hf p hp)

/-- The frames of the visit of a record under another id than `k` go to that
record. -/
theorem framesToOthers_of_visit (now j k fuel : Nat) (t t1 : UDPTunnel) (hjk : j ≠ k)
    (h : updateDeviceVisit 0 now j fuel t = some t1) :
    ∃ frames, t1.sent = t.sent ++ frames ∧ framesToOthers k t frames := by
  obtain ⟨-, -, frames, hsent, hto⟩ := updateDeviceVisit_effect 0 now j fuel t t1 h
  refine ⟨frames, hsent, ?_⟩
  intro p hp
  obtain ⟨hstart, dev, hdev, hip, hport⟩ := hto p hp
  exact ⟨hstart, j, dev, hjk, hdev, hip, hport⟩

/-- The peer walk from a state in which the record under `k`, if there is one,
has a last-ping time `L` not older than BPA_PING_FREQUENCY: it returns, sends
no PING for that record and leaves it, if it stays, with the last-ping time
`L`. -/
theorem updateConnectedDevicesState_walk_quiet (now k fuel L : Nat) (hfuel : 2 ≤ fuel)
    (hL : ¬ elapsed now L > BPA_PING_FREQUENCY) :
    ∀ (ids : List Nat) (t : UDPTunnel),
      (∀ d, mapFind t.connectedDevices k = some d → d.lastPing = L) →
      ∃ t1 frames, updateConnectedDevicesState_walk 0 now fuel ids t = some t1
        ∧ t1.sent = t.sent ++ frames ∧ noPingFor k t frames
        ∧ (∀ d, mapFind t1.connectedDevices k = some d → d.lastPing = L) := by
  intro ids
  induction ids with
  | nil =>
    intro t hQ
    exact ⟨t, [], rfl, by simp, noPingFor_nil k t, hQ⟩
  | cons j rest ih =>
    intro t hQ
    obtain ⟨t2, hvisit, -⟩ := updateDeviceVisit_returns t now j fuel hfuel
    obtain ⟨hrec, hothers, -⟩ := updateDeviceVisit_effect 0 now j fuel t t2 hvisit
    have hstep : ∃ frames, t2.sent = t.sent ++ frames ∧ noPingFor k t frames
        ∧ (∀ d, mapFind t2.connectedDevices k = some d → d.lastPing = L) := by
      by_cases hjk : j = k
      · subst hjk
        obtain ⟨⟨frames, hsent, hdisc⟩, hrec2, -⟩ :=
          updateDeviceVisit_quiet now j L hL fuel t t2 hvisit hQ
        exact ⟨frames, hsent, noPingFor_of_disconnects j t frames hdisc, hrec2⟩
      · obtain ⟨frames, hsent, hto⟩ := framesToOthers_of_visit now j k fuel t t2 hjk hvisit
        refine ⟨frames, hsent, noPingFor_of_framesToOthers hto, ?_⟩
        intro d hd
        rw [hothers k (fun h => hjk h.symm)] at hd
        exact hQ d hd
    obtain ⟨frames, hsent, hno, hQ2⟩ := hstep
    obtain ⟨t1, frames2, hwalk, hsent2, hno2, hQ3⟩ := ih t2 hQ2
    refine ⟨t1, frames ++ frames2, ?_, ?_, noPingFor_append hno (noPingFor_from hrec hno2), hQ3⟩
    · unfold updateConnectedDevicesState_walk
      rw [hvisit]
      exact hwalk
    · rw [hsent2, hsent, List.append_assoc]

/-- The peer walk over ids among which is `k`, the id of a record whose
last-ping time is older than BPA_PING_FREQUENCY: it returns and sends exactly
one PING for that record, to its stored address. -/
theorem updateConnectedDevicesState_walk_pings (now k fuel : Nat) (hfuel : 2 ≤ fuel) :
    ∀ (ids : List Nat) (t : UDPTunnel) (device : internal.ConnectedDevice), k ∈ ids →
      mapFind t.connectedDevices k = some device →
      elapsed now device.lastPing > BPA_PING_FREQUENCY →
      ∃ t1 pre mid post, updateConnectedDevicesState_walk 0 now fuel ids t = some t1
        ∧ t1.sent = t.sent ++ pre ++ [pingFrame t device mid] ++ post
        ∧ framesToOthers k t pre ∧ noPingFor k t post
        ∧ (∀ d, mapFind t1.connectedDevices k = some d → d.lastPing = now) := by
  have hnow : ¬ elapsed now now > BPA_PING_FREQUENCY := by
    rw [elapsed_self]
    decide
  intro ids
  induction ids with
  | nil =>
    intro t device hmem
    simp at hmem
  | cons j rest ih =>
    intro t device hmem hfind hd
    obtain ⟨t2, hvisit, -⟩ := updateDeviceVisit_returns t now j fuel hfuel
    obtain ⟨hrec, hothers, -⟩ := updateDeviceVisit_effect 0 now j fuel t t2 hvisit
    by_cases hjk : j = k
    · subst hjk
      obtain ⟨⟨frames, hsent, hdisc⟩, hrec2, -⟩ :=
        updateDeviceVisit_pings now j fuel t t2 device hvisit hfind hd
      obtain ⟨t1, frames2, hwalk, hsent2, hno2, hQ3⟩ :=
        updateConnectedDevicesState_walk_quiet now j fuel now hfuel hnow rest t2 hrec2
      refine ⟨t1, [], (generateMessageID t).2, frames ++ frames2, ?_, ?_,
        framesToOthers_nil j t,
        noPingFor_append (noPingFor_of_disconnects j t frames hdisc) (noPingFor_from hrec hno2),
        hQ3⟩
      · unfold updateConnectedDevicesState_walk
        rw [hvisit]
        exact hwalk
      · rw [hsent2, hsent]
        simp
    · have hmem2 : k ∈ rest := by
        rcases List.mem_cons.mp hmem with h | h
        · exact absurd h.symm hjk
        · exact h
      obtain ⟨frames, hsent, hto⟩ := framesToOthers_of_visit now j k fuel t t2 hjk hvisit
      have hfind2 : mapFind t2.connectedDevices k = some device := by
        rw [hothers k (fun h => hjk h.symm)]
        exact hfind
      obtain ⟨t1, pre, mid, post, hwalk, hsent1, hpre, hpost, hQ⟩ :=
        ih t2 device hmem2 hfind2 hd
      refine ⟨t1, frames ++ pre, mid, post, ?_, ?_,
        framesToOthers_append hto (framesToOthers_from hrec hpre),
        noPingFor_from hrec hpost, hQ⟩
      · unfold updateConnectedDevicesState_walk
        rw [hvisit]
        exact hwalk
      · rw [hsent1, hsent, pingFrame_congr hrec.1 rfl]
        simp

theorem pingsTo_append (ip port : Nat) (f g : List Packet) :
    pingsTo ip port (f ++ g) = pingsTo ip port f + pingsTo ip port g := by
  simp [pingsTo, List.countP_append]

theorem pingsTo_noPingFor (k : Nat) (t : UDPTunnel) (ip port : Nat) (frames : List Packet)
    (hno : noPingFor k t frames)
    (hdistinct : ∀ i dev, i ≠ k → mapFind t.connectedDevices i = some dev →
      ¬ (dev.ip = ip ∧ dev.port = port)) :
    pingsTo ip port frames = 0 := by
  unfold pingsTo
  rw [List.countP_eq_zero]
  intro p hp
  simp only [decide_eq_true_eq, not_and]
  intro hstart h1 h2
  rcases hno p hp with h | ⟨i, dev, hik, hfind, hip, hport⟩
  · rw [h] at hstart
    exact absurd hstart (by decide)
  · exact hdistinct i dev hik hfind ⟨hip ▸ h1, hport ▸ h2⟩

theorem recordLost_standing (now n : Nat) (device : internal.ConnectedDevice) :
    standing (recordLost now n device) = standing device
    ∧ (recordLost now n device).lastPing = device.lastPing := by
  unfold recordLost
  by_cases hn : n = 0
  · rw [if_pos hn]; exact ⟨rfl, rfl⟩
  · rw [if_neg hn]; exact ⟨rfl, rfl⟩

/-- C33 as amended. Let the peer table hold the record `device` under `k`.
The PING statement of the peer walk at that record: when now - last_ping is
greater than BPA_PING_FREQUENCY it sends one PING frame to the stored address,
registers a pending-ack entry for the message id of that PING against `k` and
sets last_ping to now; when now - last_ping is at most BPA_PING_FREQUENCY it
does nothing. The whole poll (no inbound datagram, two passes per record
allowed) returns; in the first case it sends exactly one PING for the record
(every other frame of the poll is a DISCONNECT or goes to another record) and
the record, if it is still in the table, has last_ping = now; in the second
case it sends no PING for the record and leaves its last_ping as it was. -/
theorem ping_cadence (t : UDPTunnel) (now k fuel : Nat) (device : internal.ConnectedDevice)
    (hfind : mapFind t.connectedDevices k = some device)
    (hfuel : 2 ≤ fuel) :
    (elapsed now device.lastPing > BPA_PING_FREQUENCY →
      ∃ mid, (pingIfDue t now k device).1.sent = t.sent ++ [pingFrame t device mid]
        ∧ mapFind (pingIfDue t now k device).1.pendingPackets mid
            = some { timestamp := now, device_id := k }
        ∧ mapFind (pingIfDue t now k device).1.connectedDevices k
            = some { device with lastPing := now })
    ∧ (elapsed now device.lastPing ≤ BPA_PING_FREQUENCY → (pingIfDue t now k device).1 = t)
    ∧ ∃ t1, loop t now none fuel = some t1
      ∧ (elapsed now device.lastPing > BPA_PING_FREQUENCY →
          (∃ pre mid post, t1.sent = t.sent ++ pre ++ [pingFrame t device mid] ++ post
            ∧ framesToOthers k t pre ∧ noPingFor k t post)
          ∧ (∀ d, mapFind t1.connectedDevices k = some d → d.lastPing = now)
          ∧ ((∀ i dev, i ≠ k → mapFind t.connectedDevices i = some dev →
                ¬ (dev.ip = device.ip ∧ dev.port = device.port)) →
              pingsTo device.ip device.port (newlySent t t1) = 1))
      ∧ (elapsed now device.lastPing ≤ BPA_PING_FREQUENCY →
          (∃ frames, t1.sent = t.sent ++ frames ∧ noPingFor k t frames)
          ∧ (∀ d, mapFind t1.connectedDevices k = some d → d.lastPing = device.lastPing)
          ∧ ((∀ i dev, i ≠ k → mapFind t.connectedDevices i = some dev →
                ¬ (dev.ip = device.ip ∧ dev.port = device.port)) →
              pingsTo device.ip device.port (newlySent t t1) = 0)) := by
  have hrec := checkForLostPackets_recordsFrom t now
  have hlogs := (checkForLostPackets_walk_logs now t.pendingPackets t).1
  have hfind1 : mapFind (checkForLostPackets t now).connectedDevices k
      = some (recordLost now (lostCount now k t.pendingPackets) device) := by
    unfold checkForLostPackets
    rw [checkForLostPackets_walk_table, hfind]
    rfl
  obtain ⟨hst1, hlp1⟩ := recordLost_standing now (lostCount now k t.pendingPackets) device
  refine ⟨?_, ?_, ?_⟩
  · intro hd
    obtain ⟨psent, ppend, ptable, -⟩ := pingIfDue_due t now k device hd
    refine ⟨(generateMessageID t).2, psent, ?_, ?_⟩
    · rw [ppend, mapFind_mapAssign_self]
    · rw [ptable, mapFind_mapAssign_self]
  · intro hq
    rw [pingIfDue_not_due t now k device (by omega)]
  · by_cases hd : elapsed now device.lastPing > BPA_PING_FREQUENCY
    · obtain ⟨t2, pre, mid, post, hwalk, hsent, hpre, hpost, hQ⟩ :=
        updateConnectedDevicesState_walk_pings now k fuel hfuel
          ((checkForLostPackets t now).connectedDevices.map Prod.fst) (checkForLostPackets t now)
          _ (mem_keys_of_mapFind _ k _ hfind1) hfind1 (by rw [hlp1]; exact hd)
      have hsent2 : (clearStaleHandshakes t2 now).sent
          = t.sent ++ pre ++ [pingFrame t device mid] ++ post := by
        show t2.sent = _
        rw [hsent, pingFrame_congr hrec.1 hst1]
        unfold checkForLostPackets
        rw [hlogs]
      have hpre2 := framesToOthers_from hrec hpre
      have hpost2 := noPingFor_from hrec hpost
      refine ⟨clearStaleHandshakes t2 now, loop_idle t now fuel t2 hwalk, ?_, ?_⟩
      · intro _
        refine ⟨⟨pre, mid, post, hsent2, hpre2, hpost2⟩, hQ, ?_⟩
        intro hdistinct
        have hnew : newlySent t (clearStaleHandshakes t2 now)
            = pre ++ ([pingFrame t device mid] ++ post) := by
          unfold newlySent
          rw [hsent2]
          simp
        rw [hnew, pingsTo_append, pingsTo_append,
          pingsTo_noPingFor k t _ _ pre (noPingFor_of_framesToOthers hpre2) hdistinct,
          pingsTo_noPingFor k t _ _ post hpost2 hdistinct]
        simp [pingsTo, pingFrame]
      · intro hle
        exact absurd hd (by omega)
    · obtain ⟨t2, frames, hwalk, hsent, hno, hQ⟩ :=
        updateConnectedDevicesState_walk_quiet now k fuel device.lastPing hfuel hd
          ((checkForLostPackets t now).connectedDevices.map Prod.fst) (checkForLostPackets t now)
          (by
            intro d hfd
            rw [hfind1] at hfd
            simp only [Option.some.injEq] at hfd
            rw [← hfd]
            exact hlp1)
      have hsent2 : (clearStaleHandshakes t2 now).sent = t.sent ++ frames := by
        show t2.sent = _
        rw [hsent]
        unfold checkForLostPackets
        rw [hlogs]
      have hno2 := noPingFor_from hrec hno
      refine ⟨clearStaleHandshakes t2 now, loop_idle t now fuel t2 hwalk, ?_, ?_⟩
      · intro h
        exact absurd h hd
      · intro _
        refine ⟨⟨frames, hsent2, hno2⟩, hQ, ?_⟩
        intro hdistinct
        have hnew : newlySent t (clearStaleHandshakes t2 now) = frames := by
          unfold newlySent
          rw [hsent2]
          simp
        rw [hnew]
        exact pingsTo_noPingFor k t _ _ frames hno2 hdistinct

/-- Witness of C33 as amended on the sample tunnel, whose peer 9 was last
pinged at time 50: the poll at time 1051 sends exactly one PING to (2, 1002);
the poll at time 1050, when now - last_ping equals BPA_PING_FREQUENCY, sends
none. -/
theorem ping_cadence_witness :
    mapFind sampleTunnel.connectedDevices 9 = some sampleDevice
    ∧ elapsed 1051 sampleDevice.lastPing > BPA_PING_FREQUENCY
    ∧ (∃ t1, loop sampleTunnel 1051 none 2 = some t1
        ∧ pingsTo 2 1002 (newlySent sampleTunnel t1) = 1
        ∧ ∀ d, mapFind t1.connectedDevices 9 = some d → d.lastPing = 1051)
    ∧ elapsed 1050 sampleDevice.lastPing ≤ BPA_PING_FREQUENCY
    ∧ (∃ t1, loop sampleTunnel 1050 none 2 = some t1
        ∧ pingsTo 2 1002 (newlySent sampleTunnel t1) = 0) := by
  have hdistinct : ∀ i dev, i ≠ 9 → mapFind sampleTunnel.connectedDevices i = some dev →
      ¬ (dev.ip = sampleDevice.ip ∧ dev.port = sampleDevice.port) := by
    intro i dev hi hfind
    have hfind : (if 9 = i then some sampleDevice else none) = some dev := hfind
    rw [if_neg (fun h => hi h.symm)] at hfind
    simp at hfind
  refine ⟨by decide, by decide, ?_, by decide, ?_⟩
  · obtain ⟨-, -, t1, hloop, hdue, -⟩ := ping_cadence sampleTunnel 1051 9 2 sampleDevice
      (by decide) (by decide)
    obtain ⟨-, hlast, hcount⟩ := hdue (by decide)
    exact ⟨t1, hloop, hcount hdistinct, hlast⟩
  · obtain ⟨-, -, t1, hloop, -, hquiet⟩ := ping_cadence sampleTunnel 1050 9 2 sampleDevice
      (by decide) (by decide)
    obtain ⟨-, -, hcount⟩ := hquiet (by decide)
    exact ⟨t1, hloop, hcount hdistinct⟩

/-- C33 as stated fails when now - last_ping equals BPA_PING_FREQUENCY: the
sample tunnel, whose peer 9 was last pinged at time 50, polls at time 1050 and
sends nothing; the state is unchanged. -/
theorem ping_at_frequency_counterexample :
    elapsed 1050 sampleDevice.lastPing ≥ BPA_PING_FREQUENCY
    ∧ mapFind sampleTunnel.connectedDevices 9 = some sampleDevice
    ∧ loop sampleTunnel 1050 none 2 = some sampleTunnel := by
  decide

end bpa

namespace bpa
open ValidationStatus

/-! ## The replies and notices do pass validation -/

/-- A frame without payload whose start byte is CONFIRM, INCORRECT_FORMAT,
INCORRECT_CHECKSUM, PING, REJECTED or DISCONNECT and whose device id and
message id are not 0 passes validation: of the frames doSend is asked for, it
is the handshake frames that fail. -/
theorem control_frame_valid (start id mid : Nat)
    (hstart : start = CONFIRM ∨ start = INCORRECT_FORMAT ∨ start = INCORRECT_CHECKSUM
      ∨ start = PING ∨ start = REJECTED ∨ start = DISCONNECT)
    (hid : id ≠ 0) (hmid : mid ≠ 0) :
    validate { start := start, device_id := id, message_id := mid, size := 0, data := none }
      = STATUS_OK := by
  rcases hstart with h | h | h | h | h | h <;> subst h <;>
    simp [validate, isSupportedStartByte, SUPPORTED_START_BYTES, hid, hmid, START_V1, CONFIRM,
      INCORRECT_FORMAT, INCORRECT_CHECKSUM, PING, REJECTED, HANDSHAKE_INIT, HANDSHAKE_RESP,
      HANDSHAKE_COMPLETE, DISCONNECT]

end bpa
